import Mathlib

/-!
# Funds-transfer core of the online banking server

A shallow embedding of `server/routes/transaction.js` (the `POST /transfer` handler) together
with the pieces of the JavaScript runtime and of the SQL storage layer that the handler relies on.
Further down the token check of `server/middleware/auth.js`, the `POST /register` handler of
`server/routes/auth.js` and the `GET /history` handler of `server/routes/account.js` are
embedded in the same style.

Modelling conventions.

* JavaScript numbers are `JsNum`: `NaN`, the two infinities, or a finite IEEE 754 binary64
  value, held as the rational it equals. Whatever yields a number (reading a literal or a
  string, an arithmetic operator) rounds to the nearest such value, ties to even (`toDouble`).
  The sign of zero is not kept: no step of the handlers tells `-0` from `0`.
* A stored balance is a fixed-point amount with two decimals, held as its number of hundredths.
  Each `UPDATE` stores its own result rounded to that scale.
* The request body fields are `JsVal`s, so that the truthiness, `typeof` and `parseFloat` steps
  of the validation can be followed on every JSON value.
* The storage layer is a connection with committed tables and the working tables of an open
  unit of work. Every storage call of the handler may fail; `Env.fault` says which ones do and
  with which error message.
* The handler returns the HTTP response, the committed tables after the call, and the list of
  storage calls it issued, in order.
-/

namespace Banking

/-! ## JavaScript values -/

/-- A JavaScript number: `NaN`, `Infinity`, `-Infinity`, or a finite value. -/
inductive JsNum where
  | nan
  | posInf
  | negInf
  | fin (q : ℚ)
deriving DecidableEq

/-! ### Rounding to binary64 -/

/-- The rational `2 ^ e`. -/
def pow2 (e : Int) : ℚ :=
  if 0 ≤ e then ((2 ^ e.toNat : Nat) : ℚ) else 1 / ((2 ^ (-e).toNat : Nat) : ℚ)

/-- Number of binary digits of `n`, counted with at most `fuel` halvings. -/
def bitLengthAux : Nat → Nat → Nat
  | 0, _ => 0
  | fuel + 1, n => if n = 0 then 0 else bitLengthAux fuel (n / 2) + 1

/-- Number of binary digits of a natural number (`0` for `0`). -/
def bitLength (n : Nat) : Nat :=
  bitLengthAux n n

/-- For a positive rational `a`, the exponent `e` with `2 ^ e ≤ a < 2 ^ (e + 1)`. -/
def floorLog2 (a : ℚ) : Int :=
  let k : Int := (bitLength a.num.natAbs : Int) - (bitLength a.den : Int)
  if pow2 k ≤ a then k else k - 1

/-- Round to the nearest integer, a tie to the even neighbour. -/
def roundHalfEven (x : ℚ) : Int :=
  let f := Int.floor x
  if x - f < 1 / 2 then f
  else if 1 / 2 < x - f then f + 1
  else if f % 2 = 0 then f else f + 1

/-- The binary64 value nearest to `q`, ties to even, as long as the exponent range is not
exceeded above: 53 significant bits in the binade of `q`, and from the exponent -1022 downwards
the fixed spacing `2 ^ -1074` of the subnormal numbers (so that tiny values round to `0`). -/
def roundToDouble (q : ℚ) : ℚ :=
  if q = 0 then 0
  else
    let e := max (floorLog2 |q|) (-1022)
    (roundHalfEven (q / pow2 (e - 52)) : ℚ) * pow2 (e - 52)

/-- The Number value of a real number: the nearest binary64 value, or an infinity when the
rounded magnitude reaches `2 ^ 1024`. -/
def toDouble (q : ℚ) : JsNum :=
  if pow2 1024 ≤ roundToDouble q then .posInf
  else if roundToDouble q ≤ -pow2 1024 then .negInf
  else .fin (roundToDouble q)

/-- The relational operator `<` on two numbers (`false` as soon as one of them is `NaN`). -/
def JsNum.lessThan : JsNum → JsNum → Bool
  | .nan, _ => false
  | _, .nan => false
  | .posInf, _ => false
  | _, .negInf => false
  | .negInf, _ => true
  | _, .posInf => true
  | .fin a, .fin b => decide (a < b)

/-- A field of the JSON request body, as seen by the handler after `express.json()`.
A number is represented by the value that its JSON literal denotes: the field holds the Number
value of it, `toDouble literal`. An array or object is represented by the string that
`String(value)` yields for it. -/
inductive JsVal where
  | undefined
  | null
  | bool (b : Bool)
  | num (literal : ℚ)
  | str (s : String)
  | object (toStr : String)
deriving DecidableEq

/-- JavaScript truthiness (`!v` is the negation of this). -/
def JsVal.truthy : JsVal → Bool
  | .undefined => false
  | .null => false
  | .bool b => b
  | .num literal =>
    match toDouble literal with
    | .nan => false
    | .fin q => decide (q ≠ 0)
    | _ => true
  | .str s => decide (s ≠ "")
  | .object _ => true

/-- The characters removed by `String.prototype.trim` and skipped by `parseFloat`
(ECMAScript WhiteSpace and LineTerminator code points). -/
def isStrWhiteSpaceChar (c : Char) : Bool :=
  let n := c.toNat
  n == 0x9 || n == 0xA || n == 0xB || n == 0xC || n == 0xD || n == 0x20 || n == 0xA0 ||
  n == 0x1680 || (0x2000 ≤ n && n ≤ 0x200A) || n == 0x2028 || n == 0x2029 || n == 0x202F ||
  n == 0x205F || n == 0x3000 || n == 0xFEFF

/-- Drop leading white space. -/
def trimStartChars (cs : List Char) : List Char :=
  cs.dropWhile isStrWhiteSpaceChar

/-- Drop leading and trailing white space. -/
def trimChars (cs : List Char) : List Char :=
  (trimStartChars (trimStartChars cs).reverse).reverse

/-- The method `String.prototype.trim`. -/
def jsTrim (s : String) : String :=
  ⟨trimChars s.data⟩

/-- Is `sub` a contiguous part of the character list? -/
def includesChars (sub : List Char) : List Char → Bool
  | [] => sub.isEmpty
  | c :: cs => sub.isPrefixOf (c :: cs) || includesChars sub cs

/-- The method `String.prototype.includes`. -/
def jsIncludes (s sub : String) : Bool :=
  includesChars sub.data s.data

/-! ### parseFloat -/

/-- An ASCII decimal digit. -/
def isDecimalDigit (c : Char) : Bool :=
  48 ≤ c.toNat && c.toNat ≤ 57

/-- Value of a run of decimal digits. -/
def digitsValue (ds : List Char) : Nat :=
  ds.foldl (fun acc c => 10 * acc + (c.toNat - 48)) 0

/-- The exponent part of a decimal literal at the head of `rest`: `e` or `E`, an optional sign
and at least one digit. Without a complete exponent part the exponent is `0`. -/
def scanExponent (rest : List Char) : Int :=
  match rest with
  | [] => 0
  | c :: r =>
    if c = 'e' ∨ c = 'E' then
      match r with
      | [] => 0
      | s :: r' =>
        if s = '+' then
          (if (r'.takeWhile isDecimalDigit).isEmpty then 0
           else (digitsValue (r'.takeWhile isDecimalDigit) : Int))
        else if s = '-' then
          (if (r'.takeWhile isDecimalDigit).isEmpty then 0
           else -(digitsValue (r'.takeWhile isDecimalDigit) : Int))
        else
          (if (r.takeWhile isDecimalDigit).isEmpty then 0
           else (digitsValue (r.takeWhile isDecimalDigit) : Int))
    else 0

/-- Scale a rational by a power of ten. -/
def scale10 (m : ℚ) (e : Int) : ℚ :=
  if 0 ≤ e then m * ((10 ^ e.toNat : Nat) : ℚ) else m / ((10 ^ (-e).toNat : Nat) : ℚ)

/-- The longest prefix of `cs` that is an unsigned decimal literal
(`Infinity`, `digits[.digits][exp]`, `.digits[exp]`), read as a number, that is rounded to the
nearest Number value; `NaN` if there is none. -/
def parseUnsigned (cs : List Char) : JsNum :=
  if "Infinity".data.isPrefixOf cs then .posInf
  else
    let intDigits := cs.takeWhile isDecimalDigit
    let rest := cs.dropWhile isDecimalDigit
    match rest with
    | '.' :: afterDot =>
      let fracDigits := afterDot.takeWhile isDecimalDigit
      let rest2 := afterDot.dropWhile isDecimalDigit
      if intDigits.isEmpty && fracDigits.isEmpty then .nan
      else
        let mantissa : ℚ :=
          (digitsValue intDigits : ℚ) +
            (digitsValue fracDigits : ℚ) / ((10 ^ fracDigits.length : Nat) : ℚ)
        toDouble (scale10 mantissa (scanExponent rest2))
    | _ =>
      if intDigits.isEmpty then .nan
      else toDouble (scale10 (digitsValue intDigits : ℚ) (scanExponent rest))

/-- Negation of a JavaScript number. -/
def JsNum.neg : JsNum → JsNum
  | .nan => .nan
  | .posInf => .negInf
  | .negInf => .posInf
  | .fin q => .fin (-q)

/-- The function `parseFloat` on a string: skip leading white space, read an optional sign and
the longest decimal literal, ignore whatever follows. -/
def parseFloatChars (cs : List Char) : JsNum :=
  match trimStartChars cs with
  | [] => .nan
  | c :: r =>
    if c = '+' then parseUnsigned r
    else if c = '-' then (parseUnsigned r).neg
    else parseUnsigned (c :: r)

/-- The function `parseFloat` on a body field: the argument is first converted to a string.
A number converts to a string that reads back as the same number. -/
def parseFloat : JsVal → JsNum
  | .str s => parseFloatChars s.data
  | .num literal => toDouble literal
  | .object toStr => parseFloatChars toStr.data
  | .bool _ => .nan
  | .undefined => .nan
  | .null => .nan

/-! ## Stored data -/

/-- Modelled from the spec: a row of the `accounts` table. The table is declared in
`database/schema.sql`, which is not among the sources; the columns are the ones the queries
name. The balance is a fixed-point amount; it is held as its number of hundredths, the scale of
the ceiling `999999999.99` and of the step `0.01` of the transfer form. -/
structure Account where
  id : Nat
  user_id : Nat
  account_number : String
  type : String
  balance : Int
deriving DecidableEq

/-- The amount of money that a stored balance stands for. -/
def fromCents (cents : Int) : ℚ :=
  cents / 100

/-- Round to the nearest integer, a tie away from zero. -/
def roundHalfAway (x : ℚ) : Int :=
  if 0 ≤ x then Int.floor (x + 1 / 2) else -Int.floor (-x + 1 / 2)

/-- Modelled from the spec: the fixed-point value that the balance column keeps when an amount
is assigned to it, the nearest number of hundredths. A tie goes away from zero, the rule of the
exact-value columns of MySQL, the storage engine that `db.js` connects to. -/
def toCents (x : ℚ) : Int :=
  roundHalfAway (x * 100)

/-- The balance of a fetched row as a number: the driver hands the decimal over as a string (or
as a number), and a numeric operator converts it to the nearest Number value. -/
def toNumber (balance : Int) : JsNum :=
  toDouble (fromCents balance)

/-- Modelled from the spec: a row of the `transactions` table (declared in
`database/schema.sql`, not among the sources). The handler supplies `from_account_id`,
`to_account_id`, `amount`, `type` and `status`; the generated `id` and the `created_at`
timestamp are filled in by the storage layer. The `amount` is the number that the handler
hands to the `INSERT`. -/
structure Transaction where
  id : Nat
  from_account_id : Nat
  to_account_id : Nat
  amount : ℚ
  type : String
  status : String
  created_at : Nat
deriving DecidableEq

/-- The two relations the transfer core reads and writes. -/
structure Tables where
  accounts : List Account
  transactions : List Transaction
deriving DecidableEq

/-! ## Storage layer -/

/-- The storage calls of the handler, in the order of the source. -/
inductive Step where
  | getConnection
  | beginTransaction
  | selectSender
  | selectReceiver
  | debit
  | credit
  | insert
  | commit
  | rollback
deriving DecidableEq

/-- What the surroundings contribute to one call: for each storage call, whether it throws and
with which message; and the generated identifier and timestamp a new ledger row receives. -/
structure Env where
  fault : Step → Option String
  insertId : Nat
  now : Nat

/-- A pooled connection: the committed tables and, while a unit of work is open, its working
tables (not visible to anyone else until commit). -/
structure Conn where
  committed : Tables
  pending : Option Tables

/-- The tables as seen by statements on this connection. -/
def Conn.view (c : Conn) : Tables :=
  c.pending.getD c.committed

/-- A writing statement: inside a unit of work it changes the working tables, outside it is
committed at once. -/
def Conn.write (c : Conn) (f : Tables → Tables) : Conn :=
  match c.pending with
  | some t => { c with pending := some (f t) }
  | none => { c with committed := f c.committed }

/-- Open a unit of work (`START TRANSACTION`; an open one is committed first). -/
def Conn.beginTransaction (c : Conn) : Conn :=
  { committed := c.view, pending := some c.view }

/-- Make the working tables the committed ones. -/
def Conn.commit (c : Conn) : Conn :=
  { committed := c.view, pending := none }

/-- Discard the working tables. -/
def Conn.rollback (c : Conn) : Conn :=
  { c with pending := none }

/-- The rows of `SELECT * FROM accounts WHERE user_id = ?`. -/
def selectByUserId (t : Tables) (userId : Nat) : List Account :=
  t.accounts.filter (fun a => decide (a.user_id = userId))

/-- The rows of `SELECT * FROM accounts WHERE account_number = ?`. -/
def selectByAccountNumber (t : Tables) (accountNumber : String) : List Account :=
  t.accounts.filter (fun a => decide (a.account_number = accountNumber))

/-- The statement `UPDATE accounts SET balance = balance + delta WHERE id = ?`
(the debit passes a negative `delta`). The sum is formed from the stored balance and the number
passed, and the statement assigns it to the fixed-point column, which keeps it rounded to
hundredths: each `UPDATE` rounds on its own. A result too large for the column is one of the
failures of `Env.fault`. -/
def updateBalance (delta : ℚ) (id : Nat) (t : Tables) : Tables :=
  { accounts :=
      t.accounts.map (fun a =>
        if a.id = id then { a with balance := toCents (fromCents a.balance + delta) } else a),
    transactions := t.transactions }

/-- The statement `INSERT INTO transactions (...) VALUES (...)`. -/
def insertTransaction (row : Transaction) (t : Tables) : Tables :=
  { accounts := t.accounts, transactions := t.transactions ++ [row] }

/-- One entry of the handler's log of storage activity. The two locking reads carry the ids of
the rows they returned (and locked); `fundsCheck` marks the evaluation of the balance test. -/
inductive Event where
  | getConnection
  | beginTransaction
  | selectSenderForUpdate (userId : Nat) (rows : List Nat)
  | fundsCheck
  | selectReceiverForUpdate (accountNumber : String) (rows : List Nat)
  | debit (id : Nat) (amount : ℚ)
  | credit (id : Nat) (amount : ℚ)
  | insert (row : Transaction)
  | commit
  | rollback
  | release
deriving DecidableEq

/-! ## The handler -/

/-- An HTTP response: status code and the `message` field of the JSON body. -/
structure Response where
  status : Nat
  message : String
deriving DecidableEq

deriving instance DecidableEq for Except

/-- An authenticated request: `req.userId` as set by the token check, and the two body fields. -/
structure Request where
  userId : Nat
  toAccountId : JsVal
  amount : JsVal

/-- The literal `999999999.99` of line 24: the Number value nearest to that decimal. -/
def maxAmount : ℚ := roundToDouble (99999999999 / 100)

/-- Lines 10-26: input validation. Yields the trimmed destination number and the parsed amount,
or the 400 response. -/
def validate (req : Request) : Except Response (String × ℚ) :=
  if !req.toAccountId.truthy || !req.amount.truthy then
    .error ⟨400, "Account number and amount are required"⟩
  else
    match req.toAccountId with
    | .str s =>
      if (jsTrim s).length = 0 then .error ⟨400, "Invalid account number format"⟩
      else
        -- `isNaN(x) || x <= 0`, then `x > 999999999.99`, by cases on the parsed number
        match parseFloat req.amount with
        | .nan => .error ⟨400, "Invalid amount. Must be a positive number"⟩
        | .negInf => .error ⟨400, "Invalid amount. Must be a positive number"⟩
        | .posInf => .error ⟨400, "Amount exceeds maximum limit"⟩
        | .fin q =>
          if q ≤ 0 then .error ⟨400, "Invalid amount. Must be a positive number"⟩
          else if q > maxAmount then .error ⟨400, "Amount exceeds maximum limit"⟩
          else .ok (jsTrim s, q)
    | _ => .error ⟨400, "Invalid account number format"⟩

/-- The row written by the `INSERT` of lines 74-77. -/
def transferRow (env : Env) (fromId toId : Nat) (transferAmount : ℚ) : Transaction :=
  { id := env.insertId, from_account_id := fromId, to_account_id := toId,
    amount := transferAmount, type := "transfer", status := "success", created_at := env.now }

/-- State of the `try` block when it is left: normal completion or the thrown error's message,
the connection, and the storage activity so far. -/
structure Run where
  result : Except String Unit
  conn : Conn
  trace : List Event

/-- Lines 31-79: the body of the `try` block after the connection has been obtained. -/
def transferUnit (env : Env) (userId : Nat) (toAccount : String) (transferAmount : ℚ)
    (c0 : Conn) : Run :=
  let t1 := [Event.beginTransaction]
  match env.fault .beginTransaction with
  | some e => ⟨.error e, c0, t1⟩
  | none =>
  let c1 := c0.beginTransaction
  -- 1. Get Sender Account
  match env.fault .selectSender with
  | some e => ⟨.error e, c1, t1 ++ [.selectSenderForUpdate userId []]⟩
  | none =>
  let senderAccounts := selectByUserId c1.view userId
  let t2 := t1 ++ [.selectSenderForUpdate userId (senderAccounts.map (·.id))]
  match senderAccounts with
  | [] => ⟨.error "Sender account not found", c1, t2⟩
  | senderAccount :: _ =>
  let t3 := t2 ++ [.fundsCheck]
  -- `senderAccount.balance < transferAmount`: a comparison of two Number values
  if (toNumber senderAccount.balance).lessThan (.fin transferAmount) then
    ⟨.error "Insufficient funds", c1, t3⟩
  else
  -- 2. Get Receiver Account
  match env.fault .selectReceiver with
  | some e => ⟨.error e, c1, t3 ++ [.selectReceiverForUpdate toAccount []]⟩
  | none =>
  let receiverAccounts := selectByAccountNumber c1.view toAccount
  let t4 := t3 ++ [.selectReceiverForUpdate toAccount (receiverAccounts.map (·.id))]
  match receiverAccounts with
  | [] => ⟨.error "Receiver account not found", c1, t4⟩
  | receiverAccount :: _ =>
  if senderAccount.id = receiverAccount.id then ⟨.error "Cannot transfer to self", c1, t4⟩
  else
  -- 3. Deduct from Sender
  let t5 := t4 ++ [.debit senderAccount.id transferAmount]
  match env.fault .debit with
  | some e => ⟨.error e, c1, t5⟩
  | none =>
  let c2 := c1.write (updateBalance (-transferAmount) senderAccount.id)
  -- 4. Add to Receiver
  let t6 := t5 ++ [.credit receiverAccount.id transferAmount]
  match env.fault .credit with
  | some e => ⟨.error e, c2, t6⟩
  | none =>
  let c3 := c2.write (updateBalance transferAmount receiverAccount.id)
  -- 5. Record Transaction
  let row := transferRow env senderAccount.id receiverAccount.id transferAmount
  let t7 := t6 ++ [.insert row]
  match env.fault .insert with
  | some e => ⟨.error e, c3, t7⟩
  | none =>
  let c4 := c3.write (insertTransaction row)
  let t8 := t7 ++ [.commit]
  match env.fault .commit with
  | some e => ⟨.error e, c4, t8⟩
  | none => ⟨.ok (), c4.commit, t8⟩

/-- Lines 93-97: the test that decides between status 400 and 500. -/
def isClientError (message : String) : Bool :=
  decide (message ≠ "") &&
    (jsIncludes message "not found" || jsIncludes message "Insufficient funds" ||
      jsIncludes message "Cannot transfer")

/-- Lines 99-101: the response of the `catch` block. -/
def errorResponse (message : String) : Response :=
  { status := if isClientError message then 400 else 500,
    message := if message ≠ "" then message else "Transfer failed" }

/-- The response of line 80. -/
def transferSuccessful : Response :=
  ⟨200, "Transfer successful"⟩

/-- Result of one call of the handler: the response, the committed tables afterwards, and the
storage activity. -/
structure Outcome where
  response : Response
  db : Tables
  trace : List Event

/-- The `POST /transfer` handler (after `verifyToken` has set `req.userId`). -/
def transferHandler (env : Env) (db : Tables) (req : Request) : Outcome :=
  match validate req with
  | .error resp => ⟨resp, db, []⟩
  | .ok (toAccount, transferAmount) =>
    match env.fault .getConnection with
    | some e =>
      -- `connection` is still undefined: neither rollback nor release
      ⟨errorResponse e, db, [.getConnection]⟩
    | none =>
      let r := transferUnit env req.userId toAccount transferAmount ⟨db, none⟩
      match r.result with
      | .ok _ => ⟨transferSuccessful, r.conn.committed, .getConnection :: r.trace ++ [.release]⟩
      | .error e =>
        let c := match env.fault .rollback with
          | some _ => r.conn
          | none => r.conn.rollback
        ⟨errorResponse e, c.committed, .getConnection :: r.trace ++ [.rollback, .release]⟩

/-- One call in a sequence: its surroundings and its request. -/
structure Call where
  env : Env
  req : Request

/-- Serve a sequence of calls one after the other; yields the final tables and the responses. -/
def runCalls : Tables → List Call → Tables × List Response
  | db, [] => (db, [])
  | db, c :: cs =>
    let out := transferHandler c.env db c.req
    let rest := runCalls out.db cs
    (rest.1, out.response :: rest.2)

/-! ## Vocabulary of the properties -/

/-- The tables after the two `UPDATE`s of a transfer have been applied. -/
def settle (srcId dstId : Nat) (amt : ℚ) (db : Tables) : Tables :=
  updateBalance amt dstId (updateBalance (-amt) srcId db)

/-- What a committed transfer does to one row of `accounts`. -/
def movedAccount (srcId dstId : Nat) (amt : ℚ) (a : Account) : Account :=
  if a.id = srcId then { a with balance := toCents (fromCents a.balance - amt) }
  else if a.id = dstId then { a with balance := toCents (fromCents a.balance + amt) }
  else a

/-- The balance stored for an account id, if the id is in the table. -/
def balanceOf (t : Tables) (id : Nat) : Option Int :=
  (t.accounts.find? (fun a => decide (a.id = id))).map (·.balance)

/-- The key constraint of `accounts`: no two rows have the same `id`. -/
def WellKeyed (t : Tables) : Prop :=
  (t.accounts.map (·.id)).Nodup

instance (t : Tables) : Decidable (WellKeyed t) := by
  unfold WellKeyed; infer_instance

/-- Every stored balance is non-negative. -/
def NonNegative (t : Tables) : Prop :=
  ∀ a ∈ t.accounts, 0 ≤ a.balance

instance (t : Tables) : Decidable (NonNegative t) := by
  unfold NonNegative; infer_instance

/-- Number of responses of a run that report success. -/
def successCount (rs : List Response) : Nat :=
  (rs.filter (fun r => decide (r = transferSuccessful))).length

/-! ### Sample data -/

/-- Surroundings in which no storage call fails. -/
def healthy : Env :=
  ⟨fun _ => none, 1, 0⟩

/-- Surroundings in which exactly the given storage call fails, with the given message. -/
def failingAt (step : Step) (message : String) : Env :=
  ⟨fun s => if s = step then some message else none, 1, 0⟩

/-- Account A of the scenarios: owner 10, balance 500.00. -/
def accountA : Account :=
  ⟨1, 10, "SB1000000001", "savings", 50000⟩

/-- Account B of the scenarios: owner 20, balance 100.00. -/
def accountB : Account :=
  ⟨2, 20, "SB1000000002", "savings", 10000⟩

/-- The tables of the scenarios: accounts A and B, empty ledger. -/
def bankAB : Tables :=
  ⟨[accountA, accountB], []⟩

/-- User 10 (owner of A) asks to move `amount` to the account with the given number. -/
def requestFromA (toNumber : String) (amount : String) : Request :=
  ⟨10, .str toNumber, .str amount⟩

/-! ### Vocabulary of the later properties -/

/-- Following the words of the specification: a syntactically well-formed decimal number is a
non-empty run of digits, optionally followed by a point and a non-empty run of digits. -/
def wellFormedDecimal (s : String) : Bool :=
  let intDigits := s.data.takeWhile isDecimalDigit
  let rest := s.data.dropWhile isDecimalDigit
  !intDigits.isEmpty &&
    (match rest with
     | [] => true
     | c :: frac => c = '.' && !frac.isEmpty && frac.all isDecimalDigit)

/-- Does the trace contain a debit? -/
def debits (trace : List Event) : Bool :=
  trace.any (fun e => match e with
    | .debit _ _ => true
    | _ => false)

/-- No ledger row has the same account as source and as destination. -/
def NoSelfLoop (t : Tables) : Prop :=
  ∀ r ∈ t.transactions, r.from_account_id ≠ r.to_account_id

instance (t : Tables) : Decidable (NoSelfLoop t) := by
  unfold NoSelfLoop; infer_instance

/-- Row by row, the table `after` has the rows of `before` with the same id and owner, and a
balance is lower than before only on rows owned by user `u`. -/
def OnlyCallerDebited (u : Nat) (before after : List Account) : Prop :=
  List.Forall₂
    (fun a a' => a'.id = a.id ∧ a'.user_id = a.user_id ∧ (a'.balance < a.balance → a.user_id = u))
    before after

/-- Lines 80-106 on their own: what the handler does once the `try` block has been left with
run `r` (answer, rollback on error, release). -/
def conclude (env : Env) (r : Run) : Outcome :=
  match r.result with
  | .ok _ => ⟨transferSuccessful, r.conn.committed, .getConnection :: r.trace ++ [.release]⟩
  | .error e =>
    let c := match env.fault .rollback with
      | some _ => r.conn
      | none => r.conn.rollback
    ⟨errorResponse e, c.committed, .getConnection :: r.trace ++ [.rollback, .release]⟩

/-- The ids of the rows locked by the `SELECT ... FOR UPDATE` statements of a trace, in the
order in which the locks were taken. -/
def lockOrder : List Event → List Nat
  | [] => []
  | .selectSenderForUpdate _ rows :: rest => rows ++ lockOrder rest
  | .selectReceiverForUpdate _ rows :: rest => rows ++ lockOrder rest
  | _ :: rest => lockOrder rest

/-- The storage activity that precedes the evaluation of the funds check. -/
def beforeFundsCheck (trace : List Event) : List Event :=
  trace.takeWhile (fun e => decide (e ≠ .fundsCheck))

/-- The storage activity that follows the evaluation of the funds check. -/
def afterFundsCheck (trace : List Event) : List Event :=
  (trace.dropWhile (fun e => decide (e ≠ .fundsCheck))).tail

/-- Does the trace contain a locking read of the receiver? -/
def locksReceiver (trace : List Event) : Bool :=
  trace.any (fun e => match e with
    | .selectReceiverForUpdate _ _ => true
    | _ => false)

/-- User 20 (owner of B) asks to move `amount` to the account with the given number. -/
def requestFromB (toNumber : String) (amount : String) : Request :=
  ⟨20, .str toNumber, .str amount⟩

/-! ## The token check (`middleware/auth.js`) -/

/-- The method `String.prototype.split` for a separator of one character, on character lists. -/
def splitChars (sep : Char) : List Char → List (List Char)
  | [] => [[]]
  | c :: cs =>
    if c = sep then [] :: splitChars sep cs
    else
      match splitChars sep cs with
      | [] => [[c]]
      | seg :: rest => (c :: seg) :: rest

/-- Lines 12-14: the token taken from the header; `none` stands for `undefined`. -/
def extractToken (authHeader : String) : Option String :=
  if "Bearer ".data.isPrefixOf authHeader.data then
    ((splitChars ' ' authHeader.data).map String.mk)[1]?
  else some authHeader

/-- What the surroundings contribute to the token check: `process.env.JWT_SECRET`, and the
outcome of `jwt.verify(token, secret)`, either the name of the error or the `id` of the decoded
payload. -/
structure AuthEnv where
  jwtSecret : Option String
  jwtVerify : String → String → Except String Nat

/-- How the middleware ends: with a response, or by calling `next()` with `req.userId` set. -/
inductive AuthResult where
  | respond (r : Response)
  | next (userId : Nat)
deriving DecidableEq

/-- Result of the token check: how it ends, and the tokens handed to `jwt.verify`. -/
structure AuthOutcome where
  result : AuthResult
  verified : List String
deriving DecidableEq

/-- The middleware `verifyToken`, applied to the value of the `authorization` header. -/
def verifyToken (env : AuthEnv) (authorization : Option String) : AuthOutcome :=
  match authorization with
  | none => ⟨.respond ⟨403, "No token provided"⟩, []⟩
  | some authHeader =>
    if authHeader = "" then ⟨.respond ⟨403, "No token provided"⟩, []⟩
    else
      match extractToken authHeader with
      | none => ⟨.respond ⟨403, "Token is required"⟩, []⟩
      | some token =>
        if token = "" then ⟨.respond ⟨403, "Token is required"⟩, []⟩
        else
          match env.jwtSecret with
          | none => ⟨.respond ⟨500, "Server configuration error"⟩, []⟩
          | some secret =>
            if secret = "" then ⟨.respond ⟨500, "Server configuration error"⟩, []⟩
            else
              match env.jwtVerify token secret with
              | .error name =>
                if name = "TokenExpiredError" then
                  ⟨.respond ⟨401, "Token expired. Please login again"⟩, [token]⟩
                else if name = "JsonWebTokenError" then
                  ⟨.respond ⟨401, "Invalid token"⟩, [token]⟩
                else ⟨.respond ⟨401, "Unauthorized"⟩, [token]⟩
              | .ok id => ⟨.next id, [token]⟩

/-- A sample verifier: it accepts exactly the token abc, for user 10. -/
def sampleAuth : AuthEnv :=
  ⟨some "secret", fun token _ => if token = "abc" then .ok 10 else .error "JsonWebTokenError"⟩

/-! ## Registration (`routes/auth.js`, `POST /register`) -/

/-- Modelled from the spec: a row of the `users` table (declared in `database/schema.sql`, not
among the sources), with the columns the queries name and the generated `id`. -/
structure User where
  id : Nat
  name : String
  email : String
  password_hash : String
deriving DecidableEq

/-- The two relations the registration reads and writes. -/
structure Directory where
  users : List User
  accounts : List Account
deriving DecidableEq

/-- The body of a registration request: each of the three fields is absent or a string. -/
structure RegisterRequest where
  name : Option String
  email : Option String
  password : Option String

/-- The property `length` of a JavaScript string: its number of UTF-16 code units. -/
def utf16Length (s : String) : Nat :=
  (s.data.map (fun c => if c.toNat < 0x10000 then 1 else 2)).sum

/-- The character class `[^\s@]` of the e-mail pattern. -/
def isEmailChar (c : Char) : Bool :=
  !isStrWhiteSpaceChar c && c ≠ '@'

/-- The test `/^[^\s@]+@[^\s@]+\.[^\s@]+$/.test(email)`: a non-empty run of class characters,
an `@`, and then class characters up to the end with a point that is neither the first nor the
last of them. -/
def emailRegexTest (email : String) : Bool :=
  let localPart := email.data.takeWhile isEmailChar
  match email.data.dropWhile isEmailChar with
  | [] => false
  | c :: rest =>
    c = '@' && !localPart.isEmpty && rest.all isEmailChar && rest.tail.dropLast.contains '.'

/-- Answer of the registration handler: status, `message`, and the optional `error` field. -/
structure RegResponse where
  status : Nat
  message : String
  error : Option String
deriving DecidableEq

/-- Lines 11-29: input validation of the registration. Yields name, e-mail and password, or the
400 response. -/
def validateRegistration (req : RegisterRequest) :
    Except RegResponse (String × String × String) :=
  match req.name, req.email, req.password with
  | some name, some email, some password =>
    -- `!name || !email || !password`: an empty string is falsy
    if name = "" ∨ email = "" ∨ password = "" then
      .error ⟨400, "All fields are required", none⟩
    else if !emailRegexTest email then .error ⟨400, "Invalid email format", none⟩
    else if utf16Length password < 6 then
      .error ⟨400, "Password must be at least 6 characters long", none⟩
    else if utf16Length (jsTrim name) < 2 then
      .error ⟨400, "Name must be at least 2 characters long", none⟩
    else .ok (name, email, password)
  -- a field is absent: `undefined` is falsy
  | _, _, _ => .error ⟨400, "All fields are required", none⟩

/-- The statements and library calls of the registration that can throw. The lookup of a
candidate account number carries the number of the attempt, from 0. -/
inductive RegStep where
  | selectUser
  | hash
  | insertUser
  | selectAccount (attempt : Nat)
  | insertAccount
deriving DecidableEq

/-- A thrown error: its `code` (`undefined` is `none`) and its message. -/
structure Thrown where
  code : Option String
  message : String
deriving DecidableEq

/-- What the surroundings contribute to one registration: which calls throw, the password
hash function, the value of `Math.random()` at each attempt, the generated identifiers, the
default balance of a new account, and whether `NODE_ENV` is `development`. -/
structure RegEnv where
  fault : RegStep → Option Thrown
  hash : String → String
  random : Nat → ℚ
  userId : Nat
  accountId : Nat
  initialBalance : Int
  development : Bool

/-- One entry of the registration's log of storage activity. -/
inductive RegEvent where
  | selectUser (email : String)
  | insertUser (email : String)
  | selectAccount (accountNumber : String)
  | insertAccount (accountNumber : String)
deriving DecidableEq

/-- Line 53, the part `Math.floor(1000000000 + r * 9000000000)`, for the value `r` that
`Math.random()` returned: a Number in the range from 0 up to but not including 1. The product
and the sum are each rounded to the nearest Number value (neither leaves the finite range for
such an `r`). -/
def accountInteger (r : ℚ) : Int :=
  Int.floor (roundToDouble (1000000000 + roundToDouble (r * 9000000000)))

/-- Line 53: `'SB' + Math.floor(1000000000 + r * 9000000000)`; the integer is written as a
decimal numeral. -/
def accountNumberOf (r : ℚ) : String :=
  "SB" ++ toString (accountInteger r)

/-- State of the registration when the `try` block is left. -/
structure RegRun where
  result : Except Thrown Unit
  dir : Directory
  trace : List RegEvent

/-- Lines 52-62: the loop that looks for an unused account number, from attempt `attempt` on,
with `fuel` attempts left. Yields the number found (or `none` when the attempts are used up)
or the error thrown by a lookup, and the lookups issued. -/
def findAccountNumber (env : RegEnv) (accounts : List Account) :
    Nat → Nat → Except Thrown (Option String) × List RegEvent
  | _, 0 => (.ok none, [])
  | attempt, fuel + 1 =>
    let accountNumber := accountNumberOf (env.random attempt)
    match env.fault (.selectAccount attempt) with
    | some err => (.error err, [.selectAccount accountNumber])
    | none =>
      let existing := accounts.filter (fun a => decide (a.account_number = accountNumber))
      if existing.length = 0 then (.ok (some accountNumber), [.selectAccount accountNumber])
      else
        let later := findAccountNumber env accounts (attempt + 1) fuel
        (later.1, .selectAccount accountNumber :: later.2)

/-- The constant `maxAttempts`. -/
def maxAttempts : Nat := 10

/-- Lines 32-73: the body of the `try` block. Every statement is committed at once: the
handler opens no unit of work. Yields the response sent inside the block, or the error thrown,
together with the tables and the storage activity at that point. -/
def registerUnit (env : RegEnv) (dir : Directory) (name email password : String) :
    Except Thrown RegResponse × Directory × List RegEvent :=
  let t1 := [RegEvent.selectUser email]
  match env.fault .selectUser with
  | some err => (.error err, dir, t1)
  | none =>
  let existingUser := dir.users.filter (fun u => decide (u.email = email))
  if existingUser.length > 0 then (.ok ⟨400, "User already exists", none⟩, dir, t1)
  else
  match env.fault .hash with
  | some err => (.error err, dir, t1)
  | none =>
  let hashedPassword := env.hash password
  let t2 := t1 ++ [.insertUser email]
  match env.fault .insertUser with
  | some err => (.error err, dir, t2)
  | none =>
  let dir1 : Directory :=
    { users := dir.users ++ [⟨env.userId, name, email, hashedPassword⟩],
      accounts := dir.accounts }
  let userId := env.userId
  -- Create a default savings account for the user
  let found := findAccountNumber env dir1.accounts 0 maxAttempts
  let t3 := t2 ++ found.2
  match found.1 with
  | .error err => (.error err, dir1, t3)
  | .ok none => (.error ⟨none, "Failed to generate unique account number"⟩, dir1, t3)
  | .ok (some accountNumber) =>
  let t4 := t3 ++ [.insertAccount accountNumber]
  match env.fault .insertAccount with
  | some err => (.error err, dir1, t4)
  | none =>
  let dir2 : Directory :=
    { users := dir1.users,
      accounts := dir1.accounts ++
        [⟨env.accountId, userId, accountNumber, "savings", env.initialBalance⟩] }
  (.ok ⟨201, "User registered successfully", none⟩, dir2, t4)

/-- Result of one registration: the answer, the tables afterwards, the storage activity. -/
structure RegOutcome where
  response : RegResponse
  dir : Directory
  trace : List RegEvent

/-- The `POST /register` handler. -/
def registerHandler (env : RegEnv) (dir : Directory) (req : RegisterRequest) : RegOutcome :=
  match validateRegistration req with
  | .error resp => ⟨resp, dir, []⟩
  | .ok (name, email, password) =>
    match registerUnit env dir name email password with
    | (.ok resp, dir', trace) => ⟨resp, dir', trace⟩
    | (.error err, dir', trace) =>
      if err.code = some "ER_DUP_ENTRY" then ⟨⟨400, "User already exists", none⟩, dir', trace⟩
      else
        ⟨⟨500, "Server error", if env.development then some err.message else none⟩, dir',
          trace⟩

/-- The accounts owned by a user. -/
def accountsOf (dir : Directory) (userId : Nat) : List Account :=
  dir.accounts.filter (fun a => decide (a.user_id = userId))

/-- Sample surroundings of a registration: nothing throws, `Math.random()` always yields 0
(so that every candidate is SB1000000000), the new user gets id 30. -/
def regEnvZero : RegEnv :=
  ⟨fun _ => none, fun p => "hash:" ++ p, fun _ => 0, 30, 3, 0, false⟩

/-- Sample surroundings of a registration in which exactly the `INSERT` into `accounts`
throws (the connection is lost). -/
def regEnvInsertFails : RegEnv :=
  ⟨fun s => if s = .insertAccount then some ⟨some "PROTOCOL_CONNECTION_LOST",
      "Connection lost: The server closed the connection."⟩ else none,
    fun p => "hash:" ++ p, fun _ => 0, 30, 3, 0, false⟩

/-- Sample tables of a registration: no user yet; one account carries SB1000000000. -/
def directoryTaken : Directory :=
  ⟨[], [⟨1, 10, "SB1000000000", "savings", 50000⟩]⟩

/-- Sample tables of a registration: no user and no account yet. -/
def directoryEmpty : Directory :=
  ⟨[], []⟩

/-- A well-formed registration request. -/
def requestAlice : RegisterRequest :=
  ⟨some "Alice", some "alice@example.com", some "secret1"⟩

/-- Sample tables: X (id 1, owner 10) holds 100.00 and Y (id 2, owner 20) holds 0.00. -/
def bankXY : Tables :=
  ⟨[⟨1, 10, "SB1000000001", "savings", 10000⟩, ⟨2, 20, "SB1000000002", "savings", 0⟩], []⟩

/-! ### Vocabulary of the frame property -/

/-- Row by row, `after` has the rows of `before` with the same id, owner, account number and
type, and a row whose id is neither `srcId` nor `dstId` is the same row. -/
def FramePreserved (srcId dstId : Nat) (before after : List Account) : Prop :=
  List.Forall₂
    (fun a a' => a'.id = a.id ∧ a'.user_id = a.user_id ∧
      a'.account_number = a.account_number ∧ a'.type = a.type ∧
      (a.id ≠ srcId → a.id ≠ dstId → a' = a))
    before after

/-- Sample tables: accounts A and B and a third account (id 3, owner 30, balance 70.00), and a
ledger with one earlier row. -/
def bankABC : Tables :=
  ⟨[accountA, accountB, ⟨3, 30, "SB1000000003", "savings", 7000⟩],
    [⟨7, 2, 3, 5, "transfer", "success", 1⟩]⟩

/-! ### Vocabulary of the registration properties -/

/-- Is the event a lookup of a candidate account number? -/
def isAccountLookup : RegEvent → Bool
  | .selectAccount _ => true
  | _ => false

/-- The account numbers of a table are pairwise distinct. -/
def DistinctNumbers (accounts : List Account) : Prop :=
  (accounts.map (·.account_number)).Nodup

instance (accounts : List Account) : Decidable (DistinctNumbers accounts) := by
  unfold DistinctNumbers; infer_instance

/-- Following the pattern `^[^\s@]+@[^\s@]+\.[^\s@]+$` as a regular expression: the whole
string is a non-empty run of characters other than white space and `@`, then an `@`, then a
second such run, then a point, then a third such run. -/
def MatchesEmailPattern (email : String) : Prop :=
  ∃ l d t : List Char, l ≠ [] ∧ d ≠ [] ∧ t ≠ [] ∧
    (∀ c ∈ l, isEmailChar c = true) ∧ (∀ c ∈ d, isEmailChar c = true) ∧
    (∀ c ∈ t, isEmailChar c = true) ∧ email.data = l ++ '@' :: (d ++ '.' :: t)

/-! ## Transaction history (`routes/account.js`, `GET /history`) -/

/-- The two statements of the history handler. -/
inductive HistoryStep where
  | selectAccounts
  | selectTransactions
deriving DecidableEq

/-- What the surroundings contribute to one history request: which statement throws, and
whether `NODE_ENV` is `development`. -/
structure HistoryEnv where
  fault : HistoryStep → Option Thrown
  development : Bool

/-- A row of the history result: the columns of the ledger row (`t.*`) and the two joined
account numbers `from_account` and `to_account` (`NULL` is `none`). -/
structure HistoryRow where
  transaction : Transaction
  from_account : Option String
  to_account : Option String
deriving DecidableEq

/-- A statement as handed to `db.execute`: its text and the parameters bound to its
placeholders, in order. -/
structure Statement where
  text : String
  params : List Nat
deriving DecidableEq

/-- The method `Array.prototype.join` on strings. -/
def jsJoin (sep : String) : List String → String
  | [] => ""
  | [a] => a
  | a :: b :: rest => a ++ sep ++ jsJoin sep (b :: rest)

/-- Lines 35-44: the text of the history query for a given list of placeholders (line breaks
and indentation of the template are written as single blanks). -/
def historyQueryText (placeholders : String) : String :=
  "SELECT t.*, fa.account_number as from_account, ta.account_number as to_account " ++
  "FROM transactions t " ++
  "LEFT JOIN accounts fa ON t.from_account_id = fa.id " ++
  "LEFT JOIN accounts ta ON t.to_account_id = ta.id " ++
  "WHERE t.from_account_id IN (" ++ placeholders ++ ") OR t.to_account_id IN (" ++
  placeholders ++ ") ORDER BY t.created_at DESC"

/-- Number of `?` placeholders in a piece of statement text. -/
def countPlaceholders (s : String) : Nat :=
  s.data.count '?'

/-- The account numbers a `LEFT JOIN accounts x ON ... = x.id` contributes for one id: those
of the rows with that id, or a single `NULL` when there is none. -/
def leftJoinNumbers (accounts : List Account) (id : Nat) : List (Option String) :=
  match accounts.filter (fun a => decide (a.id = id)) with
  | [] => [none]
  | a :: rest => (a :: rest).map (fun x => some x.account_number)

/-- The order `ORDER BY t.created_at DESC` asks for. -/
def newerFirst (a b : HistoryRow) : Prop :=
  b.transaction.created_at ≤ a.transaction.created_at

instance : DecidableRel newerFirst := by
  intro a b; unfold newerFirst; infer_instance

/-- The rows the history query yields: the ledger joined twice with `accounts`, restricted by
the `WHERE` clause, ordered by `created_at` descending. The first `IN` list holds `fromCount`
placeholders and takes the first parameters, the second holds `toCount` and takes the next. -/
def executeHistoryQuery (db : Tables) (fromCount toCount : Nat) (params : List Nat) :
    List HistoryRow :=
  let fromIds := params.take fromCount
  let toIds := (params.drop fromCount).take toCount
  let joined := db.transactions.flatMap (fun t =>
    (leftJoinNumbers db.accounts t.from_account_id).flatMap (fun fa =>
      (leftJoinNumbers db.accounts t.to_account_id).map (fun ta => (⟨t, fa, ta⟩ : HistoryRow))))
  let selected := joined.filter (fun r =>
    fromIds.contains r.transaction.from_account_id || toIds.contains r.transaction.to_account_id)
  selected.insertionSort newerFirst

/-- The JSON body of a history answer: the rows, or the error object. -/
inductive HistoryBody where
  | rows (l : List HistoryRow)
  | failure (message : String) (error : Option String)
deriving DecidableEq

/-- Result of one history request: status, body, and the ledger queries that were run. -/
structure HistoryOutcome where
  status : Nat
  body : HistoryBody
  executed : List Statement
deriving DecidableEq

/-- The `GET /history` handler (after `verifyToken` has set `req.userId`). -/
def historyHandler (env : HistoryEnv) (db : Tables) (userId : Nat) : HistoryOutcome :=
  -- Get all account IDs for the user
  match env.fault .selectAccounts with
  | some err =>
    ⟨500, .failure "Server error" (if env.development then some err.message else none), []⟩
  | none =>
    let accounts := selectByUserId db userId
    if accounts.length = 0 then ⟨200, .rows [], []⟩
    else
      let accountIds := accounts.map (·.id)
      if accountIds.length = 0 then ⟨200, .rows [], []⟩
      else
        let placeholders := jsJoin "," (accountIds.map (fun _ => "?"))
        let query := historyQueryText placeholders
        -- Pass accountIds twice (once for each IN clause)
        let statement : Statement := ⟨query, accountIds ++ accountIds⟩
        match env.fault .selectTransactions with
        | some err =>
          ⟨500, .failure "Server error" (if env.development then some err.message else none),
            [statement]⟩
        | none =>
          ⟨200, .rows (executeHistoryQuery db (countPlaceholders placeholders)
              (countPlaceholders placeholders) statement.params), [statement]⟩

/-- Surroundings of a history request in which nothing throws. -/
def historyHealthy : HistoryEnv :=
  ⟨fun _ => none, false⟩

/-- Sample tables for the history: user 10 owns accounts 1 and 4, user 20 owns 2, user 30
owns 3; four ledger rows, one of them between accounts 2 and 3. -/
def bankHistory : Tables :=
  ⟨[accountA, accountB, ⟨3, 30, "SB1000000003", "savings", 7000⟩,
      ⟨4, 10, "SB1000000004", "savings", 2500⟩],
    [⟨1, 1, 2, 50, "transfer", "success", 100⟩, ⟨2, 2, 3, 5, "transfer", "success", 200⟩,
      ⟨3, 3, 4, 8, "transfer", "success", 300⟩, ⟨4, 2, 1, 9, "transfer", "success", 150⟩]⟩

instance : IsTotal HistoryRow newerFirst :=
  ⟨fun a b => Nat.le_total b.transaction.created_at a.transaction.created_at⟩

instance : IsTrans HistoryRow newerFirst :=
  ⟨fun _ _ _ hab hbc => Nat.le_trans hbc hab⟩

/-- The condition of the history: the ledger row touches one of the given account ids. -/
def touches (ids : List Nat) (t : Transaction) : Bool :=
  decide (t.from_account_id ∈ ids ∨ t.to_account_id ∈ ids)

/-! ## Rounding: binary64 numbers and the fixed-point column -/

theorem pow2_eq (e : Int) : pow2 e = (2 : ℚ) ^ e := by
  unfold pow2
  split_ifs with h
  · obtain ⟨n, rfl⟩ := Int.eq_ofNat_of_zero_le h
    simp
  · push_neg at h
    obtain ⟨n, hn⟩ := Int.eq_ofNat_of_zero_le (show 0 ≤ -e by omega)
    have he : e = -(n : Int) := by omega
    subst he
    simp

theorem pow2_pos (e : Int) : 0 < pow2 e := by
  rw [pow2_eq]; positivity

theorem pow2_le {e e' : Int} (h : e ≤ e') : pow2 e ≤ pow2 e' := by
  rw [pow2_eq, pow2_eq]
  exact zpow_le_zpow_right₀ (by norm_num) h

theorem pow2_lt_iff {e e' : Int} : pow2 e < pow2 e' ↔ e < e' := by
  rw [pow2_eq, pow2_eq]
  exact zpow_lt_zpow_iff_right₀ (by norm_num)

theorem pow2_add (e e' : Int) : pow2 (e + e') = pow2 e * pow2 e' := by
  rw [pow2_eq, pow2_eq, pow2_eq]
  exact zpow_add₀ (by norm_num) e e'

theorem bitLengthAux_spec : ∀ (fuel n : Nat), n ≤ fuel → n ≠ 0 →
    2 ^ (bitLengthAux fuel n - 1) ≤ n ∧ n < 2 ^ bitLengthAux fuel n ∧ 1 ≤ bitLengthAux fuel n := by
  intro fuel
  induction fuel with
  | zero => intro n h hn; omega
  | succ f ih =>
    intro n h hn
    unfold bitLengthAux
    rw [if_neg hn]
    by_cases h2 : n / 2 = 0
    · have h1 : n = 1 := by omega
      subst h1
      cases f with
      | zero => simp [bitLengthAux]
      | succ f' => simp [bitLengthAux]
    · obtain ⟨ha, hb, hc⟩ := ih (n / 2) (by omega) h2
      refine ⟨?_, ?_, by omega⟩
      · have : bitLengthAux f (n / 2) + 1 - 1 = (bitLengthAux f (n / 2) - 1) + 1 := by omega
        rw [this, pow_succ]
        omega
      · rw [pow_succ]
        omega

theorem bitLength_spec (n : Nat) (hn : n ≠ 0) :
    2 ^ (bitLength n - 1) ≤ n ∧ n < 2 ^ bitLength n ∧ 1 ≤ bitLength n :=
  bitLengthAux_spec n n le_rfl hn

theorem bitLength_bounds (n : Nat) (hn : n ≠ 0) :
    (2 : ℚ) ^ ((bitLength n : Int) - 1) ≤ (n : ℚ) ∧ (n : ℚ) < (2 : ℚ) ^ (bitLength n : Int) := by
  obtain ⟨ha, hb, hc⟩ := bitLength_spec n hn
  constructor
  · have h1 : ((bitLength n : Int) - 1) = ((bitLength n - 1 : Nat) : Int) := by omega
    rw [h1, zpow_natCast]
    exact_mod_cast ha
  · rw [zpow_natCast]
    exact_mod_cast hb

theorem floorLog2_spec (a : ℚ) (h : 0 < a) :
    pow2 (floorLog2 a) ≤ a ∧ a < pow2 (floorLog2 a + 1) := by
  have hnum : 0 < a.num := Rat.num_pos.mpr h
  have hn0 : a.num.natAbs ≠ 0 := by omega
  have hd0 : a.den ≠ 0 := a.den_nz
  obtain ⟨hn1, hn2⟩ := bitLength_bounds a.num.natAbs hn0
  obtain ⟨hd1, hd2⟩ := bitLength_bounds a.den hd0
  have hdpos : (0 : ℚ) < (a.den : ℚ) := by exact_mod_cast Nat.pos_of_ne_zero hd0
  have ha : a = (a.num.natAbs : ℚ) / (a.den : ℚ) := by
    have h1 : ((a.num.natAbs : Int) : ℚ) = (a.num : ℚ) := by
      rw [Int.natAbs_of_nonneg hnum.le]
    have h2 : ((a.num.natAbs : Nat) : ℚ) = ((a.num.natAbs : Int) : ℚ) := (Int.cast_natCast _).symm
    rw [h2, h1]
    exact (Rat.num_div_den a).symm
  set n : ℚ := (a.num.natAbs : ℚ) with hn
  set d : ℚ := (a.den : ℚ) with hd
  set ln : Int := (bitLength a.num.natAbs : Int) with hln
  set ld : Int := (bitLength a.den : Int) with hld
  have two : (2 : ℚ) ≠ 0 := by norm_num
  -- a < 2 ^ (ln - ld + 1)
  have hup : a < (2 : ℚ) ^ (ln - ld + 1) := by
    rw [ha, div_lt_iff₀ hdpos]
    calc n < (2 : ℚ) ^ ln := hn2
      _ = (2 : ℚ) ^ (ln - ld + 1) * (2 : ℚ) ^ (ld - 1) := by
          rw [← zpow_add₀ two]; congr 1; ring
      _ ≤ (2 : ℚ) ^ (ln - ld + 1) * d := by
          apply mul_le_mul_of_nonneg_left hd1; positivity
  have hlow : (2 : ℚ) ^ (ln - ld - 1) < a := by
    rw [ha, lt_div_iff₀ hdpos]
    calc (2 : ℚ) ^ (ln - ld - 1) * d < (2 : ℚ) ^ (ln - ld - 1) * (2 : ℚ) ^ ld := by
          apply mul_lt_mul_of_pos_left hd2; positivity
      _ = (2 : ℚ) ^ (ln - 1) := by
          rw [← zpow_add₀ two]; congr 1; ring
      _ ≤ n := hn1
  unfold floorLog2
  simp only
  split_ifs with hk
  · exact ⟨hk, by rw [pow2_eq]; exact hup⟩
  · push_neg at hk
    refine ⟨by rw [pow2_eq]; exact hlow.le, ?_⟩
    have : ln - ld - 1 + 1 = ln - ld := by ring
    rw [this]; exact hk

theorem floorLog2_lt {a : ℚ} (h : 0 < a) {n : Int} (hn : a < pow2 n) : floorLog2 a < n := by
  have h1 := (floorLog2_spec a h).1
  exact pow2_lt_iff.mp (lt_of_le_of_lt h1 hn)

theorem floorLog2_ge {a : ℚ} (h : 0 < a) {n : Int} (hn : pow2 n ≤ a) : n ≤ floorLog2 a := by
  have h1 := (floorLog2_spec a h).2
  have := pow2_lt_iff.mp (lt_of_le_of_lt hn h1)
  omega

theorem floorLog2_mono {a b : ℚ} (h : 0 < a) (hab : a ≤ b) : floorLog2 a ≤ floorLog2 b :=
  floorLog2_ge (lt_of_lt_of_le h hab) (le_trans (floorLog2_spec a h).1 hab)

theorem roundHalfEven_cases (x : ℚ) :
    (roundHalfEven x = Int.floor x ∧ x - Int.floor x ≤ 1 / 2) ∨
    (roundHalfEven x = Int.floor x + 1 ∧ 1 / 2 ≤ x - Int.floor x) := by
  unfold roundHalfEven
  simp only
  split_ifs with h1 h2 h3
  · exact Or.inl ⟨rfl, h1.le⟩
  · exact Or.inr ⟨rfl, h2.le⟩
  · exact Or.inl ⟨rfl, by linarith⟩
  · exact Or.inr ⟨rfl, by linarith⟩

theorem roundHalfEven_intCast (n : Int) : roundHalfEven (n : ℚ) = n := by
  unfold roundHalfEven
  simp

theorem roundHalfEven_err (x : ℚ) : |(roundHalfEven x : ℚ) - x| ≤ 1 / 2 := by
  have hf1 : (Int.floor x : ℚ) ≤ x := Int.floor_le x
  have hf2 : x < (Int.floor x : ℚ) + 1 := Int.lt_floor_add_one x
  rw [abs_le]
  rcases roundHalfEven_cases x with ⟨h, hd⟩ | ⟨h, hd⟩
  · rw [h]; constructor <;> linarith
  · rw [h]; push_cast; constructor <;> linarith

theorem roundHalfEven_mono {x y : ℚ} (h : x ≤ y) : roundHalfEven x ≤ roundHalfEven y := by
  have hfx1 : (Int.floor x : ℚ) ≤ x := Int.floor_le x
  have hfy2 : y < (Int.floor y : ℚ) + 1 := Int.lt_floor_add_one y
  have hfl : Int.floor x ≤ Int.floor y := Int.floor_le_floor h
  rcases lt_or_eq_of_le hfl with hlt | heq
  · have hx : roundHalfEven x ≤ Int.floor x + 1 := by
      rcases roundHalfEven_cases x with ⟨h1, -⟩ | ⟨h1, -⟩ <;> omega
    have hy : Int.floor y ≤ roundHalfEven y := by
      rcases roundHalfEven_cases y with ⟨h1, -⟩ | ⟨h1, -⟩ <;> omega
    omega
  · unfold roundHalfEven
    simp only
    rw [← heq]
    split_ifs <;> first | omega | (exfalso; linarith)

theorem roundToDouble_pos_eq {q : ℚ} (h : 0 < q) :
    roundToDouble q =
      (roundHalfEven (q / pow2 (max (floorLog2 q) (-1022) - 52)) : ℚ)
        * pow2 (max (floorLog2 q) (-1022) - 52) := by
  unfold roundToDouble
  rw [if_neg h.ne', abs_of_pos h]

theorem roundToDouble_nonneg {q : ℚ} (h : 0 ≤ q) : 0 ≤ roundToDouble q := by
  rcases eq_or_lt_of_le h with h0 | hpos
  · rw [← h0]; simp [roundToDouble]
  · rw [roundToDouble_pos_eq hpos]
    apply mul_nonneg _ (pow2_pos _).le
    have h1 : roundHalfEven ((0 : Int) : ℚ) ≤ roundHalfEven (q / pow2 (max (floorLog2 q) (-1022) - 52)) :=
      roundHalfEven_mono (by push_cast; exact div_nonneg h (pow2_pos _).le)
    rw [roundHalfEven_intCast] at h1
    exact_mod_cast h1

theorem pow2_natCast (n : Nat) : pow2 (n : Int) = ((2 ^ n : Int) : ℚ) := by
  rw [pow2_eq]; push_cast; rw [zpow_natCast]

/-- The rounded value stays inside the closed binade of its argument. -/
theorem roundToDouble_binade {q : ℚ} (h : 0 < q) :
    roundToDouble q ≤ pow2 (max (floorLog2 q) (-1022) + 1) ∧
    (-1022 ≤ floorLog2 q → pow2 (floorLog2 q) ≤ roundToDouble q) := by
  rw [roundToDouble_pos_eq h]
  set e := max (floorLog2 q) (-1022) with he
  have hu := pow2_pos (e - 52)
  constructor
  · have hq : q < pow2 (e + 1) :=
      lt_of_lt_of_le (floorLog2_spec q h).2 (pow2_le (by omega))
    have h1 : q / pow2 (e - 52) ≤ ((2 ^ 53 : Int) : ℚ) := by
      rw [div_le_iff₀ hu, ← pow2_natCast 53, ← pow2_add]
      have : ((53 : Nat) : Int) + (e - 52) = e + 1 := by omega
      rw [this]; exact hq.le
    have h2 := roundHalfEven_mono h1
    rw [roundHalfEven_intCast] at h2
    have h3 : (roundHalfEven (q / pow2 (e - 52)) : ℚ) ≤ ((2 ^ 53 : Int) : ℚ) := by exact_mod_cast h2
    calc (roundHalfEven (q / pow2 (e - 52)) : ℚ) * pow2 (e - 52)
        ≤ ((2 ^ 53 : Int) : ℚ) * pow2 (e - 52) := mul_le_mul_of_nonneg_right h3 hu.le
      _ = pow2 (e + 1) := by
        rw [← pow2_natCast 53, ← pow2_add]; congr 1; omega
  · intro hn
    have hee : e = floorLog2 q := by omega
    rw [← hee]
    have hq : pow2 e ≤ q := by rw [hee]; exact (floorLog2_spec q h).1
    have h1 : ((2 ^ 52 : Int) : ℚ) ≤ q / pow2 (e - 52) := by
      rw [le_div_iff₀ hu, ← pow2_natCast 52, ← pow2_add]
      have : ((52 : Nat) : Int) + (e - 52) = e := by omega
      rw [this]; exact hq
    have h2 := roundHalfEven_mono h1
    rw [roundHalfEven_intCast] at h2
    have h3 : ((2 ^ 52 : Int) : ℚ) ≤ (roundHalfEven (q / pow2 (e - 52)) : ℚ) := by exact_mod_cast h2
    calc pow2 e = ((2 ^ 52 : Int) : ℚ) * pow2 (e - 52) := by
          rw [← pow2_natCast 52, ← pow2_add]; congr 1; omega
      _ ≤ (roundHalfEven (q / pow2 (e - 52)) : ℚ) * pow2 (e - 52) :=
          mul_le_mul_of_nonneg_right h3 hu.le

/-- Rounding to the nearest double is monotone on the non-negative rationals. -/
theorem roundToDouble_mono {a b : ℚ} (ha : 0 ≤ a) (hab : a ≤ b) :
    roundToDouble a ≤ roundToDouble b := by
  rcases eq_or_lt_of_le ha with h0 | hpos
  · rw [← h0]
    have : roundToDouble 0 = 0 := by simp [roundToDouble]
    rw [this]; exact roundToDouble_nonneg (le_trans ha hab)
  · have hb : 0 < b := lt_of_lt_of_le hpos hab
    have hfl := floorLog2_mono hpos hab
    rcases lt_or_eq_of_le (max_le_max hfl (le_refl (-1022 : Int))) with hlt | heq
    · have hbn : -1022 ≤ floorLog2 b := by
        by_contra hcon
        push_neg at hcon
        have h1 : max (floorLog2 b) (-1022) = -1022 := max_eq_right hcon.le
        have h2 : -1022 ≤ max (floorLog2 a) (-1022) := le_max_right _ _
        omega
      have hbe : max (floorLog2 b) (-1022) = floorLog2 b := max_eq_left hbn
      calc roundToDouble a ≤ pow2 (max (floorLog2 a) (-1022) + 1) := (roundToDouble_binade hpos).1
        _ ≤ pow2 (floorLog2 b) := pow2_le (by omega)
        _ ≤ roundToDouble b := (roundToDouble_binade hb).2 hbn
    · rw [roundToDouble_pos_eq hpos, roundToDouble_pos_eq hb, heq]
      have hu := pow2_pos (max (floorLog2 b) (-1022) - 52)
      apply mul_le_mul_of_nonneg_right _ hu.le
      have := roundHalfEven_mono (div_le_div_of_nonneg_right hab hu.le)
      exact_mod_cast this

/-- Below `2 ^ n` the rounding error is at most half a unit in the last place of that range. -/
theorem roundToDouble_err {q : ℚ} (h : 0 < q) {n : Int} (hn : q < pow2 n) (hmin : -1021 ≤ n) :
    |roundToDouble q - q| ≤ pow2 (n - 54) := by
  rw [roundToDouble_pos_eq h]
  set e := max (floorLog2 q) (-1022) with he
  have hu := pow2_pos (e - 52)
  have hfl := floorLog2_lt h hn
  have hen : e ≤ n - 1 := by omega
  have herr := roundHalfEven_err (q / pow2 (e - 52))
  have h1 : (roundHalfEven (q / pow2 (e - 52)) : ℚ) * pow2 (e - 52) - q
      = ((roundHalfEven (q / pow2 (e - 52)) : ℚ) - q / pow2 (e - 52)) * pow2 (e - 52) := by
    field_simp
  rw [h1, abs_mul, abs_of_pos hu]
  calc |(roundHalfEven (q / pow2 (e - 52)) : ℚ) - q / pow2 (e - 52)| * pow2 (e - 52)
      ≤ 1 / 2 * pow2 (e - 52) := mul_le_mul_of_nonneg_right herr hu.le
    _ = pow2 (e - 53) := by
      have : pow2 (e - 52) = pow2 (e - 53) * pow2 1 := by rw [← pow2_add]; congr 1; omega
      rw [this]
      have : pow2 1 = 2 := by rw [pow2_eq]; norm_num
      rw [this]; ring
    _ ≤ pow2 (n - 54) := pow2_le (by omega)

theorem roundToDouble_zero : roundToDouble 0 = 0 := by
  simp [roundToDouble]

/-- A binary64 value below 1 is at most `1 - 2 ^ -53`. -/
theorem double_below_one {r : ℚ} (hd : roundToDouble r = r) (h1 : r < 1) :
    r ≤ 1 - pow2 (-53) := by
  have hp53 : pow2 (-53) = 1 / 9007199254740992 := by rw [pow2_eq]; norm_num
  by_cases hhalf : r < 1 / 2
  · rw [hp53]; linarith
  · push_neg at hhalf
    have hpos : 0 < r := by linarith
    have hge : (-1 : Int) ≤ floorLog2 r :=
      floorLog2_ge hpos (by rw [pow2_eq]; norm_num; linarith)
    have hlt : floorLog2 r < 0 := floorLog2_lt hpos (by rw [pow2_eq]; norm_num; exact h1)
    have he : max (floorLog2 r) (-1022) - 52 = -53 := by omega
    rw [roundToDouble_pos_eq hpos, he] at hd
    set m := roundHalfEven (r / pow2 (-53)) with hm
    have hlt' : (m : ℚ) * pow2 (-53) < 1 := by rw [hd]; exact h1
    rw [hp53] at hlt' hd ⊢
    have hm1 : (m : ℚ) < 9007199254740992 := by linarith
    have hm2 : m < 9007199254740992 := by exact_mod_cast hm1
    have hm3 : m ≤ 9007199254740991 := by omega
    have hm4 : (m : ℚ) ≤ 9007199254740991 := by exact_mod_cast hm3
    rw [← hd]
    linarith

/-! ### The fixed-point column -/

theorem roundHalfAway_intCast (n : Int) : roundHalfAway (n : ℚ) = n := by
  unfold roundHalfAway
  split_ifs with h
  · have : Int.floor ((n : ℚ) + 1 / 2) = n := by
      rw [Int.floor_eq_iff]; constructor <;> linarith
    exact this
  · have : Int.floor (-(n : ℚ) + 1 / 2) = -n := by
      rw [Int.floor_eq_iff]; push_cast; constructor <;> linarith
    rw [this]; ring

theorem roundHalfAway_nonneg {x : ℚ} (h : -(1 / 2) < x) : 0 ≤ roundHalfAway x := by
  unfold roundHalfAway
  split_ifs with h0
  · exact Int.floor_nonneg.mpr (by linarith)
  · push_neg at h0
    have : Int.floor (-x + 1 / 2) = 0 := by
      rw [Int.floor_eq_iff]; constructor <;> push_cast <;> linarith
    rw [this]; simp

theorem roundHalfAway_mono {x y : ℚ} (h : x ≤ y) : roundHalfAway x ≤ roundHalfAway y := by
  unfold roundHalfAway
  split_ifs with hx hy hy
  · exact Int.floor_le_floor (by linarith)
  · exact absurd (le_trans hx h) hy
  · push_neg at hx
    have h1 : 0 ≤ Int.floor (-x + 1 / 2) := Int.floor_nonneg.mpr (by linarith)
    have h2 : 0 ≤ Int.floor (y + 1 / 2) := Int.floor_nonneg.mpr (by linarith)
    omega
  · have := Int.floor_le_floor (show -y + 1 / 2 ≤ -x + 1 / 2 by linarith)
    omega

/-- A credit never lowers a stored balance. -/
theorem toCents_credit (b : Int) {amt : ℚ} (h : 0 ≤ amt) : b ≤ toCents (fromCents b + amt) := by
  unfold toCents fromCents
  have h1 : ((b : ℚ)) ≤ ((b : ℚ) / 100 + amt) * 100 := by linarith
  have := roundHalfAway_mono h1
  rwa [roundHalfAway_intCast] at this

/-- A debit never raises a stored balance. -/
theorem toCents_debit (b : Int) {amt : ℚ} (h : 0 ≤ amt) : toCents (fromCents b - amt) ≤ b := by
  unfold toCents fromCents
  have h1 : ((b : ℚ) / 100 - amt) * 100 ≤ (b : ℚ) := by linarith
  have := roundHalfAway_mono h1
  rwa [roundHalfAway_intCast] at this

theorem toCents_nonneg {x : ℚ} (h : -(1 / 200) < x) : 0 ≤ toCents x := by
  unfold toCents
  exact roundHalfAway_nonneg (by linarith)

theorem toCents_fromCents (b : Int) : toCents (fromCents b) = b := by
  unfold toCents fromCents
  have : (b : ℚ) / 100 * 100 = (b : ℚ) := by ring
  rw [this, roundHalfAway_intCast]

/-! ### The funds check -/

theorem maxAmount_eq : maxAmount = 4194303999958057 / 4194304 := by
  decide!

theorem maxAmount_pos : 0 < maxAmount := by
  rw [maxAmount_eq]; norm_num

/-- When the comparison of line 43 does not report a shortage for an amount within the ceiling,
the exact balance is short of the amount by less than half a hundredth. -/
theorem funds_margin {x amt : ℚ} (hx : 0 ≤ x) (hmax : amt ≤ maxAmount)
    (h : (toDouble x).lessThan (.fin amt) = false) : -(1 / 200) < x - amt := by
  by_contra hcon
  push_neg at hcon
  have hxlt : x < pow2 30 := by
    have : pow2 30 = 1073741824 := by rw [pow2_eq]; norm_num
    rw [this]
    rw [maxAmount_eq] at hmax
    linarith
  have h30 : roundToDouble (pow2 30) = pow2 30 := by decide!
  have hr30 : roundToDouble x ≤ pow2 30 := by
    have := roundToDouble_mono hx hxlt.le
    rwa [h30] at this
  have hrnn := roundToDouble_nonneg hx
  have hbig : ¬ pow2 1024 ≤ roundToDouble x := by
    have : pow2 30 < pow2 1024 := pow2_lt_iff.mpr (by norm_num)
    intro hc; linarith
  have hneg : ¬ roundToDouble x ≤ -pow2 1024 := by
    have := pow2_pos 1024
    intro hc; linarith
  have hfin : toDouble x = .fin (roundToDouble x) := by
    unfold toDouble; rw [if_neg hbig, if_neg hneg]
  rw [hfin] at h
  simp only [JsNum.lessThan, decide_eq_false_iff_not, not_lt] at h
  rcases eq_or_lt_of_le hx with h0 | hpos
  · rw [← h0, roundToDouble_zero] at h
    rw [← h0] at hcon
    linarith
  · have herr := roundToDouble_err hpos hxlt (by norm_num)
    have h24 : pow2 (30 - 54) = 1 / 16777216 := by rw [pow2_eq]; norm_num
    rw [h24, abs_le] at herr
    linarith [herr.2]

theorem roundToDouble_nonpos {q : ℚ} (h : q ≤ 0) : roundToDouble q ≤ 0 := by
  unfold roundToDouble
  split_ifs with h0
  · exact le_refl 0
  · simp only
    apply mul_nonpos_of_nonpos_of_nonneg _ (pow2_pos _).le
    have h1 : roundHalfEven (q / pow2 (max (floorLog2 |q|) (-1022) - 52))
        ≤ roundHalfEven ((0 : Int) : ℚ) :=
      roundHalfEven_mono (by push_cast; exact div_nonpos_of_nonpos_of_nonneg h (pow2_pos _).le)
    rw [roundHalfEven_intCast] at h1
    exact_mod_cast h1

theorem toDouble_fin {x r : ℚ} (h : toDouble x = .fin r) : roundToDouble x = r := by
  unfold toDouble at h
  split_ifs at h
  simpa using h

theorem roundHalfAway_near (n : Int) {d : ℚ} (h : |d| < 1 / 2) :
    roundHalfAway ((n : ℚ) + d) = n := by
  rw [abs_lt] at h
  unfold roundHalfAway
  split_ifs with h0
  · rw [Int.floor_eq_iff]
    constructor <;> linarith [h.1, h.2]
  · have : Int.floor (-((n : ℚ) + d) + 1 / 2) = -n := by
      rw [Int.floor_eq_iff]
      push_cast
      constructor <;> linarith [h.1, h.2]
    rw [this]; ring

/-- An amount within less than half a hundredth of `k` hundredths moves exactly `k`. -/
theorem toCents_near (b k : Int) {amt : ℚ} (h : |amt * 100 - k| < 1 / 2) :
    toCents (fromCents b - amt) = b - k ∧ toCents (fromCents b + amt) = b + k := by
  unfold toCents fromCents
  constructor
  · have h1 : ((b : ℚ) / 100 - amt) * 100 = ((b - k : Int) : ℚ) + ((k : ℚ) - amt * 100) := by
      push_cast; ring
    rw [h1]
    apply roundHalfAway_near
    rw [abs_sub_comm]; exact h
  · have h1 : ((b : ℚ) / 100 + amt) * 100 = ((b + k : Int) : ℚ) + (amt * 100 - (k : ℚ)) := by
      push_cast; ring
    rw [h1]
    exact roundHalfAway_near _ h

/-- A transfer of the whole balance, as line 43 sees it, leaves the source at 0. -/
theorem full_balance_zero {b : Int} {amt : ℚ} (hpos : 0 < amt) (hmax : amt ≤ maxAmount)
    (h : toNumber b = .fin amt) : toCents (fromCents b - amt) = 0 := by
  have hr : roundToDouble (fromCents b) = amt := toDouble_fin h
  have hx : 0 < fromCents b := by
    by_contra hcon
    push_neg at hcon
    have := roundToDouble_nonpos hcon
    linarith
  have h30 : roundToDouble (pow2 30) = pow2 30 := by decide!
  have hp30 : pow2 30 = 1073741824 := by rw [pow2_eq]; norm_num
  have hxlt : fromCents b < pow2 30 := by
    by_contra hcon
    push_neg at hcon
    have := roundToDouble_mono (pow2_pos 30).le hcon
    rw [h30, hr, hp30] at this
    rw [maxAmount_eq] at hmax
    linarith
  have herr := roundToDouble_err hx hxlt (by norm_num)
  have h24 : pow2 (30 - 54) = 1 / 16777216 := by rw [pow2_eq]; norm_num
  rw [h24, hr, abs_le] at herr
  have hnear : |amt * 100 - ((b : Int) : ℚ)| < 1 / 2 := by
    have hb : (b : ℚ) = fromCents b * 100 := by unfold fromCents; ring
    rw [hb, abs_lt]
    constructor <;> linarith [herr.1, herr.2]
  have := (toCents_near b b hnear).1
  rw [this]; ring

/-- The Number that stands for `k` hundredths, for an amount within the ceiling, is within less
than half a hundredth of it. -/
theorem roundToDouble_near_cents {k : Int} (h0 : 0 < k) (h1 : k ≤ 99999999999) :
    |roundToDouble ((k : ℚ) / 100) * 100 - k| < 1 / 2 := by
  have hk0 : (0 : ℚ) < (k : ℚ) := by exact_mod_cast h0
  have hk1 : (k : ℚ) ≤ 99999999999 := by exact_mod_cast h1
  have hx : (0 : ℚ) < (k : ℚ) / 100 := by positivity
  have hp30 : pow2 30 = 1073741824 := by rw [pow2_eq]; norm_num
  have hxlt : (k : ℚ) / 100 < pow2 30 := by rw [hp30]; linarith
  have herr := roundToDouble_err hx hxlt (by norm_num)
  have h24 : pow2 (30 - 54) = 1 / 16777216 := by rw [pow2_eq]; norm_num
  rw [h24, abs_le] at herr
  rw [abs_lt]
  constructor <;> linarith [herr.1, herr.2]


/-! ## Basic facts about the handler -/

theorem errorResponse_status_ne (e : String) : (errorResponse e).status ≠ 200 := by
  unfold errorResponse
  split <;> simp

theorem validate_error_status {req : Request} {resp : Response}
    (h : validate req = .error resp) : resp.status = 400 := by
  unfold validate at h
  split at h
  · cases h; rfl
  · split at h
    · split at h
      · cases h; rfl
      · split at h
        · cases h; rfl
        · cases h; rfl
        · cases h; rfl
        · split at h
          · cases h; rfl
          · split at h
            · cases h; rfl
            · cases h
    · cases h; rfl

theorem validate_ok {req : Request} {toAccount : String} {amt : ℚ}
    (h : validate req = .ok (toAccount, amt)) :
    0 < amt ∧ amt ≤ maxAmount ∧ parseFloat req.amount = .fin amt ∧
      ∃ s, req.toAccountId = .str s ∧ toAccount = jsTrim s ∧ (jsTrim s).length ≠ 0 := by
  unfold validate at h
  split at h
  · cases h
  · split at h
    · rename_i s hs
      split at h
      · cases h
      · rename_i hlen
        split at h
        · cases h
        · cases h
        · cases h
        · rename_i q hq
          split at h
          · cases h
          · split at h
            · cases h
            · rename_i h0 hmax
              cases h
              exact ⟨lt_of_not_le h0, le_of_not_lt hmax, hq, s, hs, rfl, hlen⟩
    · cases h

theorem transferHandler_invalid {env : Env} {db : Tables} {req : Request} {resp : Response}
    (hv : validate req = .error resp) :
    transferHandler env db req = ⟨resp, db, []⟩ := by
  unfold transferHandler
  rw [hv]

theorem transferHandler_success {env : Env} {db : Tables} {req : Request}
    {toAccount : String} {amt : ℚ} {src dst : Account} {sr dr : List Account}
    (hf : ∀ s, s ≠ Step.rollback → env.fault s = none)
    (hv : validate req = .ok (toAccount, amt))
    (hs : selectByUserId db req.userId = src :: sr)
    (hb : (toNumber src.balance).lessThan (.fin amt) = false)
    (hr : selectByAccountNumber db toAccount = dst :: dr)
    (hne : src.id ≠ dst.id) :
    (transferHandler env db req).response = transferSuccessful ∧
    (transferHandler env db req).db =
      insertTransaction (transferRow env src.id dst.id amt) (settle src.id dst.id amt db) := by
  have h1 := hf .getConnection (by decide)
  have h2 := hf .beginTransaction (by decide)
  have h3 := hf .selectSender (by decide)
  have h4 := hf .selectReceiver (by decide)
  have h5 := hf .debit (by decide)
  have h6 := hf .credit (by decide)
  have h7 := hf .insert (by decide)
  have h8 := hf .commit (by decide)
  simp [transferHandler, transferUnit, hv, h1, h2, h3, h4, h5, h6, h7, h8, hs, hr, hb, hne,
    Conn.beginTransaction, Conn.view, Conn.write, Conn.commit, settle]

theorem transferHandler_cases (env : Env) (db : Tables) (req : Request) :
    ((transferHandler env db req).db = db ∧ (transferHandler env db req).response.status ≠ 200) ∨
    ∃ toAccount amt src sr dst dr,
      validate req = .ok (toAccount, amt) ∧
      selectByUserId db req.userId = src :: sr ∧ (toNumber src.balance).lessThan (.fin amt) = false ∧
      selectByAccountNumber db toAccount = dst :: dr ∧ src.id ≠ dst.id ∧
      (∀ s, s ≠ Step.rollback → env.fault s = none) := by
  rcases hv : validate req with resp | ⟨toAccount, amt⟩
  · left
    rw [transferHandler_invalid hv]
    exact ⟨rfl, by simp [validate_error_status hv]⟩
  · cases h1 : env.fault .getConnection with
    | some e => left; simp [transferHandler, hv, h1, errorResponse_status_ne]
    | none =>
    cases h2 : env.fault .beginTransaction with
    | some e =>
      left
      cases hrb : env.fault .rollback <;>
        simp [transferHandler, transferUnit, hv, h1, h2, hrb, errorResponse_status_ne,
          Conn.rollback]
    | none =>
    cases h3 : env.fault .selectSender with
    | some e =>
      left
      cases hrb : env.fault .rollback <;>
        simp [transferHandler, transferUnit, hv, h1, h2, h3, hrb, errorResponse_status_ne,
          Conn.rollback, Conn.beginTransaction, Conn.view]
    | none =>
    cases hs : selectByUserId db req.userId with
    | nil =>
      left
      cases hrb : env.fault .rollback <;>
        simp [transferHandler, transferUnit, hv, h1, h2, h3, hs, hrb, errorResponse_status_ne,
          Conn.rollback, Conn.beginTransaction, Conn.view]
    | cons src sr =>
    by_cases hb : (toNumber src.balance).lessThan (.fin amt) = true
    · left
      cases hrb : env.fault .rollback <;>
        simp [transferHandler, transferUnit, hv, h1, h2, h3, hs, hb, hrb,
          errorResponse_status_ne, Conn.rollback, Conn.beginTransaction, Conn.view]
    · cases h4 : env.fault .selectReceiver with
      | some e =>
        left
        cases hrb : env.fault .rollback <;>
          simp [transferHandler, transferUnit, hv, h1, h2, h3, hs, hb, h4, hrb,
            errorResponse_status_ne, Conn.rollback, Conn.beginTransaction, Conn.view]
      | none =>
      cases hr : selectByAccountNumber db toAccount with
      | nil =>
        left
        cases hrb : env.fault .rollback <;>
          simp [transferHandler, transferUnit, hv, h1, h2, h3, hs, hb, h4, hr, hrb,
            errorResponse_status_ne, Conn.rollback, Conn.beginTransaction, Conn.view]
      | cons dst dr =>
      by_cases hne : src.id = dst.id
      · left
        cases hrb : env.fault .rollback <;>
          simp [transferHandler, transferUnit, hv, h1, h2, h3, hs, hb, h4, hr, hne, hrb,
            errorResponse_status_ne, Conn.rollback, Conn.beginTransaction, Conn.view]
      · cases h5 : env.fault .debit with
        | some e =>
          left
          cases hrb : env.fault .rollback <;>
            simp [transferHandler, transferUnit, hv, h1, h2, h3, hs, hb, h4, hr, hne, h5, hrb,
              errorResponse_status_ne, Conn.rollback, Conn.beginTransaction, Conn.view]
        | none =>
        cases h6 : env.fault .credit with
        | some e =>
          left
          cases hrb : env.fault .rollback <;>
            simp [transferHandler, transferUnit, hv, h1, h2, h3, hs, hb, h4, hr, hne, h5, h6,
              hrb, errorResponse_status_ne, Conn.rollback, Conn.beginTransaction, Conn.view,
              Conn.write]
        | none =>
        cases h7 : env.fault .insert with
        | some e =>
          left
          cases hrb : env.fault .rollback <;>
            simp [transferHandler, transferUnit, hv, h1, h2, h3, hs, hb, h4, hr, hne, h5, h6,
              h7, hrb, errorResponse_status_ne, Conn.rollback, Conn.beginTransaction,
              Conn.view, Conn.write]
        | none =>
        cases h8 : env.fault .commit with
        | some e =>
          left
          cases hrb : env.fault .rollback <;>
            simp [transferHandler, transferUnit, hv, h1, h2, h3, hs, hb, h4, hr, hne, h5, h6,
              h7, h8, hrb, errorResponse_status_ne, Conn.rollback, Conn.beginTransaction,
              Conn.view, Conn.write]
        | none =>
          right
          refine ⟨toAccount, amt, src, sr, dst, dr, rfl, rfl, Bool.eq_false_iff.mpr hb, hr, hne, ?_⟩
          intro s hs'
          cases s <;> first | assumption | exact absurd rfl hs'


/-! ## Accounts under a settled transfer -/

theorem movedAccount_id (srcId dstId : Nat) (amt : ℚ) (a : Account) :
    (movedAccount srcId dstId amt a).id = a.id := by
  unfold movedAccount
  split
  · rfl
  · split <;> rfl

theorem settle_accounts {srcId dstId : Nat} (hne : srcId ≠ dstId) (amt : ℚ) (db : Tables) :
    (settle srcId dstId amt db).accounts = db.accounts.map (movedAccount srcId dstId amt) := by
  simp only [settle, updateBalance, List.map_map]
  apply List.map_congr_left
  intro a _
  simp only [Function.comp, movedAccount]
  by_cases h1 : a.id = srcId
  · have h2 : ¬ a.id = dstId := fun h => hne (h1.symm.trans h)
    simp [h1, h2, hne, sub_eq_add_neg]
  · simp [h1]

theorem settle_transactions (srcId dstId : Nat) (amt : ℚ) (db : Tables) :
    (settle srcId dstId amt db).transactions = db.transactions := rfl

theorem balanceOf_moved (srcId dstId : Nat) (amt : ℚ) (accounts : List Account)
    (txs txs' : List Transaction) (id : Nat) :
    balanceOf ⟨accounts.map (movedAccount srcId dstId amt), txs'⟩ id =
      (balanceOf ⟨accounts, txs⟩ id).map
        (fun b => if id = srcId then toCents (fromCents b - amt)
          else if id = dstId then toCents (fromCents b + amt) else b) := by
  simp only [balanceOf]
  induction accounts with
  | nil => simp
  | cons a rest ih =>
    simp only [List.map_cons, List.find?_cons, movedAccount_id]
    by_cases h : a.id = id
    · subst h
      simp only [decide_True, Option.map_some']
      unfold movedAccount
      split
      · rfl
      · split <;> rfl
    · simp only [h, decide_False]
      exact ih

theorem mem_of_select_user {db : Tables} {u : Nat} {src : Account} {sr : List Account}
    (hs : selectByUserId db u = src :: sr) : src ∈ db.accounts ∧ src.user_id = u := by
  have h : src ∈ selectByUserId db u := by rw [hs]; exact List.mem_cons_self _ _
  simpa [selectByUserId] using h

theorem mem_of_select_number {db : Tables} {n : String} {dst : Account} {dr : List Account}
    (hr : selectByAccountNumber db n = dst :: dr) :
    dst ∈ db.accounts ∧ dst.account_number = n := by
  have h : dst ∈ selectByAccountNumber db n := by rw [hr]; exact List.mem_cons_self _ _
  simpa [selectByAccountNumber] using h

theorem balanceOf_isSome {db : Tables} {a : Account} (h : a ∈ db.accounts) :
    ∃ b, balanceOf db a.id = some b := by
  unfold balanceOf
  cases hf : db.accounts.find? (fun x => decide (x.id = a.id)) with
  | some x => exact ⟨x.balance, rfl⟩
  | none =>
    rw [List.find?_eq_none] at hf
    exact absurd (by simp) (hf a h)

theorem success_of_response {env : Env} {db : Tables} {req : Request}
    (h : (transferHandler env db req).response = transferSuccessful) :
    ∃ toAccount amt src sr dst dr,
      validate req = .ok (toAccount, amt) ∧
      selectByUserId db req.userId = src :: sr ∧ (toNumber src.balance).lessThan (.fin amt) = false ∧
      selectByAccountNumber db toAccount = dst :: dr ∧ src.id ≠ dst.id ∧
      (∀ s, s ≠ Step.rollback → env.fault s = none) := by
  rcases transferHandler_cases env db req with ⟨_, hst⟩ | hok
  · rw [h] at hst
    exact absurd rfl hst
  · exact hok

theorem transferSuccessful_status : transferSuccessful.status = 200 := rfl

/-! ## One call, summarised -/

theorem transferHandler_outcome (env : Env) (db : Tables) (req : Request) :
    ((transferHandler env db req).db = db ∧ (transferHandler env db req).response.status ≠ 200) ∨
    ∃ toAccount amt src sr dst dr,
      validate req = .ok (toAccount, amt) ∧
      selectByUserId db req.userId = src :: sr ∧ (toNumber src.balance).lessThan (.fin amt) = false ∧
      selectByAccountNumber db toAccount = dst :: dr ∧ src.id ≠ dst.id ∧
      (∀ s, s ≠ Step.rollback → env.fault s = none) ∧
      (transferHandler env db req).response = transferSuccessful ∧
      (transferHandler env db req).db =
        ⟨db.accounts.map (movedAccount src.id dst.id amt),
          db.transactions ++ [transferRow env src.id dst.id amt]⟩ := by
  rcases transferHandler_cases env db req with hfail | hok
  · exact Or.inl hfail
  · obtain ⟨toAccount, amt, src, sr, dst, dr, hv, hs, hb, hr, hne, hf⟩ := hok
    obtain ⟨hresp, hdb⟩ := transferHandler_success hf hv hs hb hr hne
    refine Or.inr ⟨toAccount, amt, src, sr, dst, dr, hv, hs, hb, hr, hne, hf, hresp, ?_⟩
    rw [hdb]
    simp [insertTransaction, settle_accounts hne, settle_transactions]

theorem transferHandler_wellKeyed (env : Env) (db : Tables) (req : Request)
    (hk : WellKeyed db) : WellKeyed (transferHandler env db req).db := by
  rcases transferHandler_outcome env db req with ⟨hdb, _⟩ | hok
  · rw [hdb]; exact hk
  · obtain ⟨toAccount, amt, src, sr, dst, dr, -, -, -, -, -, -, -, hdb⟩ := hok
    rw [hdb]
    unfold WellKeyed at hk ⊢
    have hids : (db.accounts.map (movedAccount src.id dst.id amt)).map (·.id) =
        db.accounts.map (·.id) := by
      rw [List.map_map]
      apply List.map_congr_left
      intro a _
      exact movedAccount_id _ _ _ a
    show ((db.accounts.map (movedAccount src.id dst.id amt)).map (·.id)).Nodup
    rw [hids]
    exact hk

theorem transferHandler_nonNegative (env : Env) (db : Tables) (req : Request)
    (hk : WellKeyed db) (hn : NonNegative db) :
    NonNegative (transferHandler env db req).db := by
  rcases transferHandler_outcome env db req with ⟨hdb, _⟩ | hok
  · rw [hdb]; exact hn
  · obtain ⟨toAccount, amt, src, sr, dst, dr, hv, hs, hb, -, -, -, -, hdb⟩ := hok
    rw [hdb]
    intro a' ha'
    obtain ⟨a, ha, rfl⟩ := List.mem_map.mp ha'
    obtain ⟨hpos, hmax, -⟩ := validate_ok hv
    have hsrc := (mem_of_select_user hs).1
    unfold movedAccount
    split
    · rename_i hid
      have : a = src := List.inj_on_of_nodup_map hk ha hsrc hid
      subst this
      show 0 ≤ toCents (fromCents a.balance - amt)
      have hx : (0 : ℚ) ≤ fromCents a.balance := by
        unfold fromCents
        have : (0 : ℚ) ≤ (a.balance : ℚ) := by exact_mod_cast hn a ha
        positivity
      exact toCents_nonneg (funds_margin hx hmax hb)
    · split
      · show 0 ≤ toCents (fromCents a.balance + amt)
        exact le_trans (hn a ha) (toCents_credit a.balance hpos.le)
      · exact hn a ha

theorem runCalls_invariant (calls : List Call) :
    ∀ db, WellKeyed db → NonNegative db →
      WellKeyed (runCalls db calls).1 ∧ NonNegative (runCalls db calls).1 := by
  induction calls with
  | nil => intro db hk hn; exact ⟨hk, hn⟩
  | cons c cs ih =>
    intro db hk hn
    exact ih _ (transferHandler_wellKeyed c.env db c.req hk)
      (transferHandler_nonNegative c.env db c.req hk hn)

theorem transferRow_status (env : Env) (fromId toId : Nat) (amt : ℚ) :
    (transferRow env fromId toId amt).status = "success" := rfl

theorem call_ledger (env : Env) (db : Tables) (req : Request) :
    ((transferHandler env db req).response = transferSuccessful ∧
      ∃ row, (transferHandler env db req).db.transactions = db.transactions ++ [row] ∧
        row.status = "success") ∨
    ((transferHandler env db req).response ≠ transferSuccessful ∧
      (transferHandler env db req).db = db) := by
  rcases transferHandler_outcome env db req with ⟨hdb, hst⟩ | hok
  · refine Or.inr ⟨?_, hdb⟩
    intro h
    rw [h] at hst
    exact hst rfl
  · obtain ⟨toAccount, amt, src, sr, dst, dr, -, -, -, -, -, -, hresp, hdb⟩ := hok
    refine Or.inl ⟨hresp, transferRow env src.id dst.id amt, ?_, rfl⟩
    rw [hdb]

theorem runCalls_ledger (calls : List Call) :
    ∀ db, ∃ added,
      (runCalls db calls).1.transactions = db.transactions ++ added ∧
      (∀ r ∈ added, r.status = "success") ∧
      added.length = successCount (runCalls db calls).2 := by
  induction calls with
  | nil => intro db; exact ⟨[], by simp [runCalls], by simp, by simp [runCalls, successCount]⟩
  | cons c cs ih =>
    intro db
    obtain ⟨added, htx, hall, hlen⟩ := ih (transferHandler c.env db c.req).db
    rcases call_ledger c.env db c.req with ⟨hresp, row, hrow, hstatus⟩ | ⟨hresp, hdb⟩
    · refine ⟨row :: added, ?_, ?_, ?_⟩
      · show (runCalls (transferHandler c.env db c.req).db cs).1.transactions = _
        rw [htx, hrow]; simp
      · intro r hr
        rcases List.mem_cons.mp hr with rfl | hr
        · exact hstatus
        · exact hall r hr
      · show (row :: added).length =
          successCount ((transferHandler c.env db c.req).response ::
            (runCalls (transferHandler c.env db c.req).db cs).2)
        simp only [successCount, List.filter_cons, hresp, decide_True, if_true,
          List.length_cons]
        simpa [successCount] using hlen
    · refine ⟨added, ?_, hall, ?_⟩
      · show (runCalls (transferHandler c.env db c.req).db cs).1.transactions = _
        rw [htx, hdb]
      · show added.length =
          successCount ((transferHandler c.env db c.req).response ::
            (runCalls (transferHandler c.env db c.req).db cs).2)
        simp only [successCount, List.filter_cons, hresp, decide_False]
        simpa [successCount] using hlen


/-! ## The four checks inside the unit of work, with a storage layer that does not fail -/

theorem errorResponse_sender : errorResponse "Sender account not found" =
    ⟨400, "Sender account not found"⟩ := by decide

theorem errorResponse_funds : errorResponse "Insufficient funds" =
    ⟨400, "Insufficient funds"⟩ := by decide

theorem errorResponse_receiver : errorResponse "Receiver account not found" =
    ⟨400, "Receiver account not found"⟩ := by decide

theorem errorResponse_self : errorResponse "Cannot transfer to self" =
    ⟨400, "Cannot transfer to self"⟩ := by decide

theorem transferHandler_no_sender {env : Env} {db : Tables} {req : Request}
    {toAccount : String} {amt : ℚ}
    (hf : ∀ s, env.fault s = none) (hv : validate req = .ok (toAccount, amt))
    (hs : selectByUserId db req.userId = []) :
    (transferHandler env db req).response = ⟨400, "Sender account not found"⟩ ∧
      (transferHandler env db req).db = db := by
  simp [transferHandler, transferUnit, hv, hf, hs, Conn.beginTransaction, Conn.view,
    Conn.rollback, errorResponse_sender]

theorem transferHandler_insufficient {env : Env} {db : Tables} {req : Request}
    {toAccount : String} {amt : ℚ} {src : Account} {sr : List Account}
    (hf : ∀ s, env.fault s = none) (hv : validate req = .ok (toAccount, amt))
    (hs : selectByUserId db req.userId = src :: sr) (hb : (toNumber src.balance).lessThan (.fin amt) = true) :
    (transferHandler env db req).response = ⟨400, "Insufficient funds"⟩ ∧
      (transferHandler env db req).db = db := by
  simp [transferHandler, transferUnit, hv, hf, hs, hb, Conn.beginTransaction, Conn.view,
    Conn.rollback, errorResponse_funds]

theorem transferHandler_no_receiver {env : Env} {db : Tables} {req : Request}
    {toAccount : String} {amt : ℚ} {src : Account} {sr : List Account}
    (hf : ∀ s, env.fault s = none) (hv : validate req = .ok (toAccount, amt))
    (hs : selectByUserId db req.userId = src :: sr) (hb : (toNumber src.balance).lessThan (.fin amt) = false)
    (hr : selectByAccountNumber db toAccount = []) :
    (transferHandler env db req).response = ⟨400, "Receiver account not found"⟩ ∧
      (transferHandler env db req).db = db := by
  simp [transferHandler, transferUnit, hv, hf, hs, hb, hr, Conn.beginTransaction, Conn.view,
    Conn.rollback, errorResponse_receiver]

theorem transferHandler_self {env : Env} {db : Tables} {req : Request}
    {toAccount : String} {amt : ℚ} {src dst : Account} {sr dr : List Account}
    (hf : ∀ s, env.fault s = none) (hv : validate req = .ok (toAccount, amt))
    (hs : selectByUserId db req.userId = src :: sr) (hb : (toNumber src.balance).lessThan (.fin amt) = false)
    (hr : selectByAccountNumber db toAccount = dst :: dr) (hself : src.id = dst.id) :
    (transferHandler env db req).response = ⟨400, "Cannot transfer to self"⟩ ∧
      (transferHandler env db req).db = db := by
  simp [transferHandler, transferUnit, hv, hf, hs, hb, hr, hself, Conn.beginTransaction,
    Conn.view, Conn.rollback, errorResponse_self]

theorem movedAccount_src (srcId dstId : Nat) (amt : ℚ) (a : Account) (h : a.id = srcId) :
    movedAccount srcId dstId amt a =
      { a with balance := toCents (fromCents a.balance - amt) } := by
  simp [movedAccount, h]

theorem movedAccount_dst (srcId dstId : Nat) (amt : ℚ) (a : Account) (h : a.id = dstId)
    (hne : srcId ≠ dstId) :
    movedAccount srcId dstId amt a =
      { a with balance := toCents (fromCents a.balance + amt) } := by
  subst h
  have h' : ¬ a.id = srcId := fun e => hne e.symm
  simp [movedAccount, h']

/-! ## Validation -/

theorem truthy_str_of_nonblank {s : String} (h : (jsTrim s).length ≠ 0) :
    (JsVal.str s).truthy = true := by
  have hne : s ≠ "" := by
    intro e
    subst e
    exact h (by decide)
  simp [JsVal.truthy, hne]

theorem truthy_of_parse {v : JsVal}
    (h : parseFloat v = .posInf ∨ ∃ q, parseFloat v = .fin q ∧ 0 < q) : v.truthy = true := by
  cases v with
  | undefined => rcases h with h | ⟨q, h, _⟩ <;> simp [parseFloat] at h
  | null => rcases h with h | ⟨q, h, _⟩ <;> simp [parseFloat] at h
  | bool b => rcases h with h | ⟨q, h, _⟩ <;> simp [parseFloat] at h
  | num literal =>
    simp only [parseFloat] at h
    simp only [JsVal.truthy]
    rcases h with h | ⟨q, h, hq⟩
    · rw [h]
    · rw [h]
      simp [ne_of_gt hq]
  | str s =>
    have hne : s ≠ "" := by
      intro e
      subst e
      have hnan : parseFloat (.str "") = .nan := by decide
      rcases h with h | ⟨q, h, _⟩ <;> rw [hnan] at h <;> cases h
    simp [JsVal.truthy, hne]
  | object t => rfl

theorem validate_exceeds {req : Request} {s : String}
    (hs : req.toAccountId = .str s) (hblank : (jsTrim s).length ≠ 0)
    (hp : parseFloat req.amount = .posInf ∨ ∃ q, parseFloat req.amount = .fin q ∧ maxAmount < q) :
    validate req = .error ⟨400, "Amount exceeds maximum limit"⟩ := by
  have ht1 : (JsVal.str s).truthy = true := truthy_str_of_nonblank hblank
  have ht2 : req.amount.truthy = true := by
    apply truthy_of_parse
    rcases hp with hp | ⟨q, hp, hq⟩
    · exact Or.inl hp
    · exact Or.inr ⟨q, hp, lt_trans maxAmount_pos hq⟩
  rcases hp with hp | ⟨q, hp, hq⟩
  · simp [validate, ht1, ht2, hs, hblank, hp]
  · have h0 : ¬ q ≤ 0 := not_le.mpr (lt_trans maxAmount_pos hq)
    simp [validate, ht1, ht2, hs, hblank, hp, h0, hq]

theorem validate_exceeds_any {req : Request}
    (hp : parseFloat req.amount = .posInf ∨ ∃ q, parseFloat req.amount = .fin q ∧ maxAmount < q) :
    ∃ resp, validate req = .error resp := by
  rcases hv : validate req with resp | ⟨toAccount, amt⟩
  · exact ⟨resp, rfl⟩
  · obtain ⟨_, hle, hparse, _⟩ := validate_ok hv
    rcases hp with hp | ⟨q, hp, hq⟩
    · rw [hparse] at hp; cases hp
    · rw [hparse] at hp
      simp only [JsNum.fin.injEq] at hp
      subst hp
      exact absurd hq (not_lt.mpr hle)

theorem validate_at_ceiling {req : Request} {s : String}
    (hs : req.toAccountId = .str s) (hblank : (jsTrim s).length ≠ 0)
    (hp : parseFloat req.amount = .fin maxAmount) :
    validate req = .ok (jsTrim s, maxAmount) := by
  have ht1 : (JsVal.str s).truthy = true := truthy_str_of_nonblank hblank
  have ht2 : req.amount.truthy = true :=
    truthy_of_parse (Or.inr ⟨maxAmount, hp, maxAmount_pos⟩)
  have h0 : ¬ maxAmount ≤ 0 := not_le.mpr maxAmount_pos
  simp [validate, ht1, ht2, hs, hblank, hp, h0]

theorem response_of_valid (env : Env) (db : Tables) {req : Request} {toAccount : String}
    {amt : ℚ} (hv : validate req = .ok (toAccount, amt)) :
    (transferHandler env db req).response = transferSuccessful ∨
      ∃ e, (transferHandler env db req).response = errorResponse e := by
  unfold transferHandler
  rw [hv]
  simp only
  cases env.fault .getConnection with
  | some e => exact Or.inr ⟨e, rfl⟩
  | none =>
    simp only
    cases (transferUnit env req.userId toAccount amt ⟨db, none⟩).result with
    | ok _ => exact Or.inl rfl
    | error e => exact Or.inr ⟨e, rfl⟩

theorem errorResponse_ne_ceiling (e : String) :
    errorResponse e ≠ ⟨400, "Amount exceeds maximum limit"⟩ := by
  intro h
  have hm : (errorResponse e).message = "Amount exceeds maximum limit" := by rw [h]
  have hst : (errorResponse e).status = 400 := by rw [h]
  by_cases he : e = ""
  · subst he
    revert hm
    decide
  · have : e = "Amount exceeds maximum limit" := by
      simpa [errorResponse, he] using hm
    subst this
    revert hst
    decide

theorem validate_rejects {req : Request}
    (h : req.toAccountId = .undefined ∨ req.amount = .undefined ∨
      (∀ s, req.toAccountId ≠ .str s) ∨
      (∃ s, req.toAccountId = .str s ∧ (jsTrim s).length = 0) ∨
      parseFloat req.amount = .nan ∨ parseFloat req.amount = .negInf ∨
      ∃ q, parseFloat req.amount = .fin q ∧ q ≤ 0) :
    ∃ resp, validate req = .error resp := by
  rcases hv : validate req with resp | ⟨toAccount, amt⟩
  · exact ⟨resp, rfl⟩
  · obtain ⟨hpos, _, hparse, s, hs, _, hlen⟩ := validate_ok hv
    rcases h with h | h | h | ⟨s', hs', hlen'⟩ | h | h | ⟨q, hq, hq0⟩
    · rw [hs] at h; cases h
    · rw [h] at hparse; simp [parseFloat] at hparse
    · exact absurd hs (h s)
    · rw [hs] at hs'
      simp only [JsVal.str.injEq] at hs'
      subst hs'
      exact absurd hlen' hlen
    · rw [hparse] at h; cases h
    · rw [hparse] at h; cases h
    · rw [hparse] at hq
      simp only [JsNum.fin.injEq] at hq
      subst hq
      exact absurd hpos (not_lt.mpr hq0)

/-! ## Amounts of whole hundredths -/

/-- A transfer of an amount that is, up to less than half a hundredth, `k` hundredths: when it
succeeds, every row with the source id has lost exactly `k` hundredths and every row with the
destination id has gained exactly `k`. -/
theorem transferHandler_whole_cents {env : Env} {db : Tables} {req : Request}
    {toAccount : String} {amt : ℚ} {src dst : Account} {sr dr : List Account} (k : Int)
    (hf : ∀ s, s ≠ Step.rollback → env.fault s = none)
    (hv : validate req = .ok (toAccount, amt))
    (hs : selectByUserId db req.userId = src :: sr)
    (hb : (toNumber src.balance).lessThan (.fin amt) = false)
    (hr : selectByAccountNumber db toAccount = dst :: dr)
    (hne : src.id ≠ dst.id)
    (hk : |amt * 100 - k| < 1 / 2) :
    (transferHandler env db req).response = transferSuccessful ∧
    (transferHandler env db req).db.accounts =
      db.accounts.map (fun a =>
        if a.id = src.id then { a with balance := a.balance - k }
        else if a.id = dst.id then { a with balance := a.balance + k }
        else a) := by
  obtain ⟨hresp, hdb⟩ := transferHandler_success hf hv hs hb hr hne
  refine ⟨hresp, ?_⟩
  rw [hdb]
  simp only [insertTransaction, settle_accounts hne]
  apply List.map_congr_left
  intro a _
  unfold movedAccount
  rw [(toCents_near a.balance k hk).1, (toCents_near a.balance k hk).2]

/-! ## Facts for the later properties -/

theorem runCalls_noSelfLoop (calls : List Call) :
    ∀ db, NoSelfLoop db → NoSelfLoop (runCalls db calls).1 := by
  induction calls with
  | nil => intro db h; exact h
  | cons c cs ih =>
    intro db h
    apply ih
    rcases transferHandler_outcome c.env db c.req with ⟨hdb, _⟩ | hok
    · rw [hdb]; exact h
    · obtain ⟨toAccount, amt, src, sr, dst, dr, -, -, -, -, hne, -, -, hdb⟩ := hok
      rw [hdb]
      intro r hr
      rcases List.mem_append.mp hr with hr | hr
      · exact h r hr
      · rw [List.mem_singleton.mp hr]
        exact hne

/-- Case analysis of the unit of work: a property holds of the run as soon as it holds at each
of the twelve ways the `try` block can be left. -/
theorem transferUnit_elim {env : Env} {u : Nat} {toAccount : String} {amt : ℚ} {db : Tables}
    {P : Run → Prop}
    (hBegin : ∀ e, env.fault .beginTransaction = some e →
      P ⟨.error e, ⟨db, none⟩, [.beginTransaction]⟩)
    (hSelS : ∀ e, env.fault .selectSender = some e →
      P ⟨.error e, ⟨db, some db⟩, [.beginTransaction, .selectSenderForUpdate u []]⟩)
    (hNoS : selectByUserId db u = [] →
      P ⟨.error "Sender account not found", ⟨db, some db⟩,
        [.beginTransaction, .selectSenderForUpdate u []]⟩)
    (hFunds : ∀ src sr, selectByUserId db u = src :: sr →
      (toNumber src.balance).lessThan (.fin amt) = true →
      P ⟨.error "Insufficient funds", ⟨db, some db⟩,
        [.beginTransaction, .selectSenderForUpdate u ((src :: sr).map (·.id)), .fundsCheck]⟩)
    (hSelR : ∀ src sr e, selectByUserId db u = src :: sr →
      (toNumber src.balance).lessThan (.fin amt) = false →
      env.fault .selectReceiver = some e →
      P ⟨.error e, ⟨db, some db⟩,
        [.beginTransaction, .selectSenderForUpdate u ((src :: sr).map (·.id)), .fundsCheck,
          .selectReceiverForUpdate toAccount []]⟩)
    (hNoR : ∀ src sr, selectByUserId db u = src :: sr →
      (toNumber src.balance).lessThan (.fin amt) = false →
      selectByAccountNumber db toAccount = [] →
      P ⟨.error "Receiver account not found", ⟨db, some db⟩,
        [.beginTransaction, .selectSenderForUpdate u ((src :: sr).map (·.id)), .fundsCheck,
          .selectReceiverForUpdate toAccount []]⟩)
    (hSelf : ∀ src sr dst dr, selectByUserId db u = src :: sr →
      (toNumber src.balance).lessThan (.fin amt) = false →
      selectByAccountNumber db toAccount = dst :: dr → src.id = dst.id →
      P ⟨.error "Cannot transfer to self", ⟨db, some db⟩,
        [.beginTransaction, .selectSenderForUpdate u ((src :: sr).map (·.id)), .fundsCheck,
          .selectReceiverForUpdate toAccount ((dst :: dr).map (·.id))]⟩)
    (hDebit : ∀ src sr dst dr e, selectByUserId db u = src :: sr →
      (toNumber src.balance).lessThan (.fin amt) = false →
      selectByAccountNumber db toAccount = dst :: dr → src.id ≠ dst.id →
      env.fault .debit = some e →
      P ⟨.error e, ⟨db, some db⟩,
        [.beginTransaction, .selectSenderForUpdate u ((src :: sr).map (·.id)), .fundsCheck,
          .selectReceiverForUpdate toAccount ((dst :: dr).map (·.id)), .debit src.id amt]⟩)
    (hCredit : ∀ src sr dst dr e, selectByUserId db u = src :: sr →
      (toNumber src.balance).lessThan (.fin amt) = false →
      selectByAccountNumber db toAccount = dst :: dr → src.id ≠ dst.id →
      env.fault .credit = some e →
      P ⟨.error e, ⟨db, some (updateBalance (-amt) src.id db)⟩,
        [.beginTransaction, .selectSenderForUpdate u ((src :: sr).map (·.id)), .fundsCheck,
          .selectReceiverForUpdate toAccount ((dst :: dr).map (·.id)), .debit src.id amt,
          .credit dst.id amt]⟩)
    (hInsert : ∀ src sr dst dr e, selectByUserId db u = src :: sr →
      (toNumber src.balance).lessThan (.fin amt) = false →
      selectByAccountNumber db toAccount = dst :: dr → src.id ≠ dst.id →
      env.fault .insert = some e →
      P ⟨.error e, ⟨db, some (settle src.id dst.id amt db)⟩,
        [.beginTransaction, .selectSenderForUpdate u ((src :: sr).map (·.id)), .fundsCheck,
          .selectReceiverForUpdate toAccount ((dst :: dr).map (·.id)), .debit src.id amt,
          .credit dst.id amt, .insert (transferRow env src.id dst.id amt)]⟩)
    (hCommit : ∀ src sr dst dr e, selectByUserId db u = src :: sr →
      (toNumber src.balance).lessThan (.fin amt) = false →
      selectByAccountNumber db toAccount = dst :: dr → src.id ≠ dst.id →
      env.fault .commit = some e →
      P ⟨.error e,
        ⟨db, some (insertTransaction (transferRow env src.id dst.id amt)
          (settle src.id dst.id amt db))⟩,
        [.beginTransaction, .selectSenderForUpdate u ((src :: sr).map (·.id)), .fundsCheck,
          .selectReceiverForUpdate toAccount ((dst :: dr).map (·.id)), .debit src.id amt,
          .credit dst.id amt, .insert (transferRow env src.id dst.id amt), .commit]⟩)
    (hDone : ∀ src sr dst dr, selectByUserId db u = src :: sr →
      (toNumber src.balance).lessThan (.fin amt) = false →
      selectByAccountNumber db toAccount = dst :: dr → src.id ≠ dst.id →
      P ⟨.ok (),
        ⟨insertTransaction (transferRow env src.id dst.id amt) (settle src.id dst.id amt db),
          none⟩,
        [.beginTransaction, .selectSenderForUpdate u ((src :: sr).map (·.id)), .fundsCheck,
          .selectReceiverForUpdate toAccount ((dst :: dr).map (·.id)), .debit src.id amt,
          .credit dst.id amt, .insert (transferRow env src.id dst.id amt), .commit]⟩) :
    P (transferUnit env u toAccount amt ⟨db, none⟩) := by
  cases h2 : env.fault .beginTransaction with
  | some e => simpa [transferUnit, h2] using hBegin e h2
  | none =>
  cases h3 : env.fault .selectSender with
  | some e =>
    simpa [transferUnit, h2, h3, Conn.beginTransaction, Conn.view] using hSelS e h3
  | none =>
  cases hs : selectByUserId db u with
  | nil =>
    simpa [transferUnit, h2, h3, hs, Conn.beginTransaction, Conn.view] using hNoS hs
  | cons src sr =>
  by_cases hb : (toNumber src.balance).lessThan (.fin amt) = true
  · simpa [transferUnit, h2, h3, hs, hb, Conn.beginTransaction, Conn.view]
      using hFunds src sr hs hb
  · have hb' : (toNumber src.balance).lessThan (.fin amt) = false := Bool.eq_false_iff.mpr hb
    cases h4 : env.fault .selectReceiver with
    | some e =>
      simpa [transferUnit, h2, h3, hs, hb, h4, Conn.beginTransaction, Conn.view]
        using hSelR src sr e hs hb' h4
    | none =>
    cases hr : selectByAccountNumber db toAccount with
    | nil =>
      simpa [transferUnit, h2, h3, hs, hb, h4, hr, Conn.beginTransaction, Conn.view]
        using hNoR src sr hs hb' hr
    | cons dst dr =>
    by_cases hne : src.id = dst.id
    · simpa [transferUnit, h2, h3, hs, hb, h4, hr, hne, Conn.beginTransaction, Conn.view]
        using hSelf src sr dst dr hs hb' hr hne
    · cases h5 : env.fault .debit with
      | some e =>
        simpa [transferUnit, h2, h3, hs, hb, h4, hr, hne, h5, Conn.beginTransaction, Conn.view]
          using hDebit src sr dst dr e hs hb' hr hne h5
      | none =>
      cases h6 : env.fault .credit with
      | some e =>
        simpa [transferUnit, h2, h3, hs, hb, h4, hr, hne, h5, h6, Conn.beginTransaction,
          Conn.view, Conn.write] using hCredit src sr dst dr e hs hb' hr hne h6
      | none =>
      cases h7 : env.fault .insert with
      | some e =>
        simpa [transferUnit, h2, h3, hs, hb, h4, hr, hne, h5, h6, h7, Conn.beginTransaction,
          Conn.view, Conn.write, settle] using hInsert src sr dst dr e hs hb' hr hne h7
      | none =>
      cases h8 : env.fault .commit with
      | some e =>
        simpa [transferUnit, h2, h3, hs, hb, h4, hr, hne, h5, h6, h7, h8,
          Conn.beginTransaction, Conn.view, Conn.write, settle]
          using hCommit src sr dst dr e hs hb' hr hne h8
      | none =>
        simpa [transferUnit, h2, h3, hs, hb, h4, hr, hne, h5, h6, h7, h8,
          Conn.beginTransaction, Conn.view, Conn.write, Conn.commit, settle]
          using hDone src sr dst dr hs hb' hr hne

theorem transferHandler_conclude {env : Env} {db : Tables} {req : Request}
    {toAccount : String} {amt : ℚ}
    (hv : validate req = .ok (toAccount, amt)) (hg : env.fault .getConnection = none) :
    transferHandler env db req =
      conclude env (transferUnit env req.userId toAccount amt ⟨db, none⟩) := by
  unfold transferHandler conclude
  rw [hv]
  simp only [hg]

theorem transferHandler_no_connection {env : Env} {db : Tables} {req : Request}
    {toAccount : String} {amt : ℚ} {e : String}
    (hv : validate req = .ok (toAccount, amt)) (hg : env.fault .getConnection = some e) :
    transferHandler env db req = ⟨errorResponse e, db, [.getConnection]⟩ := by
  unfold transferHandler
  rw [hv]
  simp only [hg]

theorem isClientError_sender : isClientError "Sender account not found" = true := by decide

theorem isClientError_funds : isClientError "Insufficient funds" = true := by decide

theorem isClientError_receiver : isClientError "Receiver account not found" = true := by decide

theorem isClientError_self : isClientError "Cannot transfer to self" = true := by decide

theorem errorResponse_status (e : String) :
    (errorResponse e).status = if isClientError e then 400 else 500 := rfl

theorem conclude_after_funds_check (env : Env) (res : Except String Unit) (conn : Conn)
    (u : Nat) (ids : List Nat) (toAccount : String) (rows : List Nat) (more : List Event) :
    beforeFundsCheck (conclude env ⟨res, conn, [.beginTransaction,
        .selectSenderForUpdate u ids, .fundsCheck,
        .selectReceiverForUpdate toAccount rows] ++ more⟩).trace
      = [.getConnection, .beginTransaction, .selectSenderForUpdate u ids] ∧
    locksReceiver (beforeFundsCheck (conclude env ⟨res, conn, [.beginTransaction,
        .selectSenderForUpdate u ids, .fundsCheck,
        .selectReceiverForUpdate toAccount rows] ++ more⟩).trace) = false ∧
    ∃ rest, afterFundsCheck (conclude env ⟨res, conn, [.beginTransaction,
        .selectSenderForUpdate u ids, .fundsCheck,
        .selectReceiverForUpdate toAccount rows] ++ more⟩).trace
      = .selectReceiverForUpdate toAccount rows :: rest := by
  unfold conclude
  cases res with
  | ok _ => simp [beforeFundsCheck, afterFundsCheck, locksReceiver]
  | error e => simp [beforeFundsCheck, afterFundsCheck, locksReceiver]

theorem splitChars_no_sep (sep : Char) (cs : List Char) (h : sep ∉ cs) :
    splitChars sep cs = [cs] := by
  induction cs with
  | nil => rfl
  | cons c rest ih =>
    have hc : c ≠ sep := fun e => h (e ▸ List.mem_cons_self _ _)
    have hrest : sep ∉ rest := fun hm => h (List.mem_cons_of_mem _ hm)
    simp [splitChars, hc, ih hrest]

theorem bearer_data : "Bearer ".data = ['B', 'e', 'a', 'r', 'e', 'r', ' '] := rfl

theorem extractToken_bearer (t : String) (h : ' ' ∉ t.data) :
    extractToken ("Bearer " ++ t) = some t := by
  unfold extractToken
  rw [String.data_append, bearer_data]
  simp [List.isPrefixOf, splitChars, splitChars_no_sep ' ' t.data h]

theorem extractToken_plain (t : String) (h : ' ' ∉ t.data) :
    extractToken t = some t := by
  unfold extractToken
  have hp : "Bearer ".data.isPrefixOf t.data = false := by
    cases hb : "Bearer ".data.isPrefixOf t.data with
    | false => rfl
    | true =>
      exfalso
      have hpre : "Bearer ".data <+: t.data := List.isPrefixOf_iff_prefix.mp hb
      exact h (hpre.subset (by rw [bearer_data]; simp))
  rw [hp]
  rfl

/-- Two requests of user 10 to send 80 to Y, served one after the other on X=100, Y=0: the
first succeeds, the second is refused for insufficient funds, and X ends at 20.00, Y at 80.00. -/
theorem two_transfers_in_sequence :
    (runCalls bankXY
        [⟨healthy, requestFromA "SB1000000002" "80"⟩,
         ⟨healthy, requestFromA "SB1000000002" "80"⟩]).2
      = [transferSuccessful, ⟨400, "Insufficient funds"⟩] ∧
    (runCalls bankXY
        [⟨healthy, requestFromA "SB1000000002" "80"⟩,
         ⟨healthy, requestFromA "SB1000000002" "80"⟩]).1.accounts
      = [⟨1, 10, "SB1000000001", "savings", 2000⟩,
          ⟨2, 20, "SB1000000002", "savings", 8000⟩] := by
  decide!

/-! ## Decimal numerals -/

theorem digitChar_facts : ∀ m, m < 10 →
    isDecimalDigit (Nat.digitChar m) = true ∧ (Nat.digitChar m).toNat - 48 = m ∧
      (m ≠ 0 → Nat.digitChar m ≠ '0') := by
  decide

theorem digitsValue_append_singleton (cs : List Char) (d : Char) :
    digitsValue (cs ++ [d]) = 10 * digitsValue cs + (d.toNat - 48) := by
  simp [digitsValue, List.foldl_append]

theorem toDigitsCore_numeral (k : Nat) :
    ∀ n, 10 ^ k ≤ n → 1 ≤ n → n < 10 ^ (k + 1) → ∀ fuel ds, n < fuel →
      ∃ cs, Nat.toDigitsCore 10 fuel n ds = cs ++ ds ∧ cs.length = k + 1 ∧
        (∀ c ∈ cs, isDecimalDigit c = true) ∧ cs.head? ≠ some '0' ∧ digitsValue cs = n := by
  induction k with
  | zero =>
    intro n _ h1 hlt fuel ds hfuel
    obtain ⟨f, rfl⟩ : ∃ f, fuel = f + 1 := ⟨fuel - 1, by omega⟩
    have hn : n < 10 := by simpa using hlt
    have hdiv : n / 10 = 0 := by omega
    have hmod : n % 10 = n := by omega
    obtain ⟨hd, hv, hz⟩ := digitChar_facts n hn
    refine ⟨[Nat.digitChar n], ?_, rfl, ?_, ?_, ?_⟩
    · simp [Nat.toDigitsCore, hdiv, hmod]
    · intro c hc
      rw [List.mem_singleton.mp hc]
      exact hd
    · simp only [List.head?_cons, ne_eq, Option.some.injEq]
      exact hz (by omega)
    · simp [digitsValue, hv]
  | succ k ih =>
    intro n hle h1 hlt fuel ds hfuel
    obtain ⟨f, rfl⟩ : ∃ f, fuel = f + 1 := ⟨fuel - 1, by omega⟩
    have hpow : 10 ^ (k + 1) = 10 * 10 ^ k := by ring
    have hpow2 : 10 ^ (k + 1 + 1) = 10 * 10 ^ (k + 1) := by ring
    have hkpos : 1 ≤ 10 ^ k := Nat.one_le_pow _ _ (by norm_num)
    have hq1 : 10 ^ k ≤ n / 10 := by omega
    have hq2 : n / 10 < 10 ^ (k + 1) := by omega
    have hq3 : 1 ≤ n / 10 := by omega
    have hq4 : n / 10 < f := by omega
    have hq5 : n / 10 ≠ 0 := by omega
    have hm : n % 10 < 10 := Nat.mod_lt _ (by norm_num)
    obtain ⟨hd, hv, -⟩ := digitChar_facts (n % 10) hm
    obtain ⟨cs, hcs, hlen, hall, hhead, hval⟩ :=
      ih (n / 10) hq1 hq3 hq2 f (Nat.digitChar (n % 10) :: ds) hq4
    refine ⟨cs ++ [Nat.digitChar (n % 10)], ?_, ?_, ?_, ?_, ?_⟩
    · simp [Nat.toDigitsCore, hq5, hcs]
    · simp [hlen]
    · intro c hc
      rcases List.mem_append.mp hc with hc | hc
      · exact hall c hc
      · rw [List.mem_singleton.mp hc]
        exact hd
    · cases cs with
      | nil => simp at hlen
      | cons c rest => simpa using hhead
    · rw [digitsValue_append_singleton, hval, hv]
      omega

/-- The largest product of line 53: the greatest Number below 1, times 9000000000, rounds to
the greatest Number below 9000000000. -/
theorem largest_product :
    roundToDouble ((1 - pow2 (-53)) * 9000000000) = 9000000000 - pow2 (-19) := by
  decide!

/-- The largest sum of line 53 is a Number itself, below 10000000000. -/
theorem largest_sum :
    roundToDouble (1000000000 + (9000000000 - pow2 (-19))) = 10000000000 - pow2 (-19) := by
  decide!

theorem accountInteger_bounds (r : ℚ) (hd : roundToDouble r = r) (h0 : 0 ≤ r) (h1 : r < 1) :
    (1000000000 : Int) ≤ accountInteger r ∧ accountInteger r ≤ 9999999999 := by
  have hmax := double_below_one hd h1
  have hp0 : 0 ≤ roundToDouble (r * 9000000000) := roundToDouble_nonneg (by positivity)
  have hp1 : roundToDouble (r * 9000000000) ≤ 9000000000 - pow2 (-19) := by
    have := roundToDouble_mono (show (0 : ℚ) ≤ r * 9000000000 by positivity)
      (show r * 9000000000 ≤ (1 - pow2 (-53)) * 9000000000 by nlinarith)
    rwa [largest_product] at this
  have hs0 : (1000000000 : ℚ) ≤ roundToDouble (1000000000 + roundToDouble (r * 9000000000)) := by
    have := roundToDouble_mono (show (0 : ℚ) ≤ 1000000000 by norm_num)
      (show (1000000000 : ℚ) ≤ 1000000000 + roundToDouble (r * 9000000000) by linarith)
    have h9 : roundToDouble 1000000000 = 1000000000 := by decide!
    rwa [h9] at this
  have hs1 : roundToDouble (1000000000 + roundToDouble (r * 9000000000))
      ≤ 10000000000 - pow2 (-19) := by
    have := roundToDouble_mono
      (show (0 : ℚ) ≤ 1000000000 + roundToDouble (r * 9000000000) by linarith)
      (show 1000000000 + roundToDouble (r * 9000000000)
        ≤ 1000000000 + (9000000000 - pow2 (-19)) by linarith)
    rwa [largest_sum] at this
  have hpos := pow2_pos (-19)
  unfold accountInteger
  constructor
  · apply Int.le_floor.mpr
    push_cast
    exact hs0
  · have hlt : Int.floor (roundToDouble (1000000000 + roundToDouble (r * 9000000000)))
        < 10000000000 := by
      apply Int.floor_lt.mpr
      push_cast
      linarith
    omega
/-! ## The registration handler -/

theorem findAccountNumber_spec (env : RegEnv) (accounts : List Account) (fuel : Nat) :
    ∀ attempt,
      (findAccountNumber env accounts attempt fuel).2.length ≤ fuel ∧
      (∀ e ∈ (findAccountNumber env accounts attempt fuel).2, isAccountLookup e = true) ∧
      (∀ n, (findAccountNumber env accounts attempt fuel).1 = .ok (some n) →
        (∀ a ∈ accounts, a.account_number ≠ n) ∧
        RegEvent.selectAccount n ∈ (findAccountNumber env accounts attempt fuel).2) ∧
      ((∀ i, attempt ≤ i → i < attempt + fuel →
          env.fault (.selectAccount i) = none ∧
          ∃ a ∈ accounts, a.account_number = accountNumberOf (env.random i)) →
        (findAccountNumber env accounts attempt fuel).1 = .ok none ∧
        (findAccountNumber env accounts attempt fuel).2.length = fuel) := by
  induction fuel with
  | zero =>
    intro attempt
    simp [findAccountNumber]
  | succ fuel ih =>
    intro attempt
    obtain ⟨ih1, ih2, ih3, ih4⟩ := ih (attempt + 1)
    unfold findAccountNumber
    cases hf : env.fault (.selectAccount attempt) with
    | some err =>
      refine ⟨by simp, by simp [isAccountLookup], by simp, ?_⟩
      intro hall
      have := (hall attempt (le_refl _) (by omega)).1
      rw [hf] at this
      cases this
    | none =>
      simp only
      by_cases hex : (accounts.filter
          (fun a => decide (a.account_number = accountNumberOf (env.random attempt)))).length = 0
      · simp only [hex, if_true]
        refine ⟨by simp, by simp [isAccountLookup], ?_, ?_⟩
        · intro n hn
          simp only [Except.ok.injEq, Option.some.injEq] at hn
          subst hn
          refine ⟨?_, by simp⟩
          intro a ha heq
          have hmem : a ∈ accounts.filter
              (fun a => decide (a.account_number = accountNumberOf (env.random attempt))) := by
            simp [ha, heq]
          rw [List.length_eq_zero.mp hex] at hmem
          cases hmem
        · intro hall
          obtain ⟨a, ha, heq⟩ := (hall attempt (le_refl _) (by omega)).2
          have hmem : a ∈ accounts.filter
              (fun a => decide (a.account_number = accountNumberOf (env.random attempt))) := by
            simp [ha, heq]
          rw [List.length_eq_zero.mp hex] at hmem
          cases hmem
      · simp only [hex, if_false]
        refine ⟨by simp; omega, ?_, ?_, ?_⟩
        · intro e he
          rcases List.mem_cons.mp he with rfl | he
          · rfl
          · exact ih2 e he
        · intro n hn
          obtain ⟨h1, h2⟩ := ih3 n hn
          exact ⟨h1, List.mem_cons_of_mem _ h2⟩
        · intro hall
          obtain ⟨h1, h2⟩ := ih4 (fun i hi1 hi2 => hall i (by omega) (by omega))
          exact ⟨h1, by simp [h2]⟩

theorem registerUnit_spec (env : RegEnv) (dir : Directory) (name email password : String) :
    ((registerUnit env dir name email password).2.1.accounts = dir.accounts ∨
      ∃ n, (∀ b ∈ dir.accounts, b.account_number ≠ n) ∧
        RegEvent.selectAccount n ∈ (registerUnit env dir name email password).2.2 ∧
        (registerUnit env dir name email password).2.1.accounts = dir.accounts ++
          [⟨env.accountId, env.userId, n, "savings", env.initialBalance⟩]) ∧
    ((registerUnit env dir name email password).2.2.filter isAccountLookup).length ≤ 10 := by
  obtain ⟨f1, f2, f3, -⟩ := findAccountNumber_spec env dir.accounts maxAttempts 0
  have hfilter : ((findAccountNumber env dir.accounts 0 maxAttempts).2.filter
      isAccountLookup).length ≤ 10 :=
    le_trans (List.length_filter_le _ _) f1
  unfold registerUnit
  cases env.fault .selectUser with
  | some err => simp [isAccountLookup]
  | none =>
    simp only
    split
    · simp [isAccountLookup]
    · cases env.fault .hash with
      | some err => simp [isAccountLookup]
      | none =>
        simp only
        cases env.fault .insertUser with
        | some err => simp [isAccountLookup]
        | none =>
          simp only
          cases hfound : (findAccountNumber env dir.accounts 0 maxAttempts).1 with
          | error err =>
            simp only
            refine ⟨Or.inl trivial, ?_⟩
            simpa [List.filter_append, isAccountLookup] using hfilter
          | ok found =>
            cases found with
            | none =>
              simp only
              refine ⟨Or.inl trivial, ?_⟩
              simpa [List.filter_append, isAccountLookup] using hfilter
            | some n =>
              simp only
              obtain ⟨hfresh, hlooked⟩ := f3 n hfound
              cases env.fault .insertAccount with
              | some err =>
                simp only
                refine ⟨Or.inl trivial, ?_⟩
                simpa [List.filter_append, isAccountLookup] using hfilter
              | none =>
                simp only
                refine ⟨Or.inr ⟨n, hfresh, ?_, rfl⟩, ?_⟩
                · simp [hlooked]
                · simpa [List.filter_append, isAccountLookup] using hfilter

theorem registerHandler_invalid {env : RegEnv} {dir : Directory} {req : RegisterRequest}
    {resp : RegResponse} (hv : validateRegistration req = .error resp) :
    registerHandler env dir req = ⟨resp, dir, []⟩ := by
  unfold registerHandler
  rw [hv]

theorem registerHandler_valid (env : RegEnv) (dir : Directory) {req : RegisterRequest}
    {name email password : String}
    (hv : validateRegistration req = .ok (name, email, password)) :
    (registerHandler env dir req).dir = (registerUnit env dir name email password).2.1 ∧
    (registerHandler env dir req).trace = (registerUnit env dir name email password).2.2 := by
  unfold registerHandler
  rw [hv]
  simp only
  rcases registerUnit env dir name email password with ⟨res, dir', tr⟩
  cases res with
  | ok resp => exact ⟨rfl, rfl⟩
  | error err =>
    simp only
    split <;> exact ⟨rfl, rfl⟩

theorem registerHandler_all_collide {env : RegEnv} {dir : Directory} {req : RegisterRequest}
    {name email password : String}
    (hv : validateRegistration req = .ok (name, email, password))
    (hf : ∀ s, env.fault s = none)
    (hnew : ∀ u ∈ dir.users, u.email ≠ email)
    (hall : ∀ i, i < 10 → ∃ a ∈ dir.accounts,
      a.account_number = accountNumberOf (env.random i)) :
    (registerHandler env dir req).response.status = 500 ∧
    (registerHandler env dir req).dir.accounts = dir.accounts ∧
    ((registerHandler env dir req).trace.filter isAccountLookup).length = 10 := by
  obtain ⟨_, f2, -, f4⟩ := findAccountNumber_spec env dir.accounts maxAttempts 0
  obtain ⟨hnone, hlen⟩ := f4 (fun i _ hi => ⟨hf _, hall i (by simpa [maxAttempts] using hi)⟩)
  have hex : dir.users.filter (fun u => decide (u.email = email)) = [] := by
    apply List.filter_eq_nil_iff.mpr
    intro u hu
    simpa using hnew u hu
  have hlookups : ((findAccountNumber env dir.accounts 0 maxAttempts).2.filter
      isAccountLookup).length = 10 := by
    rw [List.filter_eq_self.mpr f2, hlen]
    rfl
  have hunit : registerUnit env dir name email password =
      (.error ⟨none, "Failed to generate unique account number"⟩,
        ⟨dir.users ++ [⟨env.userId, name, email, env.hash password⟩], dir.accounts⟩,
        [RegEvent.selectUser email, .insertUser email] ++
          (findAccountNumber env dir.accounts 0 maxAttempts).2) := by
    unfold registerUnit
    simp [hf, hex, hnone]
  unfold registerHandler
  rw [hv]
  simp only [hunit]
  refine ⟨by simp, by simp, ?_⟩
  simpa [List.filter_append, isAccountLookup] using hlookups
/-! ## The e-mail pattern -/

theorem isEmailChar_at : isEmailChar '@' = false := by decide

theorem isEmailChar_point : isEmailChar '.' = true := by decide

theorem emailRegexTest_iff (email : String) :
    emailRegexTest email = true ↔ MatchesEmailPattern email := by
  unfold emailRegexTest MatchesEmailPattern
  constructor
  · intro h
    cases hdw : email.data.dropWhile isEmailChar with
    | nil => simp [hdw] at h
    | cons c rest =>
      simp only [hdw, Bool.and_eq_true, decide_eq_true_eq, Bool.not_eq_true',
        List.isEmpty_eq_false, List.all_eq_true] at h
      obtain ⟨⟨⟨hc, hl⟩, hrest⟩, hdot0⟩ := h
      have hdot : '.' ∈ rest.tail.dropLast := by simpa using hdot0
      subst hc
      have hdata : email.data = email.data.takeWhile isEmailChar ++ '@' :: rest := by
        rw [← hdw, List.takeWhile_append_dropWhile]
      have htail : rest.tail ≠ [] := by
        intro e
        rw [e] at hdot
        simp at hdot
      obtain ⟨r0, tl, hr⟩ : ∃ r0 tl, rest = r0 :: tl := by
        cases rest with
        | nil => simp at htail
        | cons r0 tl => exact ⟨r0, tl, rfl⟩
      subst hr
      simp only [List.tail_cons] at hdot htail
      obtain ⟨a, b, hab⟩ := List.append_of_mem hdot
      obtain ⟨last, hlast⟩ : ∃ last, tl = tl.dropLast ++ [last] :=
        ⟨tl.getLast htail, (List.dropLast_concat_getLast htail).symm⟩
      have htl : tl = (a ++ '.' :: b) ++ [last] := by
        rw [← hab]
        exact hlast
      refine ⟨email.data.takeWhile isEmailChar, r0 :: a, b ++ [last], ?_, by simp,
        by simp, fun c hc => List.mem_takeWhile_imp hc, ?_, ?_, ?_⟩
      · intro e
        exact hl (by simp [e])
      · intro c hc
        apply hrest
        rcases List.mem_cons.mp hc with rfl | hc
        · simp
        · rw [htl]
          simp [hc]
      · intro c hc
        apply hrest
        rw [htl]
        rcases List.mem_append.mp hc with hc | hc
        · simp [hc]
        · simp only [List.mem_singleton] at hc
          simp [hc]
      · rw [hdata]
        congr 2
        rw [htl]
        simp
  · rintro ⟨l, d, t, hl, hd, ht, hlc, hdc, htc, hdata⟩
    have hat : ¬ isEmailChar '@' = true := by simp [isEmailChar_at]
    have htw : email.data.takeWhile isEmailChar = l := by
      rw [hdata, List.takeWhile_append_of_pos hlc, List.takeWhile_cons_of_neg hat]
      simp
    have hdw : email.data.dropWhile isEmailChar = '@' :: (d ++ '.' :: t) := by
      rw [hdata, List.dropWhile_append_of_pos hlc, List.dropWhile_cons_of_neg hat]
    rw [hdw, htw]
    simp only [Bool.and_eq_true, decide_eq_true_eq, Bool.not_eq_true',
      List.isEmpty_eq_false, List.all_eq_true, true_and]
    refine ⟨⟨?_, ?_⟩, ?_⟩
    · cases l with
      | nil => exact absurd rfl hl
      | cons _ _ => simp
    · intro c hc
      rcases List.mem_append.mp hc with hc | hc
      · exact hdc c hc
      · rcases List.mem_cons.mp hc with rfl | hc
        · exact isEmailChar_point
        · exact htc c hc
    · cases d with
      | nil => exact absurd rfl hd
      | cons d0 d' =>
        have hne : '.' :: t ≠ [] := by simp
        simp only [List.cons_append, List.tail_cons]
        rw [List.dropLast_append_of_ne_nil _ hne, List.dropLast_cons_of_ne_nil ht]
        simp

theorem validateRegistration_error_status {req : RegisterRequest} {resp : RegResponse}
    (h : validateRegistration req = .error resp) : resp.status = 400 := by
  unfold validateRegistration at h
  split at h
  · split at h
    · cases h; rfl
    · split at h
      · cases h; rfl
      · split at h
        · cases h; rfl
        · split at h
          · cases h; rfl
          · cases h
  · cases h; rfl

theorem validateRegistration_ok {req : RegisterRequest} {name email password : String}
    (h : validateRegistration req = .ok (name, email, password)) :
    req.name = some name ∧ req.email = some email ∧ req.password = some password ∧
      name ≠ "" ∧ email ≠ "" ∧ password ≠ "" ∧ emailRegexTest email = true ∧
      6 ≤ utf16Length password ∧ 2 ≤ utf16Length (jsTrim name) := by
  unfold validateRegistration at h
  split at h
  · rename_i n e p hn he hp
    split at h
    · cases h
    · rename_i hempty
      split at h
      · cases h
      · rename_i hre
        split at h
        · cases h
        · rename_i hpw
          split at h
          · cases h
          · rename_i hnm
            simp only [Except.ok.injEq, Prod.mk.injEq] at h
            obtain ⟨rfl, rfl, rfl⟩ := h
            simp only [not_or] at hempty
            refine ⟨hn, he, hp, hempty.1, hempty.2.1, hempty.2.2, ?_, by omega, by omega⟩
            simpa using hre
  · cases h
/-! ## The history handler -/

theorem jsJoin_placeholders_data {α : Type} (l : List α) :
    (jsJoin "," (l.map (fun _ => "?"))).data
      = List.intersperse ',' (List.replicate l.length '?') := by
  induction l with
  | nil => rfl
  | cons a rest ih =>
    cases rest with
    | nil => rfl
    | cons b rest' =>
      simp only [List.map_cons, jsJoin, String.data_append, List.length_cons,
        List.replicate_succ, List.intersperse] at ih ⊢
      rw [ih]
      rfl

theorem count_intersperse_placeholders (n : Nat) :
    (List.intersperse ',' (List.replicate n '?')).count '?' = n := by
  induction n with
  | zero => rfl
  | succ n ih =>
    cases n with
    | zero => rfl
    | succ m =>
      simp only [List.replicate_succ, List.intersperse] at ih ⊢
      rw [List.count_cons, List.count_cons, ih]
      simp

theorem countPlaceholders_join {α : Type} (l : List α) :
    countPlaceholders (jsJoin "," (l.map (fun _ => "?"))) = l.length := by
  unfold countPlaceholders
  rw [jsJoin_placeholders_data, count_intersperse_placeholders]

theorem countPlaceholders_queryText (p : String) :
    countPlaceholders (historyQueryText p) = 2 * countPlaceholders p := by
  unfold countPlaceholders historyQueryText
  simp only [String.data_append, List.count_append]
  have h1 : ("SELECT t.*, fa.account_number as from_account, ta.account_number as to_account "
      : String).data.count '?' = 0 := by decide
  have h2 : ("FROM transactions t " : String).data.count '?' = 0 := by decide
  have h3 : ("LEFT JOIN accounts fa ON t.from_account_id = fa.id " : String).data.count '?'
      = 0 := by decide
  have h4 : ("LEFT JOIN accounts ta ON t.to_account_id = ta.id " : String).data.count '?'
      = 0 := by decide
  have h5 : ("WHERE t.from_account_id IN (" : String).data.count '?' = 0 := by decide
  have h6 : (") OR t.to_account_id IN (" : String).data.count '?' = 0 := by decide
  have h7 : (") ORDER BY t.created_at DESC" : String).data.count '?' = 0 := by decide
  rw [h1, h2, h3, h4, h5, h6, h7]
  omega

theorem leftJoinNumbers_ne_nil (accounts : List Account) (id : Nat) :
    leftJoinNumbers accounts id ≠ [] := by
  unfold leftJoinNumbers
  split <;> simp

theorem filter_id_length_le_one (accounts : List Account) (id : Nat)
    (hk : (accounts.map (·.id)).Nodup) :
    (accounts.filter (fun a => decide (a.id = id))).length ≤ 1 := by
  induction accounts with
  | nil => simp
  | cons a rest ih =>
    simp only [List.map_cons, List.nodup_cons] at hk
    obtain ⟨hnot, hk'⟩ := hk
    by_cases h : a.id = id
    · have hnone : rest.filter (fun a => decide (a.id = id)) = [] := by
        apply List.filter_eq_nil_iff.mpr
        intro b hb
        simp only [decide_eq_true_eq]
        intro hbid
        exact hnot (List.mem_map.mpr ⟨b, hb, hbid.trans h.symm⟩)
      simp [List.filter_cons, h, hnone]
    · simpa [List.filter_cons, h] using ih hk'

theorem leftJoinNumbers_singleton (accounts : List Account) (id : Nat)
    (hk : (accounts.map (·.id)).Nodup) : ∃ x, leftJoinNumbers accounts id = [x] := by
  have hlen := filter_id_length_le_one accounts id hk
  unfold leftJoinNumbers
  cases hf : accounts.filter (fun a => decide (a.id = id)) with
  | nil => exact ⟨none, rfl⟩
  | cons a rest =>
    rw [hf] at hlen
    cases rest with
    | nil => exact ⟨some a.account_number, rfl⟩
    | cons b rest' => simp at hlen

theorem executeHistoryQuery_ids (db : Tables) (ids : List Nat) :
    executeHistoryQuery db ids.length ids.length (ids ++ ids) =
      ((db.transactions.flatMap (fun t =>
        (leftJoinNumbers db.accounts t.from_account_id).flatMap (fun fa =>
          (leftJoinNumbers db.accounts t.to_account_id).map
            (fun ta => (⟨t, fa, ta⟩ : HistoryRow))))).filter
        (fun r => touches ids r.transaction)).insertionSort newerFirst := by
  unfold executeHistoryQuery
  simp only [List.take_left, List.drop_left, List.take_length]
  congr 1
  apply List.filter_congr
  intro r _
  simp [touches]

theorem executeHistoryQuery_mem (db : Tables) (ids : List Nat) (t : Transaction) :
    (∃ r ∈ executeHistoryQuery db ids.length ids.length (ids ++ ids), r.transaction = t) ↔
      (t ∈ db.transactions ∧ (t.from_account_id ∈ ids ∨ t.to_account_id ∈ ids)) := by
  rw [executeHistoryQuery_ids]
  constructor
  · rintro ⟨r, hr, rfl⟩
    rw [List.mem_insertionSort, List.mem_filter, List.mem_flatMap] at hr
    obtain ⟨⟨t', ht', hr'⟩, htouch⟩ := hr
    rw [List.mem_flatMap] at hr'
    obtain ⟨fa, -, hr''⟩ := hr'
    rw [List.mem_map] at hr''
    obtain ⟨ta, -, rfl⟩ := hr''
    exact ⟨ht', by simpa [touches] using htouch⟩
  · rintro ⟨ht, htouch⟩
    obtain ⟨fa, hfa⟩ := List.exists_mem_of_ne_nil _
      (leftJoinNumbers_ne_nil db.accounts t.from_account_id)
    obtain ⟨ta, hta⟩ := List.exists_mem_of_ne_nil _
      (leftJoinNumbers_ne_nil db.accounts t.to_account_id)
    refine ⟨⟨t, fa, ta⟩, ?_, rfl⟩
    rw [List.mem_insertionSort, List.mem_filter, List.mem_flatMap]
    refine ⟨⟨t, ht, ?_⟩, by simpa [touches] using htouch⟩
    rw [List.mem_flatMap]
    exact ⟨fa, hfa, List.mem_map.mpr ⟨ta, hta, rfl⟩⟩

theorem joined_transactions (db : Tables) (hk : WellKeyed db) :
    (db.transactions.flatMap (fun t =>
        (leftJoinNumbers db.accounts t.from_account_id).flatMap (fun fa =>
          (leftJoinNumbers db.accounts t.to_account_id).map
            (fun ta => (⟨t, fa, ta⟩ : HistoryRow))))).map (·.transaction)
      = db.transactions := by
  induction db.transactions with
  | nil => rfl
  | cons t rest ih =>
    obtain ⟨fa, hfa⟩ := leftJoinNumbers_singleton db.accounts t.from_account_id hk
    obtain ⟨ta, hta⟩ := leftJoinNumbers_singleton db.accounts t.to_account_id hk
    rw [List.flatMap_cons, List.map_append, ih, hfa, hta]
    rfl

theorem executeHistoryQuery_perm (db : Tables) (ids : List Nat) (hk : WellKeyed db) :
    ((executeHistoryQuery db ids.length ids.length (ids ++ ids)).map (·.transaction)).Perm
      (db.transactions.filter (touches ids)) := by
  rw [executeHistoryQuery_ids]
  refine ((List.perm_insertionSort newerFirst _).map _).trans ?_
  have hcomp : (fun r : HistoryRow => touches ids r.transaction)
      = touches ids ∘ (fun r : HistoryRow => r.transaction) := rfl
  rw [hcomp, ← List.filter_map, joined_transactions db hk]

theorem executeHistoryQuery_sorted (db : Tables) (m n : Nat) (params : List Nat) :
    List.Sorted newerFirst (executeHistoryQuery db m n params) := by
  unfold executeHistoryQuery
  exact List.sorted_insertionSort newerFirst _

/-! ## The claims -/

/-- C1 (conservation), evaluated at the failing input. A holds 500.00 and B 100.00; the owner
of A asks to send 0.125 to B. The request passes validation (lines 18-26 test the sign and the
ceiling of the amount, not its number of decimals) and the call answers with success. Each of
the two UPDATEs stores its own result in the fixed-point column: 499.875 is kept as 499.88 and
100.125 as 100.13. The two balances sum to 600.01, one hundredth more than before the call; A
lost 0.12 where B gained 0.13. -/
theorem conservation_half_cent :
    validate (requestFromA "SB1000000002" "0.125") = .ok ("SB1000000002", 1 / 8) ∧
    (transferHandler healthy bankAB (requestFromA "SB1000000002" "0.125")).response
      = transferSuccessful ∧
    balanceOf bankAB accountA.id = some 50000 ∧
    balanceOf bankAB accountB.id = some 10000 ∧
    balanceOf (transferHandler healthy bankAB (requestFromA "SB1000000002" "0.125")).db
      accountA.id = some 49988 ∧
    balanceOf (transferHandler healthy bankAB (requestFromA "SB1000000002" "0.125")).db
      accountB.id = some 10013 ∧
    (49988 : Int) + 10013 ≠ 50000 + 10000 := by
  decide!

/-- C2 (non-negativity). Start from an accounts table that obeys its key constraint (no two
rows share an id) and in which every balance is at least 0. After any finite sequence of calls
of the handler, whatever the callers, destinations, amounts and storage failures, every balance
is still at least 0. -/
theorem non_negativity (db : Tables) (calls : List Call)
    (hk : WellKeyed db) (hn : ∀ a ∈ db.accounts, 0 ≤ a.balance) :
    ∀ a ∈ (runCalls db calls).1.accounts, 0 ≤ a.balance :=
  (runCalls_invariant calls db hk hn).2

/-- Witness for C2: A=500.00 first tries to send 600 (refused), then sends 500 (allowed); the
hypotheses hold for the scenario tables. -/
theorem non_negativity_witness :
    NonNegative (runCalls bankAB
        [⟨healthy, requestFromA "SB1000000002" "600"⟩,
         ⟨healthy, requestFromA "SB1000000002" "500"⟩]).1 ∧
    (runCalls bankAB
        [⟨healthy, requestFromA "SB1000000002" "600"⟩,
         ⟨healthy, requestFromA "SB1000000002" "500"⟩]).1.accounts
      = [{ accountA with balance := 0 }, { accountB with balance := 60000 }] :=
  ⟨non_negativity bankAB
      [⟨healthy, requestFromA "SB1000000002" "600"⟩,
       ⟨healthy, requestFromA "SB1000000002" "500"⟩] (by decide) (by decide),
    by decide!⟩

/-- C3 (no phantom records). Over any sequence of calls the ledger only grows at its end, every
added row has status success, and the number of added rows equals the number of calls that
answered with success. For a single call: either it answers success and appends exactly one
row with status success, or it answers otherwise and leaves the tables (ledger and balances)
as they were. -/
theorem no_phantom_records (db : Tables) (calls : List Call) :
    (∃ added,
      (runCalls db calls).1.transactions = db.transactions ++ added ∧
      (∀ r ∈ added, r.status = "success") ∧
      (added.filter (fun r => decide (r.status = "success"))).length
        = successCount (runCalls db calls).2 ∧
      added.length = successCount (runCalls db calls).2) ∧
    (∀ (env : Env) (t : Tables) (req : Request),
      ((transferHandler env t req).response = transferSuccessful ∧
        ∃ row, (transferHandler env t req).db.transactions = t.transactions ++ [row] ∧
          row.status = "success") ∨
      ((transferHandler env t req).response ≠ transferSuccessful ∧
        (transferHandler env t req).db = t)) := by
  refine ⟨?_, fun env t req => call_ledger env t req⟩
  obtain ⟨added, htx, hall, hlen⟩ := runCalls_ledger calls db
  refine ⟨added, htx, hall, ?_, hlen⟩
  have hfilter : added.filter (fun r => decide (r.status = "success")) = added := by
    apply List.filter_eq_self.mpr
    intro r hr
    simpa using hall r hr
  rw [hfilter, hlen]

/-- C4 (atomic rollback). If the call does not answer with success, or if any storage call of
the unit of work (including commit) is set to fail, then the committed tables after the call
are exactly the tables before it, and the answer is not the success response. -/
theorem atomic_rollback (env : Env) (db : Tables) (req : Request)
    (h : (transferHandler env db req).response ≠ transferSuccessful ∨
      ∃ s, s ≠ Step.rollback ∧ env.fault s ≠ none) :
    (transferHandler env db req).db = db ∧
      (transferHandler env db req).response ≠ transferSuccessful := by
  rcases transferHandler_outcome env db req with ⟨hdb, hst⟩ | hok
  · refine ⟨hdb, ?_⟩
    intro hresp
    rw [hresp] at hst
    exact hst rfl
  · obtain ⟨toAccount, amt, src, sr, dst, dr, -, -, -, -, -, hf, hresp, -⟩ := hok
    rcases h with h | ⟨s, hs, hfault⟩
    · exact absurd hresp h
    · exact absurd (hf s hs) hfault

/-- Witness for C4: the debit of A has been issued when the credit of B fails; afterwards both
tables are as before. -/
theorem atomic_rollback_witness :
    (transferHandler (failingAt Step.credit "Lock wait timeout exceeded") bankAB
        (requestFromA "SB1000000002" "150")).db = bankAB ∧
      (transferHandler (failingAt Step.credit "Lock wait timeout exceeded") bankAB
        (requestFromA "SB1000000002" "150")).response ≠ transferSuccessful :=
  atomic_rollback (failingAt Step.credit "Lock wait timeout exceeded") bankAB
    (requestFromA "SB1000000002" "150") (Or.inr ⟨Step.credit, by decide, by decide⟩)

/-- C5 (happy path), evaluated at the failing input. A holds 500.00 and B 100.00; the owner of
A asks to send 0.001 to B. The request passes validation, the comparison of line 43 finds the
funds sufficient, the destination number resolves to B, another account, and no storage call
fails. The call answers with success and appends one ledger row for the amount, yet neither
balance changes: each UPDATE stores its result rounded to hundredths, so A is not left with its
balance minus the amount and B does not hold its balance plus the amount. In the scenario of
the specification (amount 150) the postcondition holds: A=350.00, B=250.00, one new row. -/
theorem happy_path_sub_cent :
    validate (requestFromA "SB1000000002" "0.001")
      = .ok ("SB1000000002", roundToDouble (1 / 1000)) ∧
    (toNumber accountA.balance).lessThan (.fin (roundToDouble (1 / 1000))) = false ∧
    selectByUserId bankAB (requestFromA "SB1000000002" "0.001").userId = [accountA] ∧
    selectByAccountNumber bankAB "SB1000000002" = [accountB] ∧
    (transferHandler healthy bankAB (requestFromA "SB1000000002" "0.001")).response
      = transferSuccessful ∧
    (transferHandler healthy bankAB (requestFromA "SB1000000002" "0.001")).db.accounts
      = [accountA, accountB] ∧
    (transferHandler healthy bankAB (requestFromA "SB1000000002" "0.001")).db.transactions
      = [⟨1, 1, 2, roundToDouble (1 / 1000), "transfer", "success", 0⟩] ∧
    (transferHandler healthy bankAB (requestFromA "SB1000000002" "150")).response
      = transferSuccessful ∧
    (transferHandler healthy bankAB (requestFromA "SB1000000002" "150")).db
      = ⟨[{ accountA with balance := 35000 }, { accountB with balance := 25000 }],
          [⟨1, 1, 2, 150, "transfer", "success", 0⟩]⟩ := by
  decide!

/-- C6 (insufficient funds). Let the request pass validation, let the caller have an account,
and let no storage call fail. The balance of the caller's first account and the amount are
compared as line 43 compares them, as Number values. If the balance is strictly below the
amount, the answer is 400 with message Insufficient funds and the tables are unchanged. If it
is not (equality included), the answer never carries that message; and when moreover the
destination resolves to an account with another id, the transfer succeeds and the source is
left with what the column keeps of balance - amount, which is 0 when the amount is the full
balance. -/
theorem insufficient_funds (env : Env) (db : Tables) (req : Request) (toAccount : String)
    (amt : ℚ) (src : Account) (sr : List Account)
    (hf : ∀ s, env.fault s = none)
    (hv : validate req = .ok (toAccount, amt))
    (hs : selectByUserId db req.userId = src :: sr) :
    ((toNumber src.balance).lessThan (.fin amt) = true ∧
      (transferHandler env db req).response = ⟨400, "Insufficient funds"⟩ ∧
      (transferHandler env db req).db = db) ∨
    ((toNumber src.balance).lessThan (.fin amt) = false ∧
      (transferHandler env db req).response.message ≠ "Insufficient funds" ∧
      ∀ dst dr, selectByAccountNumber db toAccount = dst :: dr → src.id ≠ dst.id →
        (transferHandler env db req).response = transferSuccessful ∧
        (transferHandler env db req).db.accounts =
          db.accounts.map (movedAccount src.id dst.id amt) ∧
        movedAccount src.id dst.id amt src =
          { src with balance := toCents (fromCents src.balance - amt) } ∧
        (toNumber src.balance = .fin amt → toCents (fromCents src.balance - amt) = 0)) := by
  by_cases hb : (toNumber src.balance).lessThan (.fin amt) = true
  · exact Or.inl ⟨hb, transferHandler_insufficient hf hv hs hb⟩
  · have hb' : (toNumber src.balance).lessThan (.fin amt) = false := Bool.eq_false_iff.mpr hb
    refine Or.inr ⟨hb', ?_, ?_⟩
    · cases hr : selectByAccountNumber db toAccount with
      | nil =>
        rw [(transferHandler_no_receiver hf hv hs hb' hr).1]
        decide
      | cons dst dr =>
        by_cases hself : src.id = dst.id
        · rw [(transferHandler_self hf hv hs hb' hr hself).1]
          decide
        · rw [(transferHandler_success (fun s _ => hf s) hv hs hb' hr hself).1]
          decide
    · intro dst dr hr hne
      obtain ⟨hresp, hdb⟩ := transferHandler_success (fun s _ => hf s) hv hs hb' hr hne
      obtain ⟨hpos, hmax, -⟩ := validate_ok hv
      refine ⟨hresp, ?_, movedAccount_src _ _ _ _ rfl, full_balance_zero hpos hmax⟩
      rw [hdb]
      simp [insertTransaction, settle_accounts hne]

/-- Witness for C6, the scenario of the specification with A=500.00: a request for 600 is
refused with Insufficient funds and nothing changes; the general statement applies to it. A
request for exactly 500 is served and leaves A at 0. -/
theorem insufficient_funds_witness :
    (((toNumber accountA.balance).lessThan (.fin 600) = true ∧
      (transferHandler healthy bankAB (requestFromA "SB1000000002" "600")).response
        = ⟨400, "Insufficient funds"⟩ ∧
      (transferHandler healthy bankAB (requestFromA "SB1000000002" "600")).db = bankAB) ∨
    ((toNumber accountA.balance).lessThan (.fin 600) = false ∧
      (transferHandler healthy bankAB (requestFromA "SB1000000002" "600")).response.message
        ≠ "Insufficient funds" ∧
      ∀ dst dr, selectByAccountNumber bankAB "SB1000000002" = dst :: dr →
        accountA.id ≠ dst.id →
        (transferHandler healthy bankAB (requestFromA "SB1000000002" "600")).response
          = transferSuccessful ∧
        (transferHandler healthy bankAB (requestFromA "SB1000000002" "600")).db.accounts =
          bankAB.accounts.map (movedAccount accountA.id dst.id 600) ∧
        movedAccount accountA.id dst.id 600 accountA
          = { accountA with balance := toCents (fromCents accountA.balance - 600) } ∧
        (toNumber accountA.balance = .fin 600 →
          toCents (fromCents accountA.balance - 600) = 0))) ∧
    (transferHandler healthy bankAB (requestFromA "SB1000000002" "600")).response
      = ⟨400, "Insufficient funds"⟩ ∧
    (transferHandler healthy bankAB (requestFromA "SB1000000002" "500")).response
      = transferSuccessful ∧
    (transferHandler healthy bankAB (requestFromA "SB1000000002" "500")).db.accounts
      = [{ accountA with balance := 0 }, { accountB with balance := 60000 }] :=
  ⟨insufficient_funds healthy bankAB (requestFromA "SB1000000002" "600") "SB1000000002" 600
      accountA [] (fun _ => rfl) (by decide!) (by decide),
    by decide!, by decide!, by decide!⟩

/-- C7, as stated, fails: A (balance 500.00) asks to send 600 to its own account number. The
request is validated and the destination resolves to the caller's own account, yet the answer
is Insufficient funds, not the self-transfer error: the funds check comes first. -/
theorem self_transfer_counterexample :
    validate (requestFromA "SB1000000001" "600") = .ok ("SB1000000001", 600) ∧
    selectByUserId bankAB (requestFromA "SB1000000001" "600").userId = [accountA] ∧
    selectByAccountNumber bankAB "SB1000000001" = [accountA] ∧
    (transferHandler healthy bankAB (requestFromA "SB1000000001" "600")).response
      = ⟨400, "Insufficient funds"⟩ ∧
    (transferHandler healthy bankAB (requestFromA "SB1000000001" "600")).response.message
      ≠ "Cannot transfer to self" := by
  decide!

/-- C7, amended (self-transfer rejection). Let the request pass validation, let the destination
number resolve to an account with the same id as the caller's first account, and let no storage
call fail. Then the call fails with status 400 and the tables are unchanged; the message is
Cannot transfer to self when the source balance is at least the amount, and Insufficient funds
when it is below the amount (balance and amount compared as line 43 compares them, as Number
values). -/
theorem self_transfer_rejected (env : Env) (db : Tables) (req : Request) (toAccount : String)
    (amt : ℚ) (src dst : Account) (sr dr : List Account)
    (hf : ∀ s, env.fault s = none)
    (hv : validate req = .ok (toAccount, amt))
    (hs : selectByUserId db req.userId = src :: sr)
    (hr : selectByAccountNumber db toAccount = dst :: dr)
    (hself : src.id = dst.id) :
    (transferHandler env db req).db = db ∧
    (((toNumber src.balance).lessThan (.fin amt) = false ∧
        (transferHandler env db req).response = ⟨400, "Cannot transfer to self"⟩) ∨
      ((toNumber src.balance).lessThan (.fin amt) = true ∧
        (transferHandler env db req).response = ⟨400, "Insufficient funds"⟩)) := by
  by_cases hb : (toNumber src.balance).lessThan (.fin amt) = true
  · obtain ⟨hresp, hdb⟩ := transferHandler_insufficient hf hv hs hb
    exact ⟨hdb, Or.inr ⟨hb, hresp⟩⟩
  · have hb' : (toNumber src.balance).lessThan (.fin amt) = false := Bool.eq_false_iff.mpr hb
    obtain ⟨hresp, hdb⟩ := transferHandler_self hf hv hs hb' hr hself
    exact ⟨hdb, Or.inl ⟨hb', hresp⟩⟩

/-- Witness for amended C7: A (balance 500.00) asks to send 150 to its own account number. -/
theorem self_transfer_rejected_witness :
    ((transferHandler healthy bankAB (requestFromA "SB1000000001" "150")).db = bankAB ∧
      (((toNumber accountA.balance).lessThan (.fin 150) = false ∧
          (transferHandler healthy bankAB (requestFromA "SB1000000001" "150")).response
            = ⟨400, "Cannot transfer to self"⟩) ∨
        ((toNumber accountA.balance).lessThan (.fin 150) = true ∧
          (transferHandler healthy bankAB (requestFromA "SB1000000001" "150")).response
            = ⟨400, "Insufficient funds"⟩))) ∧
    (transferHandler healthy bankAB (requestFromA "SB1000000001" "150")).response
      = ⟨400, "Cannot transfer to self"⟩ :=
  ⟨self_transfer_rejected healthy bankAB (requestFromA "SB1000000001" "150") "SB1000000001"
      150 accountA accountA [] [] (fun _ => rfl) (by decide!) (by decide) (by decide) rfl,
    by decide!⟩

/-- C8, as stated, fails: A (balance 500.00) asks to send 600 to a number no account carries.
The request is validated and the destination matches no account, yet the answer is
Insufficient funds, not an account-not-found error: the funds check precedes the lookup of the
receiver. -/
theorem account_not_found_counterexample :
    validate (requestFromA "SB0000000000" "600") = .ok ("SB0000000000", 600) ∧
    selectByAccountNumber bankAB "SB0000000000" = [] ∧
    (transferHandler healthy bankAB (requestFromA "SB0000000000" "600")).response
      = ⟨400, "Insufficient funds"⟩ ∧
    (transferHandler healthy bankAB (requestFromA "SB0000000000" "600")).response.message
      ≠ "Sender account not found" ∧
    (transferHandler healthy bankAB (requestFromA "SB0000000000" "600")).response.message
      ≠ "Receiver account not found" := by
  decide!

/-- C8, amended (account not found). Let the request pass validation and let no storage call
fail. If the caller has no account, or the destination number matches no account, the call
fails with status 400 and the tables are unchanged (no balance changes, no ledger row). The
message is Sender account not found whenever the caller has no account; it is Receiver account
not found when the caller's first account holds at least the amount and the destination
matches no account; and it is Insufficient funds when the caller's first account holds less
than the amount (balance and amount compared as line 43 compares them, as Number values). -/
theorem account_not_found (env : Env) (db : Tables) (req : Request) (toAccount : String)
    (amt : ℚ)
    (hf : ∀ s, env.fault s = none)
    (hv : validate req = .ok (toAccount, amt))
    (h : selectByUserId db req.userId = [] ∨ selectByAccountNumber db toAccount = []) :
    (transferHandler env db req).db = db ∧
    (transferHandler env db req).response.status = 400 ∧
    ((selectByUserId db req.userId = [] ∧
        (transferHandler env db req).response = ⟨400, "Sender account not found"⟩) ∨
      (∃ src sr, selectByUserId db req.userId = src :: sr ∧
        (toNumber src.balance).lessThan (.fin amt) = false ∧
        selectByAccountNumber db toAccount = [] ∧
        (transferHandler env db req).response = ⟨400, "Receiver account not found"⟩) ∨
      (∃ src sr, selectByUserId db req.userId = src :: sr ∧
        (toNumber src.balance).lessThan (.fin amt) = true ∧
        (transferHandler env db req).response = ⟨400, "Insufficient funds"⟩)) := by
  cases hs : selectByUserId db req.userId with
  | nil =>
    obtain ⟨hresp, hdb⟩ := transferHandler_no_sender hf hv hs
    exact ⟨hdb, by rw [hresp], Or.inl ⟨rfl, hresp⟩⟩
  | cons src sr =>
    by_cases hb : (toNumber src.balance).lessThan (.fin amt) = true
    · obtain ⟨hresp, hdb⟩ := transferHandler_insufficient hf hv hs hb
      exact ⟨hdb, by rw [hresp], Or.inr (Or.inr ⟨src, sr, rfl, hb, hresp⟩)⟩
    · have hb' : (toNumber src.balance).lessThan (.fin amt) = false := Bool.eq_false_iff.mpr hb
      have hr : selectByAccountNumber db toAccount = [] := by
        rcases h with h | h
        · rw [hs] at h; cases h
        · exact h
      obtain ⟨hresp, hdb⟩ := transferHandler_no_receiver hf hv hs hb' hr
      exact ⟨hdb, by rw [hresp], Or.inr (Or.inl ⟨src, sr, rfl, hb', hr, hresp⟩)⟩

/-- Witness for amended C8, the scenario of the specification: A (balance 500.00) asks to send
150 to a number no account carries; the answer is Receiver account not found and nothing changes.
A caller without any account gets Sender account not found. -/
theorem account_not_found_witness :
    ((transferHandler healthy bankAB (requestFromA "SB0000000000" "150")).db = bankAB ∧
      (transferHandler healthy bankAB (requestFromA "SB0000000000" "150")).response.status
        = 400 ∧
      ((selectByUserId bankAB (requestFromA "SB0000000000" "150").userId = [] ∧
          (transferHandler healthy bankAB (requestFromA "SB0000000000" "150")).response
            = ⟨400, "Sender account not found"⟩) ∨
        (∃ src sr, selectByUserId bankAB (requestFromA "SB0000000000" "150").userId
            = src :: sr ∧ (toNumber src.balance).lessThan (.fin 150) = false ∧
          selectByAccountNumber bankAB "SB0000000000" = [] ∧
          (transferHandler healthy bankAB (requestFromA "SB0000000000" "150")).response
            = ⟨400, "Receiver account not found"⟩) ∨
        (∃ src sr, selectByUserId bankAB (requestFromA "SB0000000000" "150").userId
            = src :: sr ∧ (toNumber src.balance).lessThan (.fin 150) = true ∧
          (transferHandler healthy bankAB (requestFromA "SB0000000000" "150")).response
            = ⟨400, "Insufficient funds"⟩))) ∧
    (transferHandler healthy bankAB (requestFromA "SB0000000000" "150")).response
      = ⟨400, "Receiver account not found"⟩ ∧
    (transferHandler healthy bankAB ⟨77, .str "SB1000000002", .str "150"⟩).response
      = ⟨400, "Sender account not found"⟩ :=
  ⟨account_not_found healthy bankAB (requestFromA "SB0000000000" "150") "SB0000000000" 150
      (fun _ => rfl) (by decide!) (Or.inr (by decide)),
    by decide!, by decide!⟩

/-- C9 (ceiling). The parsed amount and the ceiling are Number values: `maxAmount` is the number
that the literal 999999999.99 of line 24 denotes. A request whose parsed amount is strictly
greater than it (infinite included) is answered with status 400 without any storage activity:
no connection is obtained, no row is locked, the tables are unchanged. When the destination
field has passed the checks that precede the parsing (a string that is not blank), the answer
is exactly 400 with message Amount exceeds maximum limit; and a parsed amount exactly equal to
999999999.99 passes validation, so no call with it is answered with that message. -/
theorem ceiling (env : Env) (db : Tables) (req : Request) :
    ((parseFloat req.amount = .posInf ∨
        ∃ q, parseFloat req.amount = .fin q ∧ maxAmount < q) →
      (transferHandler env db req).response.status = 400 ∧
      (transferHandler env db req).trace = [] ∧
      (transferHandler env db req).db = db) ∧
    (∀ s, req.toAccountId = .str s → (jsTrim s).length ≠ 0 →
      ((parseFloat req.amount = .posInf ∨
          ∃ q, parseFloat req.amount = .fin q ∧ maxAmount < q) →
        (transferHandler env db req).response = ⟨400, "Amount exceeds maximum limit"⟩) ∧
      (parseFloat req.amount = .fin maxAmount →
        validate req = .ok (jsTrim s, maxAmount) ∧
        (transferHandler env db req).response ≠ ⟨400, "Amount exceeds maximum limit"⟩)) := by
  refine ⟨?_, ?_⟩
  · intro hp
    obtain ⟨resp, hv⟩ := validate_exceeds_any hp
    rw [transferHandler_invalid hv]
    exact ⟨validate_error_status hv, rfl, rfl⟩
  · intro s hs hblank
    refine ⟨?_, ?_⟩
    · intro hp
      rw [transferHandler_invalid (validate_exceeds hs hblank hp)]
    · intro hp
      have hv := validate_at_ceiling hs hblank hp
      refine ⟨hv, ?_⟩
      rcases response_of_valid env db hv with h | ⟨e, h⟩
      · rw [h]; decide
      · rw [h]; exact errorResponse_ne_ceiling e

/-- Witness for C9, the scenario of the specification: an amount of 1000000000.00 is refused
with Amount exceeds maximum limit and no storage activity, while 999999999.99 goes through.
The decimal 999999999.990000001 is read as the same Number as 999999999.99 and goes through
as well; 999999999.9900002 is read as a greater Number and is refused. -/
theorem ceiling_witness :
    ((transferHandler healthy bankAB (requestFromA "SB1000000002" "1000000000.00")).response.status
        = 400 ∧
      (transferHandler healthy bankAB (requestFromA "SB1000000002" "1000000000.00")).trace = [] ∧
      (transferHandler healthy bankAB (requestFromA "SB1000000002" "1000000000.00")).db
        = bankAB) ∧
    (transferHandler healthy bankAB (requestFromA "SB1000000002" "1000000000.00")).response
      = ⟨400, "Amount exceeds maximum limit"⟩ ∧
    validate (requestFromA "SB1000000002" "999999999.99")
      = .ok ("SB1000000002", maxAmount) ∧
    validate (requestFromA "SB1000000002" "999999999.990000001")
      = .ok ("SB1000000002", maxAmount) ∧
    validate (requestFromA "SB1000000002" "999999999.9900002")
      = .error ⟨400, "Amount exceeds maximum limit"⟩ :=
  ⟨(ceiling healthy bankAB (requestFromA "SB1000000002" "1000000000.00")).1
      (Or.inr ⟨1000000000, by decide!, by rw [maxAmount_eq]; norm_num⟩),
    ((ceiling healthy bankAB (requestFromA "SB1000000002" "1000000000.00")).2
      "SB1000000002" rfl (by decide)).1
        (Or.inr ⟨1000000000, by decide!, by rw [maxAmount_eq]; norm_num⟩),
    by decide!, by decide!, by decide!⟩

/-- C10 (validation fails fast). If the destination field or the amount field is missing, or
the destination is not a string, or it is blank after trimming, or the parsed amount (the
Number that parseFloat yields) is NaN, zero or negative, then the handler answers with status
400 and performs no storage activity at all (no connection, no unit of work, no query); the
tables are unchanged. -/
theorem validation_fails_fast (env : Env) (db : Tables) (req : Request)
    (h : req.toAccountId = .undefined ∨ req.amount = .undefined ∨
      (∀ s, req.toAccountId ≠ .str s) ∨
      (∃ s, req.toAccountId = .str s ∧ (jsTrim s).length = 0) ∨
      parseFloat req.amount = .nan ∨ parseFloat req.amount = .negInf ∨
      ∃ q, parseFloat req.amount = .fin q ∧ q ≤ 0) :
    (transferHandler env db req).response.status = 400 ∧
    (transferHandler env db req).trace = [] ∧
    (transferHandler env db req).db = db := by
  obtain ⟨resp, hv⟩ := validate_rejects h
  rw [transferHandler_invalid hv]
  exact ⟨validate_error_status hv, rfl, rfl⟩

/-- Witness for C10: a negative amount is refused with status 400 and no storage activity.
So is the amount 1e-400, which parseFloat reads as the Number 0. -/
theorem validation_fails_fast_witness :
    ((transferHandler healthy bankAB (requestFromA "SB1000000002" "-5")).response.status = 400 ∧
      (transferHandler healthy bankAB (requestFromA "SB1000000002" "-5")).trace = [] ∧
      (transferHandler healthy bankAB (requestFromA "SB1000000002" "-5")).db = bankAB) ∧
    parseFloat (.str "1e-400") = .fin 0 ∧
    (transferHandler healthy bankAB (requestFromA "SB1000000002" "1e-400")).response
      = ⟨400, "Invalid amount. Must be a positive number"⟩ ∧
    (transferHandler healthy bankAB (requestFromA "SB1000000002" "1e-400")).trace = [] ∧
    (transferHandler healthy bankAB (requestFromA "SB1000000002" "1e-400")).db = bankAB :=
  ⟨validation_fails_fast healthy bankAB (requestFromA "SB1000000002" "-5")
      (Or.inr (Or.inr (Or.inr (Or.inr (Or.inr (Or.inr ⟨-5, by decide!, by norm_num⟩)))))),
    by decide!, by decide!, by decide!, by decide!⟩

/-- C11 (amount well-formedness), evaluated at the failing input. The amount string 12abc is
not a well-formed decimal number, yet the request of A (balance 500.00) to B is not refused:
line 18 reads the numeric prefix 12 with parseFloat and lines 20-26 test only the number read,
so the call is answered with success, a debit is issued, and A ends at 488.00, B at 112.00. -/
theorem amount_trailing_characters :
    wellFormedDecimal "12abc" = false ∧
    validate (requestFromA "SB1000000002" "12abc") = .ok ("SB1000000002", 12) ∧
    (transferHandler healthy bankAB (requestFromA "SB1000000002" "12abc")).response
      = transferSuccessful ∧
    debits (transferHandler healthy bankAB (requestFromA "SB1000000002" "12abc")).trace = true ∧
    (transferHandler healthy bankAB (requestFromA "SB1000000002" "12abc")).db.accounts
      = [{ accountA with balance := 48800 }, { accountB with balance := 11200 }] := by
  decide!

/-- C13, as stated, fails: with A (id 1, owner 10) and B (id 2, owner 20), the transfer from A
to B locks row 1 and then row 2, and the transfer from B to A locks row 2 and then row 1. The
two orders differ, and the second is not ascending. -/
theorem lock_order_counterexample :
    (transferHandler healthy bankAB (requestFromA "SB1000000002" "50")).response
      = transferSuccessful ∧
    (transferHandler healthy bankAB (requestFromB "SB1000000001" "50")).response
      = transferSuccessful ∧
    lockOrder (transferHandler healthy bankAB (requestFromA "SB1000000002" "50")).trace
      = [1, 2] ∧
    lockOrder (transferHandler healthy bankAB (requestFromB "SB1000000001" "50")).trace
      = [2, 1] := by
  decide!

/-- C13, amended (lock order). Whenever the handler locks a destination row, it has locked
the rows of the caller before: the locks are taken in the order source first, destination
second, whatever the identifiers of the two accounts. -/
theorem lock_order (env : Env) (db : Tables) (req : Request)
    (h : ∃ n rows, rows ≠ [] ∧
      Event.selectReceiverForUpdate n rows ∈ (transferHandler env db req).trace) :
    ∃ toAccount amt src sr dst dr,
      validate req = .ok (toAccount, amt) ∧
      selectByUserId db req.userId = src :: sr ∧
      selectByAccountNumber db toAccount = dst :: dr ∧
      lockOrder (transferHandler env db req).trace
        = (src :: sr).map (·.id) ++ (dst :: dr).map (·.id) := by
  rcases hv : validate req with resp | ⟨toAccount, amt⟩
  · rw [transferHandler_invalid hv] at h
    simp at h
  · cases hg : env.fault .getConnection with
    | some e =>
      rw [transferHandler_no_connection hv hg] at h
      simp at h
    | none =>
      rw [transferHandler_conclude hv hg] at h ⊢
      revert h
      refine transferUnit_elim
        (P := fun r => (∃ n rows, rows ≠ [] ∧
            Event.selectReceiverForUpdate n rows ∈ (conclude env r).trace) →
          ∃ toAccount' amt' src sr dst dr,
            (Except.ok (toAccount, amt) : Except Response (String × ℚ))
              = .ok (toAccount', amt') ∧
            selectByUserId db req.userId = src :: sr ∧
            selectByAccountNumber db toAccount' = dst :: dr ∧
            lockOrder (conclude env r).trace = (src :: sr).map (·.id) ++ (dst :: dr).map (·.id))
        ?_ ?_ ?_ ?_ ?_ ?_ ?_ ?_ ?_ ?_ ?_ ?_
      · intro e _ h
        simp [conclude] at h
      · intro e _ h
        simp [conclude] at h
      · intro _ h
        simp [conclude] at h
      · intro _ _ _ _ h
        simp [conclude] at h
      · intro _ _ e _ _ _ h
        simp [conclude] at h
      · intro _ _ _ _ _ h
        simp [conclude] at h
      · intro src sr dst dr hs _ hr _ _
        exact ⟨toAccount, amt, src, sr, dst, dr, rfl, hs, hr, by simp [conclude, lockOrder]⟩
      · intro src sr dst dr e hs _ hr _ _ _
        exact ⟨toAccount, amt, src, sr, dst, dr, rfl, hs, hr, by simp [conclude, lockOrder]⟩
      · intro src sr dst dr e hs _ hr _ _ _
        exact ⟨toAccount, amt, src, sr, dst, dr, rfl, hs, hr, by simp [conclude, lockOrder]⟩
      · intro src sr dst dr e hs _ hr _ _ _
        exact ⟨toAccount, amt, src, sr, dst, dr, rfl, hs, hr, by simp [conclude, lockOrder]⟩
      · intro src sr dst dr e hs _ hr _ _ _
        exact ⟨toAccount, amt, src, sr, dst, dr, rfl, hs, hr, by simp [conclude, lockOrder]⟩
      · intro src sr dst dr hs _ hr _ _
        exact ⟨toAccount, amt, src, sr, dst, dr, rfl, hs, hr, by simp [conclude, lockOrder]⟩

/-- Witness for amended C13: B (id 2) sends 50 to A (id 1); row 2 is locked before row 1. -/
theorem lock_order_witness :
    ∃ toAccount amt src sr dst dr,
      validate (requestFromB "SB1000000001" "50") = .ok (toAccount, amt) ∧
      selectByUserId bankAB (requestFromB "SB1000000001" "50").userId = src :: sr ∧
      selectByAccountNumber bankAB toAccount = dst :: dr ∧
      lockOrder (transferHandler healthy bankAB (requestFromB "SB1000000001" "50")).trace
        = (src :: sr).map (·.id) ++ (dst :: dr).map (·.id) :=
  lock_order healthy bankAB (requestFromB "SB1000000001" "50")
    ⟨"SB1000000001", [1], by decide, by decide!⟩

/-- C14, as stated, fails: in the successful transfer of 150 from A to B the funds check is
evaluated when only the row of the source has been locked; the locking read of the destination
comes after it. -/
theorem lock_before_check_counterexample :
    Event.fundsCheck ∈
      (transferHandler healthy bankAB (requestFromA "SB1000000002" "150")).trace ∧
    beforeFundsCheck (transferHandler healthy bankAB (requestFromA "SB1000000002" "150")).trace
      = [.getConnection, .beginTransaction, .selectSenderForUpdate 10 [1]] ∧
    locksReceiver (beforeFundsCheck
      (transferHandler healthy bankAB (requestFromA "SB1000000002" "150")).trace) = false ∧
    locksReceiver (afterFundsCheck
      (transferHandler healthy bankAB (requestFromA "SB1000000002" "150")).trace) = true := by
  decide!

/-- C14, amended (lock before check). In every execution in which the funds check is
evaluated, exactly this precedes it: the connection is obtained, the unit of work is opened,
and the rows of the caller are read with a lock. The destination row is not locked before the
check. The balance compared with the amount is that of the first row returned by this locking
read: when the comparison of line 43 finds it below the amount, nothing but rollback and
release follows and the answer is 400 Insufficient funds; when it does not, the execution goes
on to the locking read of the destination. -/
theorem lock_before_check (env : Env) (db : Tables) (req : Request)
    (h : Event.fundsCheck ∈ (transferHandler env db req).trace) :
    ∃ toAccount amt src sr,
      validate req = .ok (toAccount, amt) ∧
      selectByUserId db req.userId = src :: sr ∧
      beforeFundsCheck (transferHandler env db req).trace
        = [.getConnection, .beginTransaction,
            .selectSenderForUpdate req.userId ((src :: sr).map (·.id))] ∧
      locksReceiver (beforeFundsCheck (transferHandler env db req).trace) = false ∧
      ((toNumber src.balance).lessThan (.fin amt) = true →
        afterFundsCheck (transferHandler env db req).trace = [.rollback, .release] ∧
        (transferHandler env db req).response = ⟨400, "Insufficient funds"⟩) ∧
      ((toNumber src.balance).lessThan (.fin amt) = false →
        ∃ rows rest, afterFundsCheck (transferHandler env db req).trace
          = .selectReceiverForUpdate toAccount rows :: rest) := by
  rcases hv : validate req with resp | ⟨toAccount, amt⟩
  · rw [transferHandler_invalid hv] at h
    simp at h
  · cases hg : env.fault .getConnection with
    | some e =>
      rw [transferHandler_no_connection hv hg] at h
      simp at h
    | none =>
      rw [transferHandler_conclude hv hg] at h ⊢
      revert h
      refine transferUnit_elim
        (P := fun r => Event.fundsCheck ∈ (conclude env r).trace →
          ∃ toAccount' amt' src sr,
            (Except.ok (toAccount, amt) : Except Response (String × ℚ))
              = .ok (toAccount', amt') ∧
            selectByUserId db req.userId = src :: sr ∧
            beforeFundsCheck (conclude env r).trace
              = [.getConnection, .beginTransaction,
                  .selectSenderForUpdate req.userId ((src :: sr).map (·.id))] ∧
            locksReceiver (beforeFundsCheck (conclude env r).trace) = false ∧
            ((toNumber src.balance).lessThan (.fin amt') = true →
              afterFundsCheck (conclude env r).trace = [.rollback, .release] ∧
              (conclude env r).response = ⟨400, "Insufficient funds"⟩) ∧
            ((toNumber src.balance).lessThan (.fin amt') = false →
              ∃ rows rest, afterFundsCheck (conclude env r).trace
                = .selectReceiverForUpdate toAccount' rows :: rest))
        ?_ ?_ ?_ ?_ ?_ ?_ ?_ ?_ ?_ ?_ ?_ ?_
      · intro e _ h
        simp [conclude] at h
      · intro e _ h
        simp [conclude] at h
      · intro _ h
        simp [conclude] at h
      · intro src sr hs hb _
        refine ⟨toAccount, amt, src, sr, rfl, hs, ?_, ?_, ?_, ?_⟩
        · simp [conclude, beforeFundsCheck]
        · simp [conclude, beforeFundsCheck, locksReceiver]
        · intro _
          simp [conclude, afterFundsCheck, errorResponse_funds]
        · intro hle
          exact absurd hb (by simp [hle])
      · intro src sr e hs hle _ _
        exact ⟨toAccount, amt, src, sr, rfl, hs,
          (conclude_after_funds_check env _ _ _ _ _ _ _).1,
          (conclude_after_funds_check env _ _ _ _ _ _ _).2.1,
          fun hlt => absurd hlt (by simp [hle]),
          fun _ => ⟨_, (conclude_after_funds_check env _ _ _ _ _ _ _).2.2⟩⟩
      · intro src sr hs hle _ _
        exact ⟨toAccount, amt, src, sr, rfl, hs,
          (conclude_after_funds_check env _ _ _ _ _ _ _).1,
          (conclude_after_funds_check env _ _ _ _ _ _ _).2.1,
          fun hlt => absurd hlt (by simp [hle]),
          fun _ => ⟨_, (conclude_after_funds_check env _ _ _ _ _ _ _).2.2⟩⟩
      · intro src sr dst dr hs hle _ _ _
        exact ⟨toAccount, amt, src, sr, rfl, hs,
          (conclude_after_funds_check env _ _ _ _ _ _ _).1,
          (conclude_after_funds_check env _ _ _ _ _ _ _).2.1,
          fun hlt => absurd hlt (by simp [hle]),
          fun _ => ⟨_, (conclude_after_funds_check env _ _ _ _ _ _ _).2.2⟩⟩
      · intro src sr dst dr e hs hle _ _ _ _
        exact ⟨toAccount, amt, src, sr, rfl, hs,
          (conclude_after_funds_check env _ _ _ _ _ _ _).1,
          (conclude_after_funds_check env _ _ _ _ _ _ _).2.1,
          fun hlt => absurd hlt (by simp [hle]),
          fun _ => ⟨_, (conclude_after_funds_check env _ _ _ _ _ _ _).2.2⟩⟩
      · intro src sr dst dr e hs hle _ _ _ _
        exact ⟨toAccount, amt, src, sr, rfl, hs,
          (conclude_after_funds_check env _ _ _ _ _ _ _).1,
          (conclude_after_funds_check env _ _ _ _ _ _ _).2.1,
          fun hlt => absurd hlt (by simp [hle]),
          fun _ => ⟨_, (conclude_after_funds_check env _ _ _ _ _ _ _).2.2⟩⟩
      · intro src sr dst dr e hs hle _ _ _ _
        exact ⟨toAccount, amt, src, sr, rfl, hs,
          (conclude_after_funds_check env _ _ _ _ _ _ _).1,
          (conclude_after_funds_check env _ _ _ _ _ _ _).2.1,
          fun hlt => absurd hlt (by simp [hle]),
          fun _ => ⟨_, (conclude_after_funds_check env _ _ _ _ _ _ _).2.2⟩⟩
      · intro src sr dst dr e hs hle _ _ _ _
        exact ⟨toAccount, amt, src, sr, rfl, hs,
          (conclude_after_funds_check env _ _ _ _ _ _ _).1,
          (conclude_after_funds_check env _ _ _ _ _ _ _).2.1,
          fun hlt => absurd hlt (by simp [hle]),
          fun _ => ⟨_, (conclude_after_funds_check env _ _ _ _ _ _ _).2.2⟩⟩
      · intro src sr dst dr hs hle _ _ _
        exact ⟨toAccount, amt, src, sr, rfl, hs,
          (conclude_after_funds_check env _ _ _ _ _ _ _).1,
          (conclude_after_funds_check env _ _ _ _ _ _ _).2.1,
          fun hlt => absurd hlt (by simp [hle]),
          fun _ => ⟨_, (conclude_after_funds_check env _ _ _ _ _ _ _).2.2⟩⟩

/-- Witness for amended C14: A (balance 500.00) asks to send 600 to B; the check is evaluated
right after the locking read of A and ends the execution. -/
theorem lock_before_check_witness :
    ∃ toAccount amt src sr,
      validate (requestFromA "SB1000000002" "600") = .ok (toAccount, amt) ∧
      selectByUserId bankAB (requestFromA "SB1000000002" "600").userId = src :: sr ∧
      beforeFundsCheck (transferHandler healthy bankAB (requestFromA "SB1000000002" "600")).trace
        = [.getConnection, .beginTransaction,
            .selectSenderForUpdate (requestFromA "SB1000000002" "600").userId
              ((src :: sr).map (·.id))] ∧
      locksReceiver (beforeFundsCheck
        (transferHandler healthy bankAB (requestFromA "SB1000000002" "600")).trace) = false ∧
      ((toNumber src.balance).lessThan (.fin amt) = true →
        afterFundsCheck (transferHandler healthy bankAB (requestFromA "SB1000000002" "600")).trace
          = [.rollback, .release] ∧
        (transferHandler healthy bankAB (requestFromA "SB1000000002" "600")).response
          = ⟨400, "Insufficient funds"⟩) ∧
      ((toNumber src.balance).lessThan (.fin amt) = false →
        ∃ rows rest,
          afterFundsCheck
              (transferHandler healthy bankAB (requestFromA "SB1000000002" "600")).trace
            = .selectReceiverForUpdate toAccount rows :: rest) :=
  lock_before_check healthy bankAB (requestFromA "SB1000000002" "600") (by decide!)

/-- C15 (status mapping), evaluated at the failing input. The destination and the funds are in
order and the debit UPDATE then fails in the storage layer, a server-caused failure. With the
error text Record not found in index the answer has status 400, because the test of lines 93-97
finds the phrase not found in the text; with the text Lock wait timeout exceeded the same
failure is answered with status 500. -/
theorem status_follows_error_text :
    (failingAt Step.debit "Record not found in index").fault Step.debit
      = some "Record not found in index" ∧
    (transferHandler (failingAt Step.debit "Record not found in index") bankAB
        (requestFromA "SB1000000002" "150")).trace
      = [.getConnection, .beginTransaction, .selectSenderForUpdate 10 [1], .fundsCheck,
          .selectReceiverForUpdate "SB1000000002" [2], .debit 1 150, .rollback, .release] ∧
    isClientError "Record not found in index" = true ∧
    (transferHandler (failingAt Step.debit "Record not found in index") bankAB
        (requestFromA "SB1000000002" "150")).response
      = ⟨400, "Record not found in index"⟩ ∧
    (transferHandler (failingAt Step.debit "Record not found in index") bankAB
        (requestFromA "SB1000000002" "150")).db = bankAB ∧
    (transferHandler (failingAt Step.debit "Lock wait timeout exceeded") bankAB
        (requestFromA "SB1000000002" "150")).response.status = 500 := by
  decide!

/-- C16, evaluated: the same request meets a failure of the debit UPDATE twice, once with the
text Lock wait timeout exceeded and once with the text Deadlock found when trying to get lock.
Both answers have status 500, each carries the text of the storage error as its message, and
the two answers differ. -/
theorem server_error_message_leak :
    (transferHandler (failingAt Step.debit "Lock wait timeout exceeded") bankAB
        (requestFromA "SB1000000002" "150")).response
      = ⟨500, "Lock wait timeout exceeded"⟩ ∧
    (transferHandler (failingAt Step.debit "Deadlock found when trying to get lock") bankAB
        (requestFromA "SB1000000002" "150")).response
      = ⟨500, "Deadlock found when trying to get lock"⟩ ∧
    (transferHandler (failingAt Step.debit "Lock wait timeout exceeded") bankAB
        (requestFromA "SB1000000002" "150")).response ≠
      (transferHandler (failingAt Step.debit "Deadlock found when trying to get lock") bankAB
        (requestFromA "SB1000000002" "150")).response := by
  decide!

/-- C17 (no self-loop). Start from a ledger in which every row has a source id different from
its destination id. After any finite sequence of calls of the handler, every row of the ledger
still has a source id different from its destination id. -/
theorem no_self_loop (db : Tables) (calls : List Call)
    (h : ∀ r ∈ db.transactions, r.from_account_id ≠ r.to_account_id) :
    ∀ r ∈ (runCalls db calls).1.transactions, r.from_account_id ≠ r.to_account_id :=
  runCalls_noSelfLoop calls db h

/-- Witness for C17: A first asks to send 150 to its own number (refused), then sends 150 to
B; the ledger ends with the single row from 1 to 2. -/
theorem no_self_loop_witness :
    NoSelfLoop (runCalls bankAB
        [⟨healthy, requestFromA "SB1000000001" "150"⟩,
         ⟨healthy, requestFromA "SB1000000002" "150"⟩]).1 ∧
    (runCalls bankAB
        [⟨healthy, requestFromA "SB1000000001" "150"⟩,
         ⟨healthy, requestFromA "SB1000000002" "150"⟩]).1.transactions
      = [⟨1, 1, 2, 150, "transfer", "success", 0⟩] :=
  ⟨no_self_loop bankAB
      [⟨healthy, requestFromA "SB1000000001" "150"⟩,
       ⟨healthy, requestFromA "SB1000000002" "150"⟩] (by decide),
    by decide!⟩

/-- C18 (source ownership). Let the accounts table obey its key constraint (ids pairwise
distinct). For every call made on behalf of user `u`, whatever the request body and whatever
the storage failures, the accounts afterwards are the same rows, in the same order, with the
same ids and owners, and a balance has decreased only on a row whose owner is `u`. -/
theorem source_ownership (env : Env) (db : Tables) (req : Request) (hk : WellKeyed db) :
    OnlyCallerDebited req.userId db.accounts (transferHandler env db req).db.accounts := by
  unfold OnlyCallerDebited
  rcases transferHandler_outcome env db req with ⟨hdb, _⟩ | hok
  · rw [hdb]
    exact List.forall₂_same.mpr (fun a _ => ⟨rfl, rfl, fun h => absurd h (lt_irrefl _)⟩)
  · obtain ⟨toAccount, amt, src, sr, dst, dr, hv, hs, -, -, -, -, -, hdb⟩ := hok
    rw [hdb]
    show List.Forall₂ _ db.accounts (db.accounts.map (movedAccount src.id dst.id amt))
    rw [List.forall₂_map_right_iff]
    apply List.forall₂_same.mpr
    intro a ha
    have hpos : 0 < amt := (validate_ok hv).1
    obtain ⟨hsrc, hown⟩ := mem_of_select_user hs
    refine ⟨movedAccount_id _ _ _ a, ?_, ?_⟩
    · unfold movedAccount
      split
      · rfl
      · split <;> rfl
    · unfold movedAccount
      split
      · rename_i hid
        intro _
        have : a = src := List.inj_on_of_nodup_map hk ha hsrc hid
        rw [this]
        exact hown
      · split
        · intro hlt
          have hlt' : toCents (fromCents a.balance + amt) < a.balance := hlt
          have := toCents_credit a.balance hpos.le
          omega
        · intro hlt
          exact absurd hlt (lt_irrefl _)

/-- Witness for C18: user 10 (owner of A) sends 150 to B; only A, owned by 10, went down. -/
theorem source_ownership_witness :
    OnlyCallerDebited (requestFromA "SB1000000002" "150").userId bankAB.accounts
        (transferHandler healthy bankAB (requestFromA "SB1000000002" "150")).db.accounts ∧
    (transferHandler healthy bankAB (requestFromA "SB1000000002" "150")).db.accounts
      = [{ accountA with balance := 35000 }, { accountB with balance := 25000 }] :=
  ⟨source_ownership healthy bankAB (requestFromA "SB1000000002" "150") (by decide),
    by decide!⟩

/-- C19, evaluated at two failing inputs. In the first, the ten candidate account numbers all
collide with an existing one; in the second, the `INSERT` into `accounts` throws. In both the
handler answers 500, the row of the new user (id 30) has been inserted and stays, and no
account owned by that user exists. A registration in which nothing goes wrong inserts the user
and exactly one savings account. -/
theorem register_orphan_user :
    ((registerHandler regEnvZero directoryTaken requestAlice).response
        = ⟨500, "Server error", none⟩ ∧
      (registerHandler regEnvZero directoryTaken requestAlice).dir.users
        = [⟨30, "Alice", "alice@example.com", "hash:secret1"⟩] ∧
      accountsOf (registerHandler regEnvZero directoryTaken requestAlice).dir 30 = [] ∧
      ((registerHandler regEnvZero directoryTaken requestAlice).trace.filter
        (fun e => decide (e = .selectAccount "SB1000000000"))).length = 10) ∧
    ((registerHandler regEnvInsertFails directoryEmpty requestAlice).response
        = ⟨500, "Server error", none⟩ ∧
      (registerHandler regEnvInsertFails directoryEmpty requestAlice).dir.users
        = [⟨30, "Alice", "alice@example.com", "hash:secret1"⟩] ∧
      accountsOf (registerHandler regEnvInsertFails directoryEmpty requestAlice).dir 30 = []) ∧
    ((registerHandler regEnvZero directoryEmpty requestAlice).response
        = ⟨201, "User registered successfully", none⟩ ∧
      (registerHandler regEnvZero directoryEmpty requestAlice).dir.users
        = [⟨30, "Alice", "alice@example.com", "hash:secret1"⟩] ∧
      accountsOf (registerHandler regEnvZero directoryEmpty requestAlice).dir 30
        = [⟨3, 30, "SB1000000000", "savings", 0⟩]) := by
  decide!

/-- C20 (token formats). For every non-empty token `t` without a space, the header Bearer t
and the header t are handled identically: the same token `t` is extracted, the whole outcome
of the middleware is the same, and whenever the secret is configured it is `t` that is handed
to `jwt.verify` in both cases. -/
theorem token_formats (env : AuthEnv) (t : String) (hne : t ≠ "") (hsp : ' ' ∉ t.data) :
    extractToken ("Bearer " ++ t) = some t ∧ extractToken t = some t ∧
    verifyToken env (some ("Bearer " ++ t)) = verifyToken env (some t) ∧
    (∀ secret, env.jwtSecret = some secret → secret ≠ "" →
      (verifyToken env (some ("Bearer " ++ t))).verified = [t] ∧
      (verifyToken env (some t)).verified = [t]) := by
  have hb := extractToken_bearer t hsp
  have hp := extractToken_plain t hsp
  have hne' : "Bearer " ++ t ≠ "" := by
    intro e
    have hd : ("Bearer " ++ t).data = "".data := by rw [e]
    rw [String.data_append, bearer_data] at hd
    simp at hd
  have hplain : ∀ secret, env.jwtSecret = some secret → secret ≠ "" →
      (verifyToken env (some t)).verified = [t] := by
    intro secret hs hsne
    simp only [verifyToken, hne, hp, hs, hsne, if_false]
    cases env.jwtVerify t secret with
    | ok id => rfl
    | error name =>
      simp only
      split
      · rfl
      · split <;> rfl
  have heq : verifyToken env (some ("Bearer " ++ t)) = verifyToken env (some t) := by
    simp only [verifyToken, hne, hne', hb, hp, if_false]
  refine ⟨hb, hp, heq, ?_⟩
  intro secret hs hsne
  exact ⟨by rw [heq]; exact hplain secret hs hsne, hplain secret hs hsne⟩

/-- Witness for C20: the token abc, sent as Bearer abc and as abc, reaches the verifier in
both cases and authenticates user 10. -/
theorem token_formats_witness :
    (extractToken ("Bearer " ++ "abc") = some "abc" ∧ extractToken "abc" = some "abc" ∧
      verifyToken sampleAuth (some ("Bearer " ++ "abc")) = verifyToken sampleAuth (some "abc") ∧
      (∀ secret, sampleAuth.jwtSecret = some secret → secret ≠ "" →
        (verifyToken sampleAuth (some ("Bearer " ++ "abc"))).verified = ["abc"] ∧
        (verifyToken sampleAuth (some "abc")).verified = ["abc"])) ∧
    verifyToken sampleAuth (some "Bearer abc") = ⟨.next 10, ["abc"]⟩ ∧
    verifyToken sampleAuth (some "abc") = ⟨.next 10, ["abc"]⟩ :=
  ⟨token_formats sampleAuth "abc" (by decide) (by decide), by decide, by decide⟩

/-- C21 (registration validation). If name, e-mail or password is missing, or the e-mail does
not match the pattern (a run without white space and `@`, an `@`, a second such run, a point,
a third such run), or the password has a length below 6, or the trimmed name has a length
below 2 (lengths as JavaScript counts them), then the handler answers with status 400 and
performs no storage operation: the users and accounts tables are unchanged. -/
theorem registration_validation (env : RegEnv) (dir : Directory) (req : RegisterRequest)
    (h : req.name = none ∨ req.email = none ∨ req.password = none ∨
      (∃ e, req.email = some e ∧ ¬ MatchesEmailPattern e) ∨
      (∃ p, req.password = some p ∧ utf16Length p < 6) ∨
      (∃ n, req.name = some n ∧ utf16Length (jsTrim n) < 2)) :
    (registerHandler env dir req).response.status = 400 ∧
    (registerHandler env dir req).trace = [] ∧
    (registerHandler env dir req).dir = dir := by
  rcases hv : validateRegistration req with resp | ⟨name, email, password⟩
  · rw [registerHandler_invalid hv]
    exact ⟨validateRegistration_error_status hv, rfl, rfl⟩
  · exfalso
    obtain ⟨hn, he, hp, -, -, -, hre, hpw, hnm⟩ := validateRegistration_ok hv
    rcases h with h | h | h | ⟨e, h, hm⟩ | ⟨p, h, hl⟩ | ⟨n, h, hl⟩
    · rw [hn] at h; cases h
    · rw [he] at h; cases h
    · rw [hp] at h; cases h
    · rw [he] at h
      simp only [Option.some.injEq] at h
      subst h
      exact hm ((emailRegexTest_iff email).mp hre)
    · rw [hp] at h
      simp only [Option.some.injEq] at h
      subst h
      omega
    · rw [hn] at h
      simp only [Option.some.injEq] at h
      subst h
      omega

/-- Witness for C21: a request whose password has five characters is answered with 400 and
touches no table. -/
theorem registration_validation_witness :
    (registerHandler regEnvZero directoryEmpty
        ⟨some "Alice", some "alice@example.com", some "12345"⟩).response.status = 400 ∧
    (registerHandler regEnvZero directoryEmpty
        ⟨some "Alice", some "alice@example.com", some "12345"⟩).trace = [] ∧
    (registerHandler regEnvZero directoryEmpty
        ⟨some "Alice", some "alice@example.com", some "12345"⟩).dir = directoryEmpty :=
  registration_validation regEnvZero directoryEmpty
    ⟨some "Alice", some "alice@example.com", some "12345"⟩
    (Or.inr (Or.inr (Or.inr (Or.inr (Or.inl ⟨"12345", rfl, by decide⟩)))))

/-- C22 (account number format). For every random value `r`, a Number with 0 <= r < 1, the
generated account number is SB followed by exactly ten characters, all of them decimal digits,
the first of them not 0; their value is the integer Math.floor(1000000000 + r * 9000000000) as
line 53 computes it (the product and the sum rounded to Number values), which lies between
1000000000 and 9999999999. -/
theorem account_number_format (r : ℚ) (hd : roundToDouble r = r) (h0 : 0 ≤ r) (h1 : r < 1) :
    ∃ digits, (accountNumberOf r).data = 'S' :: 'B' :: digits ∧
      digits.length = 10 ∧ (∀ c ∈ digits, isDecimalDigit c = true) ∧
      digits.head? ≠ some '0' ∧
      (digitsValue digits : Int) = accountInteger r ∧
      (1000000000 : Int) ≤ accountInteger r ∧
      accountInteger r ≤ 9999999999 := by
  obtain ⟨hlo, hhi⟩ := accountInteger_bounds r hd h0 h1
  obtain ⟨n, hn⟩ : ∃ n : Nat, accountInteger r = Int.ofNat n :=
    ⟨(accountInteger r).toNat, by
      simp only [Int.ofNat_eq_coe]; omega⟩
  have hn1 : 10 ^ 9 ≤ n := by
    rw [hn] at hlo
    have : (1000000000 : Int) ≤ (n : Int) := hlo
    omega
  have hn2 : n < 10 ^ (9 + 1) := by
    rw [hn] at hhi
    have : (n : Int) ≤ 9999999999 := hhi
    omega
  obtain ⟨cs, hcs, hlen, hall, hhead, hval⟩ :=
    toDigitsCore_numeral 9 n hn1 (by omega) hn2 (n + 1) [] (Nat.lt_succ_self n)
  refine ⟨cs, ?_, hlen, hall, hhead, ?_, hlo, hhi⟩
  · unfold accountNumberOf
    rw [hn]
    show ("SB" ++ Nat.repr n).data = _
    rw [String.data_append]
    show "SB".data ++ (Nat.toDigits 10 n) = _
    unfold Nat.toDigits
    rw [hcs]
    simp
  · rw [hn, hval]
    rfl

/-- Witness for C22: the random value 0.7 (the Number nearest to 7/10) yields SB7300000000,
the product 0.7 * 9000000000 being rounded to 6300000000; the random value 0.5 yields
SB5500000000 and the greatest Number below 1 yields SB9999999999. -/
theorem account_number_format_witness :
    (∃ digits, (accountNumberOf (roundToDouble (7 / 10))).data = 'S' :: 'B' :: digits ∧
      digits.length = 10 ∧ (∀ c ∈ digits, isDecimalDigit c = true) ∧
      digits.head? ≠ some '0' ∧
      (digitsValue digits : Int) = accountInteger (roundToDouble (7 / 10)) ∧
      (1000000000 : Int) ≤ accountInteger (roundToDouble (7 / 10)) ∧
      accountInteger (roundToDouble (7 / 10)) ≤ 9999999999) ∧
    accountNumberOf (roundToDouble (7 / 10)) = "SB7300000000" ∧
    accountNumberOf (1 / 2) = "SB5500000000" ∧
    accountNumberOf (1 - pow2 (-53)) = "SB9999999999" :=
  ⟨account_number_format (roundToDouble (7 / 10)) (by decide!) (by decide!) (by decide!),
    by decide!, by decide!, by decide!⟩

/-- C23 (unique account numbers). Start from an accounts table whose account numbers are
pairwise distinct. After any call of the registration handler they are still pairwise
distinct: the table is either unchanged or extended by one savings account of the new user
whose number was looked up and found on no existing row; the handler looks up at most 10
candidates; and when the request is valid, nothing throws, the e-mail is new and all 10
candidates collide with existing numbers, it answers 500 after 10 lookups and inserts no
account. -/
theorem unique_account_numbers (env : RegEnv) (dir : Directory) (req : RegisterRequest)
    (hd : (dir.accounts.map (·.account_number)).Nodup) :
    ((registerHandler env dir req).dir.accounts.map (·.account_number)).Nodup ∧
    ((registerHandler env dir req).dir.accounts = dir.accounts ∨
      ∃ n, (∀ b ∈ dir.accounts, b.account_number ≠ n) ∧
        RegEvent.selectAccount n ∈ (registerHandler env dir req).trace ∧
        (registerHandler env dir req).dir.accounts = dir.accounts ++
          [⟨env.accountId, env.userId, n, "savings", env.initialBalance⟩]) ∧
    ((registerHandler env dir req).trace.filter isAccountLookup).length ≤ 10 ∧
    (∀ name email password, validateRegistration req = .ok (name, email, password) →
      (∀ s, env.fault s = none) → (∀ u ∈ dir.users, u.email ≠ email) →
      (∀ i, i < 10 → ∃ a ∈ dir.accounts,
        a.account_number = accountNumberOf (env.random i)) →
      (registerHandler env dir req).response.status = 500 ∧
      (registerHandler env dir req).dir.accounts = dir.accounts ∧
      ((registerHandler env dir req).trace.filter isAccountLookup).length = 10) := by
  have hmain : ((registerHandler env dir req).dir.accounts = dir.accounts ∨
      ∃ n, (∀ b ∈ dir.accounts, b.account_number ≠ n) ∧
        RegEvent.selectAccount n ∈ (registerHandler env dir req).trace ∧
        (registerHandler env dir req).dir.accounts = dir.accounts ++
          [⟨env.accountId, env.userId, n, "savings", env.initialBalance⟩]) ∧
      ((registerHandler env dir req).trace.filter isAccountLookup).length ≤ 10 := by
    rcases hv : validateRegistration req with resp | ⟨name, email, password⟩
    · rw [registerHandler_invalid hv]
      exact ⟨Or.inl rfl, by simp⟩
    · obtain ⟨hdir, htr⟩ := registerHandler_valid env dir hv
      rw [hdir, htr]
      exact registerUnit_spec env dir name email password
  refine ⟨?_, hmain.1, hmain.2, ?_⟩
  · rcases hmain.1 with h | ⟨n, hfresh, -, h⟩
    · rw [h]; exact hd
    · rw [h, List.map_append, List.nodup_append]
      refine ⟨hd, by simp, ?_⟩
      intro x hx hx'
      simp only [List.map_cons, List.map_nil, List.mem_singleton] at hx'
      subst hx'
      obtain ⟨b, hb, hbn⟩ := List.mem_map.mp hx
      exact hfresh b hb hbn
  · intro name email password hv hf hnew hall
    exact registerHandler_all_collide hv hf hnew hall

/-- Witness for C23: one account carries SB1000000000 and every random value is 0, so all ten
candidates collide; the handler answers 500 and the accounts are as before. -/
theorem unique_account_numbers_witness :
    DistinctNumbers (registerHandler regEnvZero directoryTaken requestAlice).dir.accounts ∧
    (registerHandler regEnvZero directoryTaken requestAlice).response.status = 500 ∧
    (registerHandler regEnvZero directoryTaken requestAlice).dir.accounts
      = directoryTaken.accounts ∧
    ((registerHandler regEnvZero directoryTaken requestAlice).trace.filter
      isAccountLookup).length = 10 :=
  ⟨(unique_account_numbers regEnvZero directoryTaken requestAlice (by decide)).1,
    by decide!, by decide!, by decide!⟩

/-- C24 (history query parameters). Let the lookup of the user's accounts not fail. If the
user owns no account, the handler answers 200 with the empty list and runs no ledger query.
If the user owns n >= 1 accounts, it hands exactly one ledger query to the storage layer: the
text built from the list of n placeholders `?` separated by commas, used for both `IN`
clauses, so that the text holds 2n placeholders in all; and the parameter list is the account
ids followed by the same ids in the same order, of length 2n. -/
theorem history_query_parameters (env : HistoryEnv) (db : Tables) (userId : Nat)
    (hf : env.fault .selectAccounts = none) :
    (selectByUserId db userId = [] ∧
      historyHandler env db userId = ⟨200, .rows [], []⟩) ∨
    (∃ placeholders,
      1 ≤ (selectByUserId db userId).length ∧
      (historyHandler env db userId).executed
        = [⟨historyQueryText placeholders,
            (selectByUserId db userId).map (·.id) ++ (selectByUserId db userId).map (·.id)⟩] ∧
      placeholders.data
        = List.intersperse ',' (List.replicate (selectByUserId db userId).length '?') ∧
      countPlaceholders placeholders = (selectByUserId db userId).length ∧
      countPlaceholders (historyQueryText placeholders)
        = 2 * (selectByUserId db userId).length ∧
      ((selectByUserId db userId).map (·.id) ++ (selectByUserId db userId).map (·.id)).length
        = 2 * (selectByUserId db userId).length) := by
  cases hs : selectByUserId db userId with
  | nil =>
    left
    refine ⟨rfl, ?_⟩
    simp [historyHandler, hf, hs]
  | cons a rest =>
    right
    refine ⟨jsJoin "," (((a :: rest).map (·.id)).map (fun _ => "?")), by simp, ?_, ?_, ?_, ?_,
      ?_⟩
    · unfold historyHandler
      simp only [hf, hs]
      cases env.fault .selectTransactions <;> simp
    · rw [jsJoin_placeholders_data]
      simp
    · rw [countPlaceholders_join]
      simp
    · rw [countPlaceholders_queryText, countPlaceholders_join]
      simp
    · simp
      omega

/-- Witness for C24: user 10 owns the accounts 1 and 4; the query has the placeholder list
?,? in both clauses and the parameters 1, 4, 1, 4. -/
theorem history_query_parameters_witness :
    ((selectByUserId bankHistory 10 = [] ∧
        historyHandler historyHealthy bankHistory 10 = ⟨200, .rows [], []⟩) ∨
      (∃ placeholders,
        1 ≤ (selectByUserId bankHistory 10).length ∧
        (historyHandler historyHealthy bankHistory 10).executed
          = [⟨historyQueryText placeholders,
              (selectByUserId bankHistory 10).map (·.id) ++
                (selectByUserId bankHistory 10).map (·.id)⟩] ∧
        placeholders.data
          = List.intersperse ',' (List.replicate (selectByUserId bankHistory 10).length '?') ∧
        countPlaceholders placeholders = (selectByUserId bankHistory 10).length ∧
        countPlaceholders (historyQueryText placeholders)
          = 2 * (selectByUserId bankHistory 10).length ∧
        ((selectByUserId bankHistory 10).map (·.id) ++
            (selectByUserId bankHistory 10).map (·.id)).length
          = 2 * (selectByUserId bankHistory 10).length)) ∧
    (historyHandler historyHealthy bankHistory 10).executed
      = [⟨historyQueryText "?,?", [1, 4, 1, 4]⟩] ∧
    historyHandler historyHealthy bankHistory 99 = ⟨200, .rows [], []⟩ :=
  ⟨history_query_parameters historyHealthy bankHistory 10 rfl, by decide!, by decide⟩

/-- C25 (authentication gate). The middleware calls `next()` with `req.userId` set to `id`
exactly when the header is present and not empty, a non-empty token is taken from it, the
secret is configured, and `jwt.verify` accepts that token with decoded id `id`. In every other
case it answers instead: with 403 when the header or the token is missing, with 500 when the
secret is missing, with 401 when `jwt.verify` reports an error. -/
theorem authentication_gate (env : AuthEnv) (authorization : Option String) :
    (∀ id, (verifyToken env authorization).result = .next id ↔
      ∃ header token secret, authorization = some header ∧ header ≠ "" ∧
        extractToken header = some token ∧ token ≠ "" ∧
        env.jwtSecret = some secret ∧ secret ≠ "" ∧ env.jwtVerify token secret = .ok id) ∧
    (∀ r, (verifyToken env authorization).result = .respond r →
      (r.status = 403 ∧ (verifyToken env authorization).verified = [] ∧
        (authorization = none ∨ authorization = some "" ∨
          ∃ header, authorization = some header ∧
            (extractToken header = none ∨ extractToken header = some ""))) ∨
      (r.status = 500 ∧ (verifyToken env authorization).verified = [] ∧
        ∃ header token, authorization = some header ∧ header ≠ "" ∧
          extractToken header = some token ∧ token ≠ "" ∧
          (env.jwtSecret = none ∨ env.jwtSecret = some "")) ∨
      (r.status = 401 ∧
        ∃ header token secret name, authorization = some header ∧ header ≠ "" ∧
          extractToken header = some token ∧ token ≠ "" ∧
          env.jwtSecret = some secret ∧ secret ≠ "" ∧
          env.jwtVerify token secret = .error name)) := by
  cases authorization with
  | none => simp [verifyToken]
  | some header =>
    by_cases hh : header = ""
    · subst hh
      simp [verifyToken]
    · cases ht : extractToken header with
      | none =>
        refine ⟨?_, ?_⟩
        · intro id
          simp [verifyToken, hh, ht]
        · intro r hr
          simp [verifyToken, hh, ht] at hr
          subst hr
          simp [verifyToken, hh, ht]
      | some token =>
        by_cases htk : token = ""
        · subst htk
          refine ⟨?_, ?_⟩
          · intro id
            simp [verifyToken, hh, ht]
          · intro r hr
            simp [verifyToken, hh, ht] at hr
            subst hr
            simp [verifyToken, hh, ht]
        · cases hs : env.jwtSecret with
          | none =>
            refine ⟨?_, ?_⟩
            · intro id
              simp [verifyToken, hh, ht, htk, hs]
            · intro r hr
              simp [verifyToken, hh, ht, htk, hs] at hr
              subst hr
              simp [verifyToken, hh, ht, htk, hs]
          | some secret =>
            by_cases hsn : secret = ""
            · subst hsn
              refine ⟨?_, ?_⟩
              · intro id
                simp [verifyToken, hh, ht, htk, hs]
              · intro r hr
                simp [verifyToken, hh, ht, htk, hs] at hr
                subst hr
                simp [verifyToken, hh, ht, htk, hs]
            · cases hv : env.jwtVerify token secret with
              | ok id' =>
                refine ⟨?_, ?_⟩
                · intro id
                  simp [verifyToken, hh, ht, htk, hs, hsn, hv]
                · intro r hr
                  simp [verifyToken, hh, ht, htk, hs, hsn, hv] at hr
              | error name =>
                refine ⟨?_, ?_⟩
                · intro id
                  simp only [verifyToken, hh, ht, htk, hs, hsn, hv, if_false]
                  constructor
                  · intro h
                    split at h
                    · cases h
                    · split at h <;> cases h
                  · rintro ⟨header', token', secret', h1, -, h2, -, h3, -, h4⟩
                    simp only [Option.some.injEq] at h1 h2 h3
                    subst h1
                    rw [ht] at h2
                    simp only [Option.some.injEq] at h2
                    subst h2
                    subst h3
                    rw [hv] at h4
                    cases h4
                · intro r hr
                  right; right
                  refine ⟨?_, header, token, secret, name, rfl, hh, ht, htk, rfl, hsn, hv⟩
                  simp only [verifyToken, hh, ht, htk, hs, hsn, hv, if_false] at hr
                  split at hr
                  · cases hr; rfl
                  · split at hr <;> cases hr <;> rfl

/-- Witness for C25: with the sample verifier the header Bearer abc leads to `next()` for user
10, the header Bearer xyz is answered with 401, and a missing header with 403. -/
theorem authentication_gate_witness :
    (verifyToken sampleAuth (some "Bearer abc")).result = .next 10 ∧
    (verifyToken sampleAuth (some "Bearer xyz")).result = .respond ⟨401, "Invalid token"⟩ ∧
    (verifyToken sampleAuth none).result = .respond ⟨403, "No token provided"⟩ ∧
    (verifyToken ⟨none, sampleAuth.jwtVerify⟩ (some "Bearer abc")).result
      = .respond ⟨500, "Server configuration error"⟩ :=
  ⟨((authentication_gate sampleAuth (some "Bearer abc")).1 10).mpr
      ⟨"Bearer abc", "abc", "secret", rfl, by decide, by decide, by decide, rfl, by decide,
        by decide⟩,
    by decide, by decide, by decide⟩

/-- C26 (history visibility). Let no statement of the history handler fail. Then the handler
answers 200 with a list of rows such that: a ledger row occurs in the list exactly when its
source id or its destination id is the id of an account of the user (so a row between two
accounts of other users never occurs); the list is ordered by `created_at`, newest first; and
when the accounts table obeys its key constraint, each such ledger row occurs exactly once. -/
theorem history_visibility (env : HistoryEnv) (db : Tables) (userId : Nat)
    (hf : ∀ s, env.fault s = none) :
    ∃ rows, (historyHandler env db userId).body = .rows rows ∧
      (historyHandler env db userId).status = 200 ∧
      (∀ t, (∃ r ∈ rows, r.transaction = t) ↔
        (t ∈ db.transactions ∧
          (t.from_account_id ∈ (selectByUserId db userId).map (·.id) ∨
            t.to_account_id ∈ (selectByUserId db userId).map (·.id)))) ∧
      List.Sorted newerFirst rows ∧
      (WellKeyed db →
        (rows.map (·.transaction)).Perm
          (db.transactions.filter (touches ((selectByUserId db userId).map (·.id))))) := by
  cases hs : selectByUserId db userId with
  | nil =>
    refine ⟨[], ?_, ?_, ?_, List.sorted_nil, ?_⟩
    · simp [historyHandler, hf, hs]
    · simp [historyHandler, hf, hs]
    · intro t
      simp
    · intro _
      simp [touches]
  | cons a rest =>
    have hlen : countPlaceholders (jsJoin "," (((a :: rest).map (·.id)).map (fun _ => "?")))
        = ((a :: rest).map (·.id)).length := countPlaceholders_join _
    have hbody : historyHandler env db userId =
        ⟨200, .rows (executeHistoryQuery db ((a :: rest).map (·.id)).length
            ((a :: rest).map (·.id)).length
            ((a :: rest).map (·.id) ++ (a :: rest).map (·.id))),
          [⟨historyQueryText (jsJoin "," (((a :: rest).map (·.id)).map (fun _ => "?"))),
            (a :: rest).map (·.id) ++ (a :: rest).map (·.id)⟩]⟩ := by
      unfold historyHandler
      simp only [hf, hs]
      rw [hlen]
      simp
    rw [hbody]
    exact ⟨_, rfl, rfl, executeHistoryQuery_mem db _, executeHistoryQuery_sorted db _ _ _,
      executeHistoryQuery_perm db _⟩

/-- Witness for C26: user 10 owns the accounts 1 and 4. Of the four ledger rows the history
shows the rows 3, 4 and 1, newest first, and not the row between the accounts 2 and 3. -/
theorem history_visibility_witness :
    (∃ rows, (historyHandler historyHealthy bankHistory 10).body = .rows rows ∧
      (historyHandler historyHealthy bankHistory 10).status = 200 ∧
      (∀ t, (∃ r ∈ rows, r.transaction = t) ↔
        (t ∈ bankHistory.transactions ∧
          (t.from_account_id ∈ (selectByUserId bankHistory 10).map (·.id) ∨
            t.to_account_id ∈ (selectByUserId bankHistory 10).map (·.id)))) ∧
      List.Sorted newerFirst rows ∧
      (WellKeyed bankHistory →
        (rows.map (·.transaction)).Perm
          (bankHistory.transactions.filter
            (touches ((selectByUserId bankHistory 10).map (·.id)))))) ∧
    (historyHandler historyHealthy bankHistory 10).body
      = .rows [⟨⟨3, 3, 4, 8, "transfer", "success", 300⟩, some "SB1000000003",
            some "SB1000000004"⟩,
          ⟨⟨4, 2, 1, 9, "transfer", "success", 150⟩, some "SB1000000002",
            some "SB1000000001"⟩,
          ⟨⟨1, 1, 2, 50, "transfer", "success", 100⟩, some "SB1000000001",
            some "SB1000000002"⟩] :=
  ⟨history_visibility historyHealthy bankHistory 10 (fun _ => rfl), by decide!⟩

/-- C27 (frame). For every call answered with success there are the source account (first
account of the caller) and the destination account (first account with the destination number)
such that: the accounts afterwards are the same rows in the same order, each with its id,
owner, account number and type unchanged; every row whose id is neither that of the source nor
that of the destination is unchanged altogether; and the ledger afterwards is the ledger
before, unchanged, followed by one new row. -/
theorem frame (env : Env) (db : Tables) (req : Request)
    (h : (transferHandler env db req).response = transferSuccessful) :
    ∃ toAccount amt src sr dst dr row,
      validate req = .ok (toAccount, amt) ∧
      selectByUserId db req.userId = src :: sr ∧
      selectByAccountNumber db toAccount = dst :: dr ∧
      FramePreserved src.id dst.id db.accounts (transferHandler env db req).db.accounts ∧
      (transferHandler env db req).db.transactions = db.transactions ++ [row] := by
  obtain ⟨toAccount, amt, src, sr, dst, dr, hv, hs, hb, hr, hne, hf⟩ := success_of_response h
  rcases transferHandler_outcome env db req with ⟨_, hst⟩ | hok
  · rw [h] at hst
    exact absurd rfl hst
  · obtain ⟨toAccount', amt', src', sr', dst', dr', hv', hs', -, hr', -, -, -, hdb⟩ := hok
    rw [hv] at hv'
    simp only [Except.ok.injEq, Prod.mk.injEq] at hv'
    obtain ⟨rfl, rfl⟩ := hv'
    rw [hs] at hs'
    rw [hr] at hr'
    simp only [List.cons.injEq] at hs' hr'
    obtain ⟨rfl, rfl⟩ := hs'
    obtain ⟨rfl, rfl⟩ := hr'
    refine ⟨toAccount, amt, src, sr, dst, dr, transferRow env src.id dst.id amt, hv, hs, hr,
      ?_, by rw [hdb]⟩
    rw [hdb]
    show List.Forall₂ _ db.accounts (db.accounts.map (movedAccount src.id dst.id amt))
    rw [List.forall₂_map_right_iff]
    apply List.forall₂_same.mpr
    intro a _
    unfold movedAccount
    split
    · rename_i hid
      exact ⟨rfl, rfl, rfl, rfl, fun h1 _ => absurd hid h1⟩
    · split
      · rename_i hid
        exact ⟨rfl, rfl, rfl, rfl, fun _ h2 => absurd hid h2⟩
      · exact ⟨rfl, rfl, rfl, rfl, fun _ _ => rfl⟩

/-- Witness for C27: A sends 150 to B in tables that also hold a third account; the call
succeeds, so the theorem applies, and the third account is found unchanged. -/
theorem frame_witness :
    (∃ toAccount amt src sr dst dr row,
      validate (requestFromA "SB1000000002" "150") = .ok (toAccount, amt) ∧
      selectByUserId bankABC (requestFromA "SB1000000002" "150").userId = src :: sr ∧
      selectByAccountNumber bankABC toAccount = dst :: dr ∧
      FramePreserved src.id dst.id bankABC.accounts
        (transferHandler healthy bankABC (requestFromA "SB1000000002" "150")).db.accounts ∧
      (transferHandler healthy bankABC (requestFromA "SB1000000002" "150")).db.transactions
        = bankABC.transactions ++ [row]) ∧
    (transferHandler healthy bankABC (requestFromA "SB1000000002" "150")).db.accounts
      = [{ accountA with balance := 35000 }, { accountB with balance := 25000 },
          ⟨3, 30, "SB1000000003", "savings", 7000⟩] :=
  ⟨frame healthy bankABC (requestFromA "SB1000000002" "150") (by decide!), by decide!⟩


end Banking
